import Mathlib

/-!
Shallow embedding of `src/backend/app.py` (City Evacuation AI — Flask backend,
an 8-puzzle A* solver) and verification of its specification claims.

The board is a Python list of 9 integers; we embed it as `List Nat`.
Machine integers do not overflow in this program (all values are tiny), so
`Nat`/`Int` are used directly.  The Flask/HTTP layer, timing
(`time.perf_counter`), and the float-valued metrics (`time_taken_ms`,
`branching_factor`) are transport/observability concerns outside the claims
and are not embedded; every board-level computation is.
-/

/-- `GOAL_STATE` from app.py line 31. -/
def GOAL_STATE : List Nat := [1, 2, 3, 4, 5, 6, 7, 8, 0]

/-- `GOAL_INDEX_MAP` from app.py line 36: `{val: idx for idx, val in enumerate(GOAL_STATE)}`.
Since `GOAL_STATE` lists each value once, the dict maps a value to its unique
index in `GOAL_STATE`, i.e. `List.indexOf`. -/
def GOAL_INDEX_MAP (val : Nat) : Nat := GOAL_STATE.indexOf val

/-- Manhattan distance between grid cells for flat indices `i`, `j`:
`divmod(i, 3)` row/column pairs, summed absolute differences.
This is the shared arithmetic of app.py lines 116-118 and 346-348. -/
def cellDist (i j : Nat) : Nat :=
  ((i : Int) / 3 - (j : Int) / 3).natAbs + ((i : Int) % 3 - (j : Int) % 3).natAbs

/-- `manhattan_distance` from app.py lines 103-119: sum over `enumerate(board_tuple)`
of the cell distance from each non-blank tile's index to its goal index. -/
def manhattan_distance (board : List Nat) : Nat :=
  (board.enum.map (fun p => if p.2 = 0 then 0 else cellDist p.1 (GOAL_INDEX_MAP p.2))).sum

/-- `_MOVES` from app.py lines 127-132: `(row_delta, col_delta, label)` for the blank. -/
def _MOVES : List (Int × Int × String) :=
  [(-1, 0, "up"), (1, 0, "down"), (0, -1, "left"), (0, 1, "right")]

/-- The simultaneous assignment `lst[i], lst[j] = lst[j], lst[i]` of app.py line 149. -/
def listSwap (l : List Nat) (i j : Nat) : List Nat :=
  (l.set i (l.getD j 0)).set j (l.getD i 0)

/-- `_expand` from app.py lines 135-152: slide the blank in each in-bounds direction;
returns `(new_board, direction_label)` pairs in the `_MOVES` order. -/
def _expand (board : List Nat) : List (List Nat × String) :=
  let idx := board.indexOf 0
  let row := idx / 3
  let col := idx % 3
  _MOVES.filterMap (fun m =>
    let nr : Int := (row : Int) + m.1
    let nc : Int := (col : Int) + m.2.1
    if 0 ≤ nr ∧ nr < 3 ∧ 0 ≤ nc ∧ nc < 3 then
      some (listSwap board idx (nr * 3 + nc).toNat, m.2.2)
    else none)

/-- `is_solvable` from app.py lines 77-96: strip the blank, count inversions with
the double loop `for i in range(n): for j in range(i+1, n)`, test evenness. -/
def is_solvable (board : List Nat) : Bool :=
  let tiles := board.filter (· != 0)
  let inversions :=
    ((List.range tiles.length).map (fun i =>
      ((List.range' (i + 1) (tiles.length - (i + 1))).filter
        (fun j => decide (tiles.getD j 0 < tiles.getD i 0))).length)).sum
  inversions % 2 == 0

/-- A board is valid when it is a permutation of `0..8` (what
`sorted(board) == list(range(9))` accepts on genuine integer lists). -/
def ValidBoard (b : List Nat) : Prop := b.Perm (List.range 9)

instance decValidBoard (b : List Nat) : Decidable (ValidBoard b) :=
  List.decidablePerm b (List.range 9)

/-- Specification-side inversion count of a tile list: pairs `i < j` with
`tiles[i] > tiles[j]`. -/
def specInversions (tiles : List Nat) : Nat :=
  ((Finset.range tiles.length ×ˢ Finset.range tiles.length).filter
    (fun p => p.1 < p.2 ∧ tiles.getD p.2 0 < tiles.getD p.1 0)).card

/-- Exactly-`n`-step reachability of `b` from `a` in the `_expand` move graph
(specification side, executable). -/
def reachIn : Nat → List Nat → List Nat → Bool
  | 0, a, b => a == b
  | n + 1, a, b => (_expand a).any (fun p => reachIn n p.1 b)

/-- Some sequence of blank-slide moves turns `a` into `b`. -/
def Reachable (a b : List Nat) : Prop := ∃ n, reachIn n a b = true

/-- The set of move counts realizing `a → b`: `d*` is its least element. -/
def stepsSet (a b : List Nat) : Set Nat := {n | reachIn n a b = true}

/-- `d` is the minimum number of blank-slide moves from `b` to the goal board,
i.e. `d = d*(b)`. -/
def IsMinMoves (b : List Nat) (d : Nat) : Prop := IsLeast (stepsSet b GOAL_STATE) d

/-- A solvable board: the goal board is reachable from it. -/
def Solvable (b : List Nat) : Prop := Reachable b GOAL_STATE

/-- A heap entry of `astar_solve`: the Python tuple `(f, h, g, board_tuple, path)`
pushed at app.py lines 184 and 219-222. -/
structure Entry where
  f : Nat
  h : Nat
  g : Nat
  board : List Nat
  path : List (List Nat × String)
deriving DecidableEq

/-- Three-way comparison on `Nat` (Python `int` comparison). -/
def natCmp (a b : Nat) : Ordering := if a < b then .lt else if a = b then .eq else .gt

/-- Python compares strings by code points; `Char.toNat` is the code point. -/
def charCmp (a b : Char) : Ordering := natCmp a.toNat b.toNat

/-- Lexicographic comparison of lists (Python list/tuple comparison). -/
def listCmp {α : Type} (c : α → α → Ordering) : List α → List α → Ordering
  | [], [] => .eq
  | [], _ :: _ => .lt
  | _ :: _, [] => .gt
  | a :: as, b :: bs =>
    match c a b with
    | .eq => listCmp c as bs
    | o => o

/-- Python string comparison. -/
def strCmp (a b : String) : Ordering := listCmp charCmp a.data b.data

/-- Lexicographic comparison of pairs (Python 2-tuples). -/
def pairCmp {α β : Type} (ca : α → α → Ordering) (cb : β → β → Ordering)
    (p q : α × β) : Ordering :=
  match ca p.1 q.1 with
  | .eq => cb p.2 q.2
  | o => o

/-- Python comparison of the full heap tuples `(f, h, g, board_tuple, path)`:
lexicographic through all five components (`heapq` orders by exactly this). -/
def entryCmp (a b : Entry) : Ordering :=
  match natCmp a.f b.f with
  | .eq =>
    match natCmp a.h b.h with
    | .eq =>
      match natCmp a.g b.g with
      | .eq =>
        match listCmp natCmp a.board b.board with
        | .eq => listCmp (pairCmp (listCmp natCmp) strCmp) a.path b.path
        | o => o
      | o => o
    | o => o
  | o => o

/-- Non-strict comparison derived from `entryCmp`. -/
def entryLe (a b : Entry) : Bool := entryCmp a b != .gt

/-- Remove a minimal element (under the full tuple order) from the heap list:
the observable behaviour of `heapq.heappop` on the entry multiset. -/
def popMin : List Entry → Option (Entry × List Entry)
  | [] => none
  | x :: xs =>
    match popMin xs with
    | none => some (x, [])
    | some (m, rest) => if entryLe x m then some (x, xs) else some (m, x :: rest)

/-- The successful solver result of app.py lines 201-212 (board-level fields;
wall-clock time and the float branching factor are observability-only). -/
structure SolveOk where
  path : List (List Nat × String × Nat)
  solution_depth : Nat
  nodes_explored : Nat
  heuristic_start : Nat
deriving DecidableEq

/-- The A* main loop of app.py lines 188-225, with explicit fuel (the Python
loop terminates because the state space is finite; `FUEL` is proved sufficient
below).  `none` means out of fuel; `some (.error _)` is the "No solution found"
dict of line 225; `some (.ok _)` the success dict. -/
def astar_loop (h0 : Nat) :
    Nat → List Entry → List (List Nat) → Nat → Option (Except String SolveOk)
  | 0, _, _, _ => none
  | fuel + 1, heap, closed, nodes_explored =>
    match popMin heap with
    | none => some (.error "No solution found - board may be unsolvable.")
    | some (e, rest) =>
      if e.board ∈ closed then
        astar_loop h0 fuel rest closed nodes_explored
      else
        let closed' := e.board :: closed
        let nodes' := nodes_explored + 1
        if e.board = GOAL_STATE then
          some (.ok
            { path := e.path.enum.map (fun p => (p.2.1, p.2.2, p.1 + 1))
              solution_depth := e.path.length
              nodes_explored := nodes'
              heuristic_start := h0 })
        else
          let pushes := (_expand e.board).filterMap (fun s =>
            if s.1 ∈ closed' then none
            else some
              { f := e.g + 1 + manhattan_distance s.1
                h := manhattan_distance s.1
                g := e.g + 1
                board := s.1
                path := e.path ++ [(s.1, s.2)] })
          astar_loop h0 fuel (rest ++ pushes) closed' nodes'

/-- Fuel bound: the loop pops at most `1 + 4 * 9!` entries (each non-skip
iteration closes a fresh permutation of `0..8` and pushes at most 4 entries);
`2000000 > 1 + 4 * 362880` is proved sufficient below. -/
def FUEL : Nat := 2000000

/-- `astar_solve` from app.py lines 155-225. -/
def astar_solve (start : List Nat) : Option (Except String SolveOk) :=
  if start = GOAL_STATE then
    some (.ok { path := [], solution_depth := 0, nodes_explored := 0, heuristic_start := 0 })
  else
    let h0 := manhattan_distance start
    astar_loop h0 FUEL [{ f := h0, h := h0, g := 0, board := start, path := [] }] [] 0

/-- Model of a Python runtime value as relevant to `validate_board_input`.
`vfloat n` models a float whose value is the exact integer `n` (the claims only
involve floats with small integral values, where Python float/int comparison is
exact).  Nested-list ordering and non-integral floats are not needed by any
claim and are not modelled. -/
inductive PyVal where
  | vint (n : Int)
  | vbool (b : Bool)
  | vfloat (n : Int)
  | vstr (s : String)
  | vlist (l : List PyVal)
  | vnone

/-- Numeric value of a Python number (Python treats `True`/`False` as `1`/`0`
in comparisons). -/
def PyVal.numVal : PyVal → Option Int
  | .vint n => some n
  | .vbool b => some (if b then 1 else 0)
  | .vfloat n => some n
  | _ => none

/-- Python `<` as used by `sorted`; `none` models a raised `TypeError`. -/
def pyLt (a b : PyVal) : Option Bool :=
  match a.numVal, b.numVal with
  | some x, some y => some (decide (x < y))
  | _, _ =>
    match a, b with
    | .vstr s, .vstr t => some (decide (s < t))
    | _, _ => none

/-- Python `==` on scalars (numbers compare by value across int/bool/float;
mismatched kinds compare unequal rather than raising). -/
def pyEq (a b : PyVal) : Bool :=
  match a.numVal, b.numVal with
  | some x, some y => x == y
  | _, _ =>
    match a, b with
    | .vstr s, .vstr t => s == t
    | .vnone, .vnone => true
    | _, _ => false

/-- Stable insertion into a sorted prefix; `none` propagates a comparison
`TypeError`.  `x` is placed before the first `y` with `¬(y < x)`, which is the
stable position Python's sort gives it. -/
def pyInsert (x : PyVal) : List PyVal → Option (List PyVal)
  | [] => some [x]
  | y :: ys =>
    match pyLt y x with
    | none => none
    | some true => (pyInsert x ys).map (y :: ·)
    | some false => some (x :: y :: ys)

/-- Python `sorted`, modelled as a stable insertion sort.  On inputs whose
elements are totally ordered by `pyLt` this agrees with Python's sort; `none`
models a `TypeError` escaping from an element comparison. -/
def pySorted : List PyVal → Option (List PyVal)
  | [] => some []
  | x :: xs =>
    match pySorted xs with
    | none => none
    | some s => pyInsert x s

/-- Python list equality, element-wise by `pyEq`. -/
def pyListEq (a b : List PyVal) : Bool :=
  a.length == b.length && (a.zip b).all (fun p => pyEq p.1 p.2)

/-- `validate_board_input` from app.py lines 63-74 over the Python value model.
`.error ()` is an uncaught `TypeError` escaping from `sorted`; `.ok none` means
the board is valid; `.ok (some msg)` is the returned error string. -/
def validate_board_input (board : PyVal) : Except Unit (Option String) :=
  match board with
  | .vlist l =>
    if l.length ≠ 9 then .ok (some "Board must contain exactly 9 elements.")
    else
      match pySorted l with
      | none => .error ()
      | some s =>
        if pyListEq s ((List.range 9).map (fun n => PyVal.vint n)) then .ok none
        else .ok (some "Board must contain each integer 0-8 exactly once.")
  | _ => .ok (some "Board must be a JSON array.")

/-- Outcome of the `/move` route body (app.py lines 328-371) after board
validation: the `tile_index` guard, the adjacency guard (which answers 400 with
the unchanged board), or the applied move with its `solved` flag. -/
inductive MoveOutcome where
  | badIndex (msg : String)
  | moveError (msg : String) (board : List Nat)
  | moved (board : List Nat) (solved : Bool)
deriving DecidableEq

/-- `human_move` from app.py lines 328-371, board-transformation core (the
session bookkeeping and elapsed-time fields are transport state). -/
def human_move (board : List Nat) (tile_index : Int) : MoveOutcome :=
  if ¬ (0 ≤ tile_index ∧ tile_index ≤ 8) then
    .badIndex "tile_index must be an integer 0-8."
  else
    let empty_idx := board.indexOf 0
    let row_e : Int := (empty_idx : Int) / 3
    let col_e : Int := (empty_idx : Int) % 3
    let row_t : Int := tile_index / 3
    let col_t : Int := tile_index % 3
    let manhattan_to_empty := (row_e - row_t).natAbs + (col_e - col_t).natAbs
    if manhattan_to_empty ≠ 1 then
      .moveError "Invalid move - tile must be directly adjacent to the escape route." board
    else
      let new_board := listSwap board empty_idx tile_index.toNat
      .moved new_board (new_board == GOAL_STATE)

/-- The contribution of position `i` to `manhattan_distance`. -/
def mterm (b : List Nat) (i : Nat) : Nat :=
  if b.getD i 0 = 0 then 0 else cellDist i (GOAL_INDEX_MAP (b.getD i 0))

def PyVal.isInt : PyVal → Bool
  | .vint _ => true
  | _ => false

/-- Ordered insertion on `Int` (specification-side image of `pyInsert`). -/
def intInsert (x : Int) : List Int → List Int
  | [] => [x]
  | y :: ys => if y < x then y :: intInsert x ys else x :: y :: ys

/-- Insertion sort on `Int` (specification-side image of `pySorted`). -/
def intSort : List Int → List Int
  | [] => []
  | x :: xs => intInsert x (intSort xs)

/-- Number of elements of `l` smaller than `a`: later-position inversions
contributed by an element `a` placed before the list `l`. -/
def countGT (a : Nat) (l : List Nat) : Nat := (l.filter (fun x => decide (x < a))).length

/-- Inversion count of a list: number of pairs `i < j` with `l[i] > l[j]`,
computed by summing, for each element, its inversions with later elements. -/
def invCount : List Nat → Nat
  | [] => 0
  | a :: l => countGT a l + invCount l

/-- Cross inversions between a left block and a right block. -/
def crossGT (xs ys : List Nat) : Nat := (xs.map (fun a => countGT a ys)).sum

/-- A lawful three-way comparison: `eq` means equality, `lt` is transitive,
and `gt` is the flip of `lt`. -/
def CmpOK {α : Type} (c : α → α → Ordering) : Prop :=
  (∀ a b, c a b = .eq ↔ a = b) ∧
  (∀ a b d, c a b = .lt → c b d = .lt → c a d = .lt) ∧
  (∀ a b, c a b = .gt ↔ c b a = .lt)

/-- `p` is a valid annotated move trace from `a` to `c`: each listed
`(board, label)` is an `_expand` successor of the previous board. -/
def TraceOK : List Nat → List (List Nat × String) → List Nat → Prop
  | a, [], c => a = c
  | a, q :: rest, c => q ∈ _expand a ∧ TraceOK q.1 rest c

/-- The A* loop invariant, relating the open heap and the closed set to the
start board. -/
structure AInv (start : List Nat) (heap : List Entry) (closed : List (List Nat)) : Prop where
  entry_ok : ∀ e ∈ heap, TraceOK start e.path e.board ∧ e.g = e.path.length ∧
      e.h = manhattan_distance e.board ∧ e.f = e.g + e.h
  goal_not_closed : GOAL_STATE ∉ closed
  closed_ok : ∀ s ∈ closed, ValidBoard s ∧ Reachable start s
  start_cov : start ∈ closed ∨ ∃ e ∈ heap, e.board = start ∧ e.g = 0
  succ_cov : ∀ s ∈ closed, ∀ p ∈ _expand s, p.1 ∈ closed ∨
      ∃ e ∈ heap, e.board = p.1 ∧ e.g ≤ sInf (stepsSet start s) + 1
  closed_nodup : closed.Nodup

/-- A formatted solution path is valid from `b`: every step is an `_expand`
successor of the previous board (with its move label), ending at the goal. -/
def PathOK : List Nat → List (List Nat × String × Nat) → Prop
  | b, [] => b = GOAL_STATE
  | b, q :: rest => (q.1, q.2.1) ∈ _expand b ∧ PathOK q.1 rest

/-- A swap word is valid from blank position `i` to blank position `f` when each
pair `(a, b)` swaps the current blank cell `a` with an adjacent cell `b`. -/
def swapWordOK (i : Nat) : List (Nat × Nat) → Nat → Bool
  | [], f => i == f
  | q :: rest, f => i == q.1 && decide (q.2 < 9) && (cellDist q.1 q.2 == 1) && swapWordOK q.2 rest f

/-- Apply a swap word to a board. -/
def applySwaps (b : List Nat) (w : List (Nat × Nat)) : List Nat :=
  w.foldl (fun c q => listSwap c q.1 q.2) b

def finOf (n : Nat) : Fin 9 := ⟨n % 9, Nat.mod_lt n (by omega)⟩

/-- Rearrange a board by a cell permutation: cell `k` of the result holds the
content of cell `π k`. -/
def permuteBoard (π : Equiv.Perm (Fin 9)) (b : List Nat) : List Nat :=
  List.ofFn (fun k : Fin 9 => b.getD (π k) 0)

/-- The cell permutation realized by a swap word (first swap applied first). -/
def permOfSwaps : List (Nat × Nat) → Equiv.Perm (Fin 9)
  | [] => 1
  | q :: rest => Equiv.swap (finOf q.1) (finOf q.2) * permOfSwaps rest

/-- The reversed word, undoing each swap in opposite order. -/
def reverseWord (w : List (Nat × Nat)) : List (Nat × Nat) :=
  (w.map (fun q => (q.2, q.1))).reverse

/-- A cell permutation is realizable when some closed swap word starting and
ending with the blank in cell 8 induces it. -/
def RealizablePerm (π : Equiv.Perm (Fin 9)) : Prop :=
  ∃ w, swapWordOK 8 w 8 = true ∧ permOfSwaps w = π

def certChunk0 : List (List (Nat × Nat)) := [
  [],
  [],
  [],
  [],
  [],
  [],
  [],
  [],
  [],
  [],
  [(8, 7), (7, 4), (4, 1), (1, 0), (0, 3), (3, 6), (6, 7), (7, 4), (4, 1), (1, 2), (2, 5), (5, 8), (8, 7), (7, 4), (4, 1), (1, 2), (2, 5), (5, 8)],
  [(8, 7), (7, 6), (6, 3), (3, 4), (4, 1), (1, 0), (0, 3), (3, 4), (4, 1), (1, 2), (2, 5), (5, 4), (4, 3), (3, 6), (6, 7), (7, 8), (8, 5), (5, 4), (4, 3), (3, 6), (6, 7), (7, 8)],
  [(8, 7), (7, 4), (4, 5), (5, 8), (8, 7), (7, 4), (4, 1), (1, 0), (0, 3), (3, 6), (6, 7), (7, 4), (4, 1), (1, 2), (2, 5), (5, 8), (8, 7), (7, 4), (4, 5), (5, 8)],
  [(8, 5), (5, 4), (4, 1), (1, 0), (0, 3), (3, 6), (6, 7), (7, 4), (4, 1), (1, 2), (2, 5), (5, 8), (8, 7), (7, 4), (4, 5), (5, 8)],
  [(8, 7), (7, 4), (4, 1), (1, 0), (0, 3), (3, 4), (4, 1), (1, 2), (2, 5), (5, 4), (4, 3), (3, 6), (6, 7), (7, 8), (8, 5), (5, 4), (4, 3), (3, 6), (6, 7), (7, 8)],
  [(8, 7), (7, 4), (4, 1), (1, 0), (0, 3), (3, 6), (6, 7), (7, 4), (4, 1), (1, 2), (2, 5), (5, 8), (8, 7), (7, 4), (4, 5), (5, 8)],
  [],
  [(8, 5), (5, 2), (2, 1), (1, 0), (0, 3), (3, 4), (4, 5), (5, 8), (8, 7), (7, 4), (4, 1), (1, 2), (2, 5), (5, 8), (8, 7), (7, 4), (4, 1), (1, 2), (2, 5), (5, 8)],
  [],
  [(8, 5), (5, 2), (2, 1), (1, 0), (0, 3), (3, 4), (4, 7), (7, 8), (8, 5), (5, 4), (4, 1), (1, 0), (0, 3), (3, 6), (6, 7), (7, 4), (4, 1), (1, 2), (2, 5), (5, 8)],
  [(8, 5), (5, 2), (2, 1), (1, 0), (0, 3), (3, 6), (6, 7), (7, 8), (8, 5), (5, 4), (4, 1), (1, 0), (0, 3), (3, 6), (6, 7), (7, 4), (4, 5), (5, 8)],
  [(8, 5), (5, 2), (2, 1), (1, 0), (0, 3), (3, 4), (4, 1), (1, 2), (2, 5), (5, 4), (4, 7), (7, 8), (8, 5), (5, 2), (2, 1), (1, 4), (4, 7), (7, 8)],
  [(8, 7), (7, 6), (6, 3), (3, 0), (0, 1), (1, 4), (4, 5), (5, 2), (2, 1), (1, 4), (4, 7), (7, 8), (8, 5), (5, 4), (4, 3), (3, 6), (6, 7), (7, 4), (4, 5), (5, 8)],
  [(8, 5), (5, 2), (2, 1), (1, 0), (0, 3), (3, 4), (4, 5), (5, 8), (8, 7), (7, 4), (4, 1), (1, 2), (2, 5), (5, 8), (8, 7), (7, 4), (4, 5), (5, 8)],
  [],
  [(8, 7), (7, 4), (4, 3), (3, 6), (6, 7), (7, 4), (4, 5), (5, 2), (2, 1), (1, 0), (0, 3), (3, 4), (4, 1), (1, 2), (2, 5), (5, 8), (8, 7), (7, 4), (4, 1), (1, 2), (2, 5), (5, 8)],
  [(8, 7), (7, 4), (4, 3), (3, 0), (0, 1), (1, 2), (2, 5), (5, 4), (4, 7), (7, 8), (8, 5), (5, 4), (4, 3), (3, 6), (6, 7), (7, 4), (4, 1), (1, 2), (2, 5), (5, 8)],
  [],
  [(8, 7), (7, 4), (4, 3), (3, 0), (0, 1), (1, 2), (2, 5), (5, 4), (4, 7), (7, 8), (8, 5), (5, 4), (4, 3), (3, 6), (6, 7), (7, 4), (4, 5), (5, 8)],
  [(8, 5), (5, 4), (4, 3), (3, 6), (6, 7), (7, 4), (4, 1), (1, 0), (0, 3), (3, 4), (4, 1), (1, 2), (2, 5), (5, 8), (8, 7), (7, 4), (4, 5), (5, 8)],
  [(8, 7), (7, 6), (6, 3), (3, 0), (0, 1), (1, 2), (2, 5), (5, 8), (8, 7), (7, 6), (6, 3), (3, 4), (4, 5), (5, 8), (8, 7), (7, 6), (6, 3), (3, 4), (4, 5), (5, 8)],
  [(8, 7), (7, 6), (6, 3), (3, 0), (0, 1), (1, 4), (4, 7), (7, 6), (6, 3), (3, 4), (4, 5), (5, 8), (8, 7), (7, 6), (6, 3), (3, 4), (4, 5), (5, 8)]]

def certChunk1 : List (List (Nat × Nat)) := [
  [],
  [(8, 7), (7, 4), (4, 5), (5, 2), (2, 1), (1, 0), (0, 3), (3, 4), (4, 1), (1, 2), (2, 5), (5, 8), (8, 7), (7, 4), (4, 1), (1, 2), (2, 5), (5, 8)],
  [(8, 7), (7, 4), (4, 1), (1, 0), (0, 3), (3, 4), (4, 1), (1, 2), (2, 5), (5, 8), (8, 7), (7, 4), (4, 1), (1, 2), (2, 5), (5, 8)],
  [(8, 7), (7, 4), (4, 3), (3, 0), (0, 1), (1, 4), (4, 5), (5, 8), (8, 7), (7, 4), (4, 3), (3, 6), (6, 7), (7, 4), (4, 1), (1, 2), (2, 5), (5, 8)],
  [],
  [(8, 5), (5, 2), (2, 1), (1, 0), (0, 3), (3, 6), (6, 7), (7, 4), (4, 1), (1, 2), (2, 5), (5, 8), (8, 7), (7, 4), (4, 5), (5, 8)],
  [(8, 7), (7, 6), (6, 3), (3, 0), (0, 1), (1, 2), (2, 5), (5, 4), (4, 7), (7, 8), (8, 5), (5, 4), (4, 3), (3, 6), (6, 7), (7, 4), (4, 5), (5, 8)],
  [(8, 7), (7, 4), (4, 1), (1, 0), (0, 3), (3, 4), (4, 1), (1, 2), (2, 5), (5, 8), (8, 7), (7, 4), (4, 5), (5, 8)],
  [],
  [(8, 5), (5, 4), (4, 1), (1, 2), (2, 5), (5, 4), (4, 3), (3, 0), (0, 1), (1, 4), (4, 3), (3, 6), (6, 7), (7, 4), (4, 5), (5, 8)],
  [(8, 5), (5, 2), (2, 1), (1, 0), (0, 3), (3, 4), (4, 1), (1, 0), (0, 3), (3, 6), (6, 7), (7, 4), (4, 5), (5, 8)],
  [(8, 5), (5, 4), (4, 3), (3, 0), (0, 1), (1, 2), (2, 5), (5, 4), (4, 3), (3, 6), (6, 7), (7, 4), (4, 5), (5, 8)],
  [(8, 5), (5, 4), (4, 3), (3, 0), (0, 1), (1, 4), (4, 3), (3, 6), (6, 7), (7, 4), (4, 5), (5, 8)],
  [],
  [(8, 7), (7, 6), (6, 3), (3, 0), (0, 1), (1, 4), (4, 7), (7, 8), (8, 5), (5, 4), (4, 3), (3, 6), (6, 7), (7, 4), (4, 5), (5, 8)],
  [(8, 5), (5, 4), (4, 7), (7, 6), (6, 3), (3, 0), (0, 1), (1, 2), (2, 5), (5, 4), (4, 3), (3, 6), (6, 7), (7, 4), (4, 5), (5, 8)],
  [],
  [(8, 7), (7, 6), (6, 3), (3, 4), (4, 5), (5, 2), (2, 1), (1, 0), (0, 3), (3, 4), (4, 1), (1, 2), (2, 5), (5, 8), (8, 7), (7, 4), (4, 1), (1, 2), (2, 5), (5, 8)],
  [(8, 7), (7, 6), (6, 3), (3, 4), (4, 1), (1, 0), (0, 3), (3, 4), (4, 1), (1, 2), (2, 5), (5, 8), (8, 7), (7, 4), (4, 1), (1, 2), (2, 5), (5, 8)],
  [(8, 7), (7, 6), (6, 3), (3, 0), (0, 1), (1, 2), (2, 5), (5, 8), (8, 7), (7, 6), (6, 3), (3, 4), (4, 7), (7, 6), (6, 3), (3, 0), (0, 1), (1, 2), (2, 5), (5, 8)],
  [(8, 7), (7, 6), (6, 3), (3, 0), (0, 1), (1, 4), (4, 5), (5, 8), (8, 7), (7, 4), (4, 3), (3, 6), (6, 7), (7, 4), (4, 1), (1, 2), (2, 5), (5, 8)],
  [(8, 5), (5, 4), (4, 3), (3, 0), (0, 1), (1, 4), (4, 7), (7, 6), (6, 3), (3, 4), (4, 5), (5, 8), (8, 7), (7, 6), (6, 3), (3, 4), (4, 5), (5, 8)],
  [],
  [(8, 7), (7, 6), (6, 3), (3, 4), (4, 1), (1, 0), (0, 3), (3, 4), (4, 1), (1, 2), (2, 5), (5, 8), (8, 7), (7, 4), (4, 5), (5, 8)],
  [],
  [(8, 7), (7, 4), (4, 1), (1, 2), (2, 5), (5, 4), (4, 3), (3, 0), (0, 1), (1, 4), (4, 3), (3, 6), (6, 7), (7, 4), (4, 5), (5, 8)],
  [(8, 7), (7, 6), (6, 3), (3, 0), (0, 1), (1, 2), (2, 5), (5, 4), (4, 3), (3, 6), (6, 7), (7, 4), (4, 1), (1, 2), (2, 5), (5, 8)],
  [(8, 7), (7, 4), (4, 3), (3, 0), (0, 1), (1, 2), (2, 5), (5, 4), (4, 3), (3, 6), (6, 7), (7, 4), (4, 5), (5, 8)],
  [(8, 7), (7, 6), (6, 3), (3, 0), (0, 1), (1, 2), (2, 5), (5, 4), (4, 3), (3, 6), (6, 7), (7, 4), (4, 5), (5, 8)],
  [(8, 7), (7, 6), (6, 3), (3, 0), (0, 1), (1, 4), (4, 3), (3, 6), (6, 7), (7, 4), (4, 5), (5, 8)],
  [(8, 7), (7, 4), (4, 3), (3, 0), (0, 1), (1, 4), (4, 3), (3, 6), (6, 7), (7, 4), (4, 3), (3, 0), (0, 1), (1, 2), (2, 5), (5, 8)],
  []]

def certChunk2 : List (List (Nat × Nat)) := [
  [],
  [],
  [(8, 5), (5, 2), (2, 1), (1, 0), (0, 3), (3, 4), (4, 7), (7, 8), (8, 5), (5, 2), (2, 1), (1, 4), (4, 7), (7, 8), (8, 5), (5, 2), (2, 1), (1, 4), (4, 7), (7, 8)],
  [(8, 7), (7, 6), (6, 3), (3, 4), (4, 1), (1, 0), (0, 3), (3, 6), (6, 7), (7, 4), (4, 5), (5, 8), (8, 7), (7, 4), (4, 1), (1, 2), (2, 5), (5, 4), (4, 3), (3, 6), (6, 7), (7, 8)],
  [(8, 5), (5, 4), (4, 1), (1, 0), (0, 3), (3, 6), (6, 7), (7, 4), (4, 5), (5, 8), (8, 7), (7, 4), (4, 1), (1, 2), (2, 5), (5, 4), (4, 7), (7, 8)],
  [(8, 7), (7, 4), (4, 1), (1, 0), (0, 3), (3, 6), (6, 7), (7, 4), (4, 5), (5, 8), (8, 7), (7, 4), (4, 1), (1, 2), (2, 5), (5, 4), (4, 7), (7, 8)],
  [(8, 7), (7, 4), (4, 1), (1, 0), (0, 3), (3, 6), (6, 7), (7, 4), (4, 5), (5, 8), (8, 7), (7, 4), (4, 1), (1, 2), (2, 5), (5, 4), (4, 3), (3, 6), (6, 7), (7, 8)],
  [(8, 7), (7, 4), (4, 1), (1, 2), (2, 5), (5, 4), (4, 3), (3, 0), (0, 1), (1, 4), (4, 3), (3, 6), (6, 7), (7, 8), (8, 5), (5, 4), (4, 7), (7, 8)],
  [],
  [],
  [],
  [],
  [],
  [],
  [],
  [],
  [(8, 7), (7, 4), (4, 1), (1, 0), (0, 3), (3, 6), (6, 7), (7, 4), (4, 1), (1, 2), (2, 5), (5, 8), (8, 7), (7, 4), (4, 1), (1, 2), (2, 5), (5, 4), (4, 7), (7, 8)],
  [],
  [],
  [(8, 7), (7, 4), (4, 1), (1, 2), (2, 5), (5, 4), (4, 7), (7, 8), (8, 5), (5, 4), (4, 1), (1, 2), (2, 5), (5, 4), (4, 3), (3, 6), (6, 7), (7, 8)],
  [(8, 5), (5, 4), (4, 1), (1, 0), (0, 3), (3, 6), (6, 7), (7, 8), (8, 5), (5, 4), (4, 7), (7, 8), (8, 5), (5, 2), (2, 1), (1, 4), (4, 7), (7, 8)],
  [(8, 5), (5, 4), (4, 1), (1, 2), (2, 5), (5, 4), (4, 1), (1, 0), (0, 3), (3, 6), (6, 7), (7, 8), (8, 5), (5, 4), (4, 7), (7, 8)],
  [(8, 7), (7, 4), (4, 1), (1, 2), (2, 5), (5, 4), (4, 1), (1, 0), (0, 3), (3, 6), (6, 7), (7, 8), (8, 5), (5, 4), (4, 3), (3, 6), (6, 7), (7, 8)],
  [(8, 7), (7, 4), (4, 1), (1, 2), (2, 5), (5, 4), (4, 1), (1, 0), (0, 3), (3, 6), (6, 7), (7, 8), (8, 5), (5, 4), (4, 7), (7, 8)],
  [(8, 7), (7, 4), (4, 3), (3, 6), (6, 7), (7, 4), (4, 5), (5, 8), (8, 7), (7, 4), (4, 1), (1, 0), (0, 3), (3, 6), (6, 7), (7, 4), (4, 1), (1, 2), (2, 5), (5, 8)],
  [],
  [(8, 7), (7, 4), (4, 3), (3, 6), (6, 7), (7, 4), (4, 1), (1, 2), (2, 5), (5, 8), (8, 7), (7, 4), (4, 1), (1, 2), (2, 5), (5, 8)],
  [],
  [(8, 7), (7, 4), (4, 5), (5, 8), (8, 7), (7, 4), (4, 3), (3, 6), (6, 7), (7, 4), (4, 1), (1, 2), (2, 5), (5, 8), (8, 7), (7, 4), (4, 5), (5, 8)],
  [(8, 5), (5, 4), (4, 3), (3, 6), (6, 7), (7, 4), (4, 1), (1, 2), (2, 5), (5, 8), (8, 7), (7, 4), (4, 5), (5, 8)],
  [(8, 7), (7, 4), (4, 1), (1, 2), (2, 5), (5, 4), (4, 3), (3, 6), (6, 7), (7, 8), (8, 5), (5, 4), (4, 3), (3, 6), (6, 7), (7, 8)],
  [(8, 7), (7, 4), (4, 3), (3, 6), (6, 7), (7, 4), (4, 1), (1, 2), (2, 5), (5, 8), (8, 7), (7, 4), (4, 5), (5, 8)]]

def certChunk3 : List (List (Nat × Nat)) := [
  [(8, 7), (7, 4), (4, 5), (5, 8), (8, 7), (7, 4), (4, 1), (1, 0), (0, 3), (3, 6), (6, 7), (7, 4), (4, 1), (1, 2), (2, 5), (5, 8)],
  [],
  [(8, 7), (7, 4), (4, 1), (1, 2), (2, 5), (5, 8), (8, 7), (7, 4), (4, 1), (1, 2), (2, 5), (5, 8)],
  [(8, 7), (7, 4), (4, 1), (1, 2), (2, 5), (5, 4), (4, 7), (7, 8), (8, 5), (5, 4), (4, 3), (3, 6), (6, 7), (7, 8)],
  [],
  [(8, 7), (7, 4), (4, 1), (1, 2), (2, 5), (5, 8), (8, 7), (7, 4), (4, 5), (5, 2), (2, 1), (1, 4), (4, 5), (5, 8)],
  [(8, 7), (7, 4), (4, 1), (1, 2), (2, 5), (5, 4), (4, 7), (7, 8), (8, 5), (5, 4), (4, 7), (7, 6), (6, 3), (3, 4), (4, 7), (7, 8)],
  [(8, 7), (7, 4), (4, 1), (1, 2), (2, 5), (5, 8), (8, 7), (7, 4), (4, 5), (5, 8)],
  [(8, 5), (5, 4), (4, 1), (1, 0), (0, 3), (3, 6), (6, 7), (7, 4), (4, 1), (1, 2), (2, 5), (5, 8)],
  [],
  [(8, 5), (5, 4), (4, 1), (1, 0), (0, 3), (3, 6), (6, 7), (7, 4), (4, 5), (5, 2), (2, 1), (1, 4), (4, 5), (5, 8)],
  [(8, 7), (7, 4), (4, 3), (3, 6), (6, 7), (7, 8), (8, 5), (5, 4), (4, 1), (1, 0), (0, 3), (3, 6), (6, 7), (7, 4), (4, 5), (5, 8)],
  [(8, 5), (5, 4), (4, 1), (1, 0), (0, 3), (3, 6), (6, 7), (7, 4), (4, 5), (5, 8)],
  [],
  [(8, 5), (5, 4), (4, 1), (1, 0), (0, 3), (3, 6), (6, 7), (7, 4), (4, 3), (3, 0), (0, 1), (1, 2), (2, 5), (5, 8)],
  [(8, 7), (7, 4), (4, 1), (1, 2), (2, 5), (5, 4), (4, 7), (7, 8), (8, 5), (5, 2), (2, 1), (1, 4), (4, 7), (7, 8)],
  [(8, 7), (7, 6), (6, 3), (3, 4), (4, 5), (5, 8), (8, 7), (7, 4), (4, 1), (1, 0), (0, 3), (3, 6), (6, 7), (7, 4), (4, 1), (1, 2), (2, 5), (5, 8)],
  [],
  [(8, 7), (7, 6), (6, 3), (3, 4), (4, 1), (1, 2), (2, 5), (5, 8), (8, 7), (7, 4), (4, 1), (1, 2), (2, 5), (5, 8)],
  [(8, 7), (7, 6), (6, 3), (3, 4), (4, 1), (1, 2), (2, 5), (5, 4), (4, 7), (7, 8), (8, 5), (5, 4), (4, 7), (7, 6), (6, 3), (3, 4), (4, 7), (7, 8)],
  [(8, 7), (7, 6), (6, 3), (3, 4), (4, 1), (1, 2), (2, 5), (5, 4), (4, 7), (7, 8), (8, 5), (5, 4), (4, 3), (3, 6), (6, 7), (7, 8)],
  [(8, 5), (5, 4), (4, 7), (7, 6), (6, 3), (3, 4), (4, 1), (1, 2), (2, 5), (5, 8), (8, 7), (7, 4), (4, 5), (5, 8)],
  [],
  [(8, 7), (7, 6), (6, 3), (3, 4), (4, 1), (1, 2), (2, 5), (5, 8), (8, 7), (7, 4), (4, 5), (5, 8)],
  [(8, 7), (7, 4), (4, 1), (1, 0), (0, 3), (3, 6), (6, 7), (7, 4), (4, 1), (1, 2), (2, 5), (5, 8)],
  [],
  [(8, 5), (5, 4), (4, 1), (1, 2), (2, 5), (5, 8), (8, 7), (7, 4), (4, 1), (1, 2), (2, 5), (5, 8)],
  [(8, 5), (5, 4), (4, 1), (1, 2), (2, 5), (5, 4), (4, 7), (7, 8), (8, 5), (5, 4), (4, 3), (3, 6), (6, 7), (7, 8)],
  [(8, 5), (5, 4), (4, 1), (1, 2), (2, 5), (5, 8), (8, 7), (7, 4), (4, 5), (5, 2), (2, 1), (1, 4), (4, 5), (5, 8)],
  [(8, 7), (7, 4), (4, 1), (1, 0), (0, 3), (3, 6), (6, 7), (7, 4), (4, 5), (5, 8)],
  [(8, 7), (7, 4), (4, 1), (1, 0), (0, 3), (3, 6), (6, 7), (7, 4), (4, 3), (3, 0), (0, 1), (1, 2), (2, 5), (5, 8)],
  []]

def certChunk4 : List (List (Nat × Nat)) := [
  [],
  [(8, 7), (7, 4), (4, 1), (1, 0), (0, 3), (3, 4), (4, 5), (5, 2), (2, 1), (1, 4), (4, 7), (7, 8), (8, 5), (5, 2), (2, 1), (1, 4), (4, 3), (3, 6), (6, 7), (7, 8)],
  [],
  [(8, 7), (7, 6), (6, 3), (3, 0), (0, 1), (1, 4), (4, 5), (5, 2), (2, 1), (1, 4), (4, 3), (3, 6), (6, 7), (7, 8), (8, 5), (5, 4), (4, 3), (3, 6), (6, 7), (7, 8)],
  [(8, 5), (5, 2), (2, 1), (1, 0), (0, 3), (3, 4), (4, 7), (7, 8), (8, 5), (5, 4), (4, 1), (1, 2), (2, 5), (5, 4), (4, 3), (3, 6), (6, 7), (7, 8)],
  [(8, 5), (5, 2), (2, 1), (1, 0), (0, 3), (3, 4), (4, 1), (1, 0), (0, 3), (3, 6), (6, 7), (7, 8), (8, 5), (5, 4), (4, 7), (7, 8)],
  [(8, 5), (5, 2), (2, 1), (1, 0), (0, 3), (3, 4), (4, 1), (1, 0), (0, 3), (3, 6), (6, 7), (7, 8), (8, 5), (5, 4), (4, 3), (3, 6), (6, 7), (7, 8)],
  [(8, 7), (7, 6), (6, 3), (3, 0), (0, 1), (1, 4), (4, 5), (5, 2), (2, 1), (1, 4), (4, 3), (3, 6), (6, 7), (7, 8), (8, 5), (5, 4), (4, 7), (7, 8)],
  [(8, 5), (5, 2), (2, 1), (1, 4), (4, 3), (3, 0), (0, 1), (1, 4), (4, 7), (7, 8), (8, 5), (5, 2), (2, 1), (1, 4), (4, 3), (3, 6), (6, 7), (7, 8)],
  [],
  [],
  [(8, 5), (5, 2), (2, 1), (1, 4), (4, 7), (7, 8), (8, 5), (5, 2), (2, 1), (1, 4), (4, 3), (3, 6), (6, 7), (7, 8)],
  [(8, 7), (7, 4), (4, 5), (5, 2), (2, 1), (1, 4), (4, 7), (7, 8), (8, 5), (5, 2), (2, 1), (1, 0), (0, 3), (3, 6), (6, 7), (7, 8)],
  [(8, 5), (5, 2), (2, 1), (1, 4), (4, 7), (7, 8), (8, 5), (5, 2), (2, 1), (1, 4), (4, 7), (7, 8)],
  [(8, 5), (5, 2), (2, 1), (1, 0), (0, 3), (3, 6), (6, 7), (7, 8), (8, 5), (5, 2), (2, 1), (1, 4), (4, 3), (3, 6), (6, 7), (7, 8)],
  [(8, 7), (7, 4), (4, 5), (5, 2), (2, 1), (1, 4), (4, 7), (7, 8), (8, 5), (5, 2), (2, 1), (1, 4), (4, 7), (7, 8)],
  [],
  [],
  [],
  [],
  [],
  [],
  [],
  [],
  [(8, 5), (5, 2), (2, 1), (1, 4), (4, 3), (3, 6), (6, 7), (7, 8), (8, 5), (5, 4), (4, 3), (3, 0), (0, 1), (1, 4), (4, 3), (3, 6), (6, 7), (7, 8)],
  [(8, 5), (5, 2), (2, 1), (1, 4), (4, 3), (3, 6), (6, 7), (7, 8), (8, 5), (5, 4), (4, 7), (7, 8), (8, 5), (5, 2), (2, 1), (1, 4), (4, 5), (5, 8)],
  [],
  [],
  [(8, 5), (5, 4), (4, 7), (7, 8), (8, 5), (5, 2), (2, 1), (1, 4), (4, 3), (3, 6), (6, 7), (7, 8), (8, 5), (5, 4), (4, 7), (7, 8)],
  [(8, 5), (5, 2), (2, 1), (1, 4), (4, 3), (3, 6), (6, 7), (7, 8), (8, 5), (5, 4), (4, 7), (7, 8)],
  [(8, 5), (5, 2), (2, 1), (1, 4), (4, 3), (3, 6), (6, 7), (7, 8), (8, 5), (5, 4), (4, 3), (3, 6), (6, 7), (7, 8)],
  [(8, 7), (7, 4), (4, 5), (5, 2), (2, 1), (1, 4), (4, 3), (3, 6), (6, 7), (7, 8), (8, 5), (5, 4), (4, 7), (7, 8)]]

def certChunk5 : List (List (Nat × Nat)) := [
  [(8, 7), (7, 4), (4, 5), (5, 2), (2, 1), (1, 0), (0, 3), (3, 4), (4, 5), (5, 8), (8, 7), (7, 4), (4, 1), (1, 2), (2, 5), (5, 8)],
  [(8, 7), (7, 4), (4, 5), (5, 2), (2, 1), (1, 4), (4, 5), (5, 8), (8, 7), (7, 4), (4, 5), (5, 2), (2, 1), (1, 4), (4, 5), (5, 8)],
  [],
  [(8, 7), (7, 4), (4, 5), (5, 2), (2, 1), (1, 4), (4, 7), (7, 8), (8, 5), (5, 4), (4, 3), (3, 6), (6, 7), (7, 8)],
  [],
  [(8, 5), (5, 2), (2, 1), (1, 0), (0, 3), (3, 6), (6, 7), (7, 8), (8, 5), (5, 4), (4, 7), (7, 8)],
  [(8, 5), (5, 2), (2, 1), (1, 0), (0, 3), (3, 6), (6, 7), (7, 8), (8, 5), (5, 4), (4, 3), (3, 6), (6, 7), (7, 8)],
  [(8, 7), (7, 4), (4, 5), (5, 2), (2, 1), (1, 4), (4, 5), (5, 8), (8, 7), (7, 4), (4, 5), (5, 8)],
  [(8, 5), (5, 4), (4, 1), (1, 2), (2, 5), (5, 4), (4, 1), (1, 0), (0, 3), (3, 6), (6, 7), (7, 4), (4, 1), (1, 2), (2, 5), (5, 8)],
  [(8, 5), (5, 4), (4, 1), (1, 2), (2, 5), (5, 4), (4, 1), (1, 0), (0, 3), (3, 6), (6, 7), (7, 4), (4, 5), (5, 8)],
  [],
  [(8, 5), (5, 4), (4, 3), (3, 0), (0, 1), (1, 2), (2, 5), (5, 4), (4, 1), (1, 0), (0, 3), (3, 6), (6, 7), (7, 4), (4, 5), (5, 8)],
  [(8, 5), (5, 4), (4, 7), (7, 8), (8, 5), (5, 2), (2, 1), (1, 4), (4, 5), (5, 8), (8, 7), (7, 4), (4, 5), (5, 8)],
  [],
  [(8, 7), (7, 4), (4, 5), (5, 2), (2, 1), (1, 0), (0, 3), (3, 6), (6, 7), (7, 8), (8, 5), (5, 4), (4, 3), (3, 6), (6, 7), (7, 8)],
  [(8, 7), (7, 4), (4, 5), (5, 2), (2, 1), (1, 0), (0, 3), (3, 6), (6, 7), (7, 8), (8, 5), (5, 4), (4, 7), (7, 8)],
  [(8, 7), (7, 6), (6, 3), (3, 4), (4, 5), (5, 2), (2, 1), (1, 0), (0, 3), (3, 4), (4, 5), (5, 8), (8, 7), (7, 4), (4, 1), (1, 2), (2, 5), (5, 8)],
  [(8, 7), (7, 6), (6, 3), (3, 4), (4, 5), (5, 2), (2, 1), (1, 4), (4, 5), (5, 8), (8, 7), (7, 4), (4, 5), (5, 2), (2, 1), (1, 4), (4, 5), (5, 8)],
  [],
  [(8, 7), (7, 6), (6, 3), (3, 4), (4, 5), (5, 2), (2, 1), (1, 4), (4, 7), (7, 8), (8, 5), (5, 4), (4, 7), (7, 6), (6, 3), (3, 4), (4, 7), (7, 8)],
  [(8, 7), (7, 6), (6, 3), (3, 4), (4, 5), (5, 2), (2, 1), (1, 4), (4, 7), (7, 8), (8, 5), (5, 4), (4, 3), (3, 6), (6, 7), (7, 8)],
  [(8, 5), (5, 2), (2, 1), (1, 4), (4, 7), (7, 6), (6, 3), (3, 4), (4, 5), (5, 8), (8, 7), (7, 4), (4, 5), (5, 8)],
  [],
  [(8, 7), (7, 6), (6, 3), (3, 4), (4, 5), (5, 2), (2, 1), (1, 4), (4, 5), (5, 8), (8, 7), (7, 4), (4, 5), (5, 8)],
  [(8, 5), (5, 2), (2, 1), (1, 0), (0, 3), (3, 4), (4, 5), (5, 8), (8, 7), (7, 4), (4, 1), (1, 2), (2, 5), (5, 8)],
  [(8, 7), (7, 4), (4, 1), (1, 2), (2, 5), (5, 4), (4, 1), (1, 0), (0, 3), (3, 6), (6, 7), (7, 4), (4, 5), (5, 8)],
  [],
  [(8, 5), (5, 2), (2, 1), (1, 4), (4, 7), (7, 8), (8, 5), (5, 4), (4, 3), (3, 6), (6, 7), (7, 8)],
  [(8, 5), (5, 2), (2, 1), (1, 4), (4, 5), (5, 8), (8, 7), (7, 4), (4, 1), (1, 2), (2, 5), (5, 8)],
  [(8, 5), (5, 2), (2, 1), (1, 4), (4, 5), (5, 8), (8, 7), (7, 4), (4, 5), (5, 8)],
  [(8, 5), (5, 2), (2, 1), (1, 4), (4, 7), (7, 8), (8, 5), (5, 4), (4, 7), (7, 6), (6, 3), (3, 4), (4, 7), (7, 8)],
  []]

def certChunk6 : List (List (Nat × Nat)) := [
  [],
  [(8, 7), (7, 4), (4, 3), (3, 0), (0, 1), (1, 2), (2, 5), (5, 4), (4, 3), (3, 6), (6, 7), (7, 8), (8, 5), (5, 4), (4, 3), (3, 0), (0, 1), (1, 4), (4, 3), (3, 6), (6, 7), (7, 8)],
  [(8, 7), (7, 4), (4, 3), (3, 0), (0, 1), (1, 2), (2, 5), (5, 4), (4, 3), (3, 6), (6, 7), (7, 8), (8, 5), (5, 4), (4, 1), (1, 0), (0, 3), (3, 6), (6, 7), (7, 8)],
  [],
  [(8, 7), (7, 4), (4, 3), (3, 0), (0, 1), (1, 2), (2, 5), (5, 4), (4, 3), (3, 6), (6, 7), (7, 8), (8, 5), (5, 4), (4, 7), (7, 6), (6, 3), (3, 4), (4, 7), (7, 8)],
  [(8, 5), (5, 4), (4, 3), (3, 0), (0, 1), (1, 2), (2, 5), (5, 4), (4, 3), (3, 6), (6, 7), (7, 8), (8, 5), (5, 4), (4, 7), (7, 8)],
  [(8, 7), (7, 4), (4, 3), (3, 0), (0, 1), (1, 2), (2, 5), (5, 4), (4, 3), (3, 6), (6, 7), (7, 8), (8, 5), (5, 4), (4, 3), (3, 6), (6, 7), (7, 8)],
  [(8, 7), (7, 4), (4, 3), (3, 0), (0, 1), (1, 2), (2, 5), (5, 4), (4, 3), (3, 6), (6, 7), (7, 8), (8, 5), (5, 4), (4, 7), (7, 8)],
  [(8, 7), (7, 6), (6, 3), (3, 4), (4, 1), (1, 0), (0, 3), (3, 6), (6, 7), (7, 4), (4, 5), (5, 8), (8, 7), (7, 4), (4, 3), (3, 6), (6, 7), (7, 4), (4, 1), (1, 2), (2, 5), (5, 8)],
  [],
  [(8, 7), (7, 4), (4, 1), (1, 2), (2, 5), (5, 4), (4, 7), (7, 8), (8, 5), (5, 4), (4, 3), (3, 6), (6, 7), (7, 4), (4, 1), (1, 2), (2, 5), (5, 8)],
  [],
  [(8, 7), (7, 4), (4, 1), (1, 2), (2, 5), (5, 4), (4, 7), (7, 8), (8, 5), (5, 4), (4, 3), (3, 6), (6, 7), (7, 4), (4, 5), (5, 8)],
  [(8, 7), (7, 4), (4, 3), (3, 6), (6, 7), (7, 4), (4, 5), (5, 8), (8, 7), (7, 4), (4, 1), (1, 2), (2, 5), (5, 4), (4, 7), (7, 8)],
  [(8, 7), (7, 6), (6, 3), (3, 4), (4, 1), (1, 2), (2, 5), (5, 4), (4, 7), (7, 8), (8, 5), (5, 4), (4, 7), (7, 6), (6, 3), (3, 4), (4, 5), (5, 8)],
  [(8, 5), (5, 4), (4, 1), (1, 2), (2, 5), (5, 4), (4, 7), (7, 8), (8, 5), (5, 4), (4, 3), (3, 6), (6, 7), (7, 4), (4, 5), (5, 8)],
  [(8, 7), (7, 4), (4, 3), (3, 0), (0, 1), (1, 2), (2, 5), (5, 4), (4, 7), (7, 8), (8, 5), (5, 4), (4, 1), (1, 2), (2, 5), (5, 4), (4, 3), (3, 6), (6, 7), (7, 8)],
  [(8, 5), (5, 2), (2, 1), (1, 4), (4, 7), (7, 8), (8, 5), (5, 2), (2, 1), (1, 4), (4, 3), (3, 6), (6, 7), (7, 4), (4, 5), (5, 8)],
  [],
  [],
  [(8, 7), (7, 4), (4, 5), (5, 2), (2, 1), (1, 4), (4, 7), (7, 8), (8, 5), (5, 4), (4, 3), (3, 6), (6, 7), (7, 4), (4, 5), (5, 8)],
  [(8, 7), (7, 4), (4, 3), (3, 6), (6, 7), (7, 8), (8, 5), (5, 4), (4, 7), (7, 8), (8, 5), (5, 2), (2, 1), (1, 4), (4, 7), (7, 8)],
  [(8, 7), (7, 6), (6, 3), (3, 4), (4, 5), (5, 2), (2, 1), (1, 4), (4, 7), (7, 8), (8, 5), (5, 4), (4, 7), (7, 6), (6, 3), (3, 4), (4, 5), (5, 8)],
  [(8, 5), (5, 2), (2, 1), (1, 4), (4, 7), (7, 8), (8, 5), (5, 4), (4, 3), (3, 6), (6, 7), (7, 4), (4, 5), (5, 8)],
  [],
  [],
  [],
  [],
  [],
  [],
  [],
  []]

def certChunk7 : List (List (Nat × Nat)) := [
  [(8, 7), (7, 4), (4, 3), (3, 0), (0, 1), (1, 2), (2, 5), (5, 4), (4, 7), (7, 8), (8, 5), (5, 4), (4, 3), (3, 6), (6, 7), (7, 8)],
  [(8, 7), (7, 4), (4, 5), (5, 8), (8, 7), (7, 4), (4, 3), (3, 6), (6, 7), (7, 4), (4, 1), (1, 2), (2, 5), (5, 8)],
  [(8, 7), (7, 4), (4, 3), (3, 0), (0, 1), (1, 2), (2, 5), (5, 8), (8, 7), (7, 4), (4, 1), (1, 2), (2, 5), (5, 8)],
  [],
  [],
  [(8, 7), (7, 4), (4, 3), (3, 0), (0, 1), (1, 2), (2, 5), (5, 8), (8, 7), (7, 4), (4, 5), (5, 2), (2, 1), (1, 4), (4, 5), (5, 8)],
  [(8, 7), (7, 4), (4, 5), (5, 8), (8, 7), (7, 6), (6, 3), (3, 4), (4, 7), (7, 6), (6, 3), (3, 0), (0, 1), (1, 2), (2, 5), (5, 8)],
  [(8, 7), (7, 4), (4, 3), (3, 0), (0, 1), (1, 2), (2, 5), (5, 8), (8, 7), (7, 4), (4, 5), (5, 8)],
  [(8, 5), (5, 4), (4, 3), (3, 6), (6, 7), (7, 4), (4, 1), (1, 0), (0, 3), (3, 4), (4, 1), (1, 2), (2, 5), (5, 8)],
  [(8, 5), (5, 4), (4, 3), (3, 6), (6, 7), (7, 4), (4, 1), (1, 2), (2, 5), (5, 8)],
  [(8, 5), (5, 2), (2, 1), (1, 4), (4, 3), (3, 6), (6, 7), (7, 4), (4, 5), (5, 8)],
  [],
  [(8, 5), (5, 4), (4, 3), (3, 6), (6, 7), (7, 4), (4, 5), (5, 8)],
  [],
  [(8, 5), (5, 4), (4, 3), (3, 6), (6, 7), (7, 4), (4, 3), (3, 0), (0, 1), (1, 2), (2, 5), (5, 8)],
  [(8, 5), (5, 4), (4, 3), (3, 6), (6, 7), (7, 4), (4, 5), (5, 8), (8, 7), (7, 6), (6, 3), (3, 4), (4, 7), (7, 8)],
  [(8, 7), (7, 6), (6, 3), (3, 4), (4, 5), (5, 8), (8, 7), (7, 6), (6, 3), (3, 4), (4, 1), (1, 0), (0, 3), (3, 4), (4, 1), (1, 2), (2, 5), (5, 8)],
  [(8, 7), (7, 6), (6, 3), (3, 4), (4, 5), (5, 8), (8, 7), (7, 6), (6, 3), (3, 4), (4, 1), (1, 2), (2, 5), (5, 8)],
  [(8, 7), (7, 6), (6, 3), (3, 4), (4, 5), (5, 8), (8, 7), (7, 6), (6, 3), (3, 4), (4, 5), (5, 2), (2, 1), (1, 4), (4, 5), (5, 8)],
  [],
  [(8, 7), (7, 6), (6, 3), (3, 0), (0, 1), (1, 2), (2, 5), (5, 8), (8, 7), (7, 6), (6, 3), (3, 0), (0, 1), (1, 2), (2, 5), (5, 8)],
  [(8, 7), (7, 6), (6, 3), (3, 4), (4, 5), (5, 8), (8, 7), (7, 6), (6, 3), (3, 0), (0, 1), (1, 2), (2, 5), (5, 8)],
  [],
  [(8, 7), (7, 6), (6, 3), (3, 4), (4, 5), (5, 8), (8, 7), (7, 6), (6, 3), (3, 4), (4, 5), (5, 8)],
  [(8, 7), (7, 4), (4, 3), (3, 6), (6, 7), (7, 4), (4, 1), (1, 0), (0, 3), (3, 4), (4, 1), (1, 2), (2, 5), (5, 8)],
  [(8, 7), (7, 4), (4, 3), (3, 6), (6, 7), (7, 4), (4, 1), (1, 2), (2, 5), (5, 8)],
  [(8, 7), (7, 4), (4, 3), (3, 6), (6, 7), (7, 4), (4, 5), (5, 2), (2, 1), (1, 4), (4, 5), (5, 8)],
  [],
  [(8, 7), (7, 6), (6, 3), (3, 0), (0, 1), (1, 2), (2, 5), (5, 4), (4, 7), (7, 6), (6, 3), (3, 4), (4, 5), (5, 8)],
  [(8, 7), (7, 4), (4, 3), (3, 6), (6, 7), (7, 4), (4, 5), (5, 8)],
  [(8, 7), (7, 6), (6, 3), (3, 4), (4, 7), (7, 6), (6, 3), (3, 0), (0, 1), (1, 2), (2, 5), (5, 8)],
  []]

def certChunk8 : List (List (Nat × Nat)) := [
  [],
  [(8, 7), (7, 4), (4, 5), (5, 8), (8, 7), (7, 4), (4, 1), (1, 0), (0, 3), (3, 4), (4, 1), (1, 2), (2, 5), (5, 4), (4, 3), (3, 6), (6, 7), (7, 8)],
  [(8, 7), (7, 4), (4, 5), (5, 2), (2, 1), (1, 0), (0, 3), (3, 4), (4, 5), (5, 8), (8, 7), (7, 4), (4, 1), (1, 2), (2, 5), (5, 4), (4, 7), (7, 8)],
  [(8, 7), (7, 6), (6, 3), (3, 0), (0, 1), (1, 2), (2, 5), (5, 4), (4, 3), (3, 6), (6, 7), (7, 8), (8, 5), (5, 4), (4, 3), (3, 6), (6, 7), (7, 8)],
  [],
  [(8, 5), (5, 4), (4, 3), (3, 0), (0, 1), (1, 4), (4, 3), (3, 6), (6, 7), (7, 8), (8, 5), (5, 4), (4, 7), (7, 8)],
  [(8, 5), (5, 4), (4, 3), (3, 0), (0, 1), (1, 4), (4, 3), (3, 6), (6, 7), (7, 8), (8, 5), (5, 4), (4, 3), (3, 6), (6, 7), (7, 8)],
  [(8, 7), (7, 6), (6, 3), (3, 0), (0, 1), (1, 2), (2, 5), (5, 4), (4, 3), (3, 6), (6, 7), (7, 8), (8, 5), (5, 4), (4, 7), (7, 8)],
  [(8, 5), (5, 4), (4, 1), (1, 0), (0, 3), (3, 6), (6, 7), (7, 8), (8, 5), (5, 4), (4, 1), (1, 0), (0, 3), (3, 6), (6, 7), (7, 8)],
  [],
  [(8, 7), (7, 4), (4, 5), (5, 2), (2, 1), (1, 4), (4, 5), (5, 8), (8, 7), (7, 4), (4, 5), (5, 2), (2, 1), (1, 4), (4, 7), (7, 8)],
  [(8, 7), (7, 4), (4, 5), (5, 8), (8, 7), (7, 4), (4, 1), (1, 2), (2, 5), (5, 4), (4, 3), (3, 6), (6, 7), (7, 8)],
  [],
  [(8, 7), (7, 4), (4, 5), (5, 8), (8, 7), (7, 4), (4, 1), (1, 2), (2, 5), (5, 4), (4, 7), (7, 8)],
  [(8, 7), (7, 4), (4, 5), (5, 8), (8, 7), (7, 6), (6, 3), (3, 4), (4, 1), (1, 2), (2, 5), (5, 4), (4, 7), (7, 8)],
  [(8, 7), (7, 4), (4, 1), (1, 0), (0, 3), (3, 6), (6, 7), (7, 4), (4, 5), (5, 8), (8, 7), (7, 6), (6, 3), (3, 4), (4, 5), (5, 8)],
  [(8, 5), (5, 4), (4, 3), (3, 0), (0, 1), (1, 4), (4, 7), (7, 8), (8, 5), (5, 2), (2, 1), (1, 4), (4, 3), (3, 6), (6, 7), (7, 8)],
  [(8, 7), (7, 4), (4, 1), (1, 2), (2, 5), (5, 8), (8, 7), (7, 4), (4, 1), (1, 2), (2, 5), (5, 4), (4, 7), (7, 8)],
  [],
  [(8, 5), (5, 4), (4, 7), (7, 8), (8, 5), (5, 2), (2, 1), (1, 4), (4, 3), (3, 6), (6, 7), (7, 8)],
  [],
  [(8, 5), (5, 4), (4, 7), (7, 8), (8, 5), (5, 2), (2, 1), (1, 4), (4, 7), (7, 8)],
  [(8, 7), (7, 4), (4, 5), (5, 8), (8, 7), (7, 6), (6, 3), (3, 4), (4, 5), (5, 2), (2, 1), (1, 4), (4, 7), (7, 8)],
  [(8, 5), (5, 4), (4, 7), (7, 8), (8, 5), (5, 2), (2, 1), (1, 0), (0, 3), (3, 6), (6, 7), (7, 8)],
  [(8, 7), (7, 4), (4, 5), (5, 8), (8, 7), (7, 4), (4, 3), (3, 0), (0, 1), (1, 2), (2, 5), (5, 4), (4, 3), (3, 6), (6, 7), (7, 8)],
  [(8, 5), (5, 4), (4, 3), (3, 6), (6, 7), (7, 8), (8, 5), (5, 4), (4, 1), (1, 0), (0, 3), (3, 6), (6, 7), (7, 8)],
  [(8, 5), (5, 4), (4, 3), (3, 6), (6, 7), (7, 8), (8, 5), (5, 4), (4, 7), (7, 8), (8, 5), (5, 2), (2, 1), (1, 4), (4, 5), (5, 8)],
  [],
  [],
  [(8, 5), (5, 4), (4, 3), (3, 6), (6, 7), (7, 8), (8, 5), (5, 4), (4, 7), (7, 8)],
  [(8, 5), (5, 4), (4, 3), (3, 6), (6, 7), (7, 8), (8, 5), (5, 4), (4, 3), (3, 6), (6, 7), (7, 8)],
  [(8, 7), (7, 4), (4, 3), (3, 6), (6, 7), (7, 4), (4, 5), (5, 8), (8, 7), (7, 6), (6, 3), (3, 4), (4, 5), (5, 8)]]

def certChunk9 : List (List (Nat × Nat)) := [
  [],
  [],
  [],
  [],
  [],
  [],
  [],
  [],
  [(8, 5), (5, 2), (2, 1), (1, 0), (0, 3), (3, 6), (6, 7), (7, 4), (4, 1), (1, 2), (2, 5), (5, 8)],
  [(8, 7), (7, 4), (4, 1), (1, 2), (2, 5), (5, 8), (8, 7), (7, 4), (4, 5), (5, 2), (2, 1), (1, 4), (4, 7), (7, 8)],
  [(8, 5), (5, 2), (2, 1), (1, 0), (0, 3), (3, 6), (6, 7), (7, 4), (4, 5), (5, 8)],
  [(8, 7), (7, 4), (4, 3), (3, 6), (6, 7), (7, 8), (8, 5), (5, 4), (4, 7), (7, 6), (6, 3), (3, 4), (4, 5), (5, 8)],
  [],
  [],
  [(8, 7), (7, 6), (6, 3), (3, 4), (4, 7), (7, 8), (8, 5), (5, 4), (4, 3), (3, 6), (6, 7), (7, 4), (4, 5), (5, 8)],
  [(8, 7), (7, 6), (6, 3), (3, 0), (0, 1), (1, 2), (2, 5), (5, 4), (4, 7), (7, 8), (8, 5), (5, 2), (2, 1), (1, 4), (4, 7), (7, 8)],
  [(8, 7), (7, 6), (6, 3), (3, 0), (0, 1), (1, 2), (2, 5), (5, 4), (4, 7), (7, 8), (8, 5), (5, 4), (4, 3), (3, 6), (6, 7), (7, 8)],
  [(8, 5), (5, 4), (4, 7), (7, 6), (6, 3), (3, 4), (4, 5), (5, 8), (8, 7), (7, 4), (4, 1), (1, 2), (2, 5), (5, 8)],
  [(8, 7), (7, 6), (6, 3), (3, 0), (0, 1), (1, 2), (2, 5), (5, 8), (8, 7), (7, 4), (4, 1), (1, 2), (2, 5), (5, 8)],
  [(8, 5), (5, 4), (4, 7), (7, 6), (6, 3), (3, 4), (4, 7), (7, 8), (8, 5), (5, 4), (4, 7), (7, 6), (6, 3), (3, 4), (4, 7), (7, 8)],
  [],
  [(8, 5), (5, 4), (4, 7), (7, 6), (6, 3), (3, 4), (4, 5), (5, 8), (8, 7), (7, 4), (4, 5), (5, 8)],
  [],
  [(8, 7), (7, 6), (6, 3), (3, 0), (0, 1), (1, 2), (2, 5), (5, 8), (8, 7), (7, 4), (4, 5), (5, 8)],
  [(8, 7), (7, 4), (4, 1), (1, 0), (0, 3), (3, 4), (4, 1), (1, 2), (2, 5), (5, 8)],
  [(8, 7), (7, 4), (4, 1), (1, 2), (2, 5), (5, 8)],
  [(8, 7), (7, 4), (4, 5), (5, 2), (2, 1), (1, 4), (4, 5), (5, 8)],
  [(8, 7), (7, 4), (4, 3), (3, 0), (0, 1), (1, 2), (2, 5), (5, 8)],
  [],
  [(8, 7), (7, 4), (4, 5), (5, 8)],
  [(8, 7), (7, 4), (4, 5), (5, 8), (8, 7), (7, 6), (6, 3), (3, 4), (4, 7), (7, 8)],
  []]

def certChunk10 : List (List (Nat × Nat)) := [
  [],
  [(8, 5), (5, 4), (4, 1), (1, 0), (0, 3), (3, 4), (4, 1), (1, 2), (2, 5), (5, 4), (4, 3), (3, 6), (6, 7), (7, 8)],
  [(8, 5), (5, 4), (4, 1), (1, 0), (0, 3), (3, 4), (4, 1), (1, 2), (2, 5), (5, 4), (4, 1), (1, 0), (0, 3), (3, 6), (6, 7), (7, 8)],
  [(8, 7), (7, 6), (6, 3), (3, 0), (0, 1), (1, 4), (4, 3), (3, 6), (6, 7), (7, 8), (8, 5), (5, 4), (4, 3), (3, 6), (6, 7), (7, 8)],
  [(8, 5), (5, 2), (2, 1), (1, 0), (0, 3), (3, 4), (4, 1), (1, 2), (2, 5), (5, 4), (4, 3), (3, 6), (6, 7), (7, 8)],
  [],
  [(8, 7), (7, 4), (4, 3), (3, 0), (0, 1), (1, 4), (4, 3), (3, 6), (6, 7), (7, 8), (8, 5), (5, 4), (4, 3), (3, 6), (6, 7), (7, 8)],
  [(8, 5), (5, 4), (4, 1), (1, 0), (0, 3), (3, 4), (4, 1), (1, 2), (2, 5), (5, 4), (4, 7), (7, 8)],
  [(8, 5), (5, 4), (4, 1), (1, 2), (2, 5), (5, 4), (4, 3), (3, 0), (0, 1), (1, 4), (4, 3), (3, 6), (6, 7), (7, 8)],
  [],
  [(8, 5), (5, 4), (4, 1), (1, 2), (2, 5), (5, 4), (4, 1), (1, 0), (0, 3), (3, 6), (6, 7), (7, 8)],
  [(8, 5), (5, 4), (4, 1), (1, 2), (2, 5), (5, 4), (4, 3), (3, 6), (6, 7), (7, 8)],
  [(8, 5), (5, 4), (4, 1), (1, 2), (2, 5), (5, 4), (4, 7), (7, 8), (8, 5), (5, 2), (2, 1), (1, 4), (4, 5), (5, 8)],
  [],
  [(8, 5), (5, 4), (4, 1), (1, 2), (2, 5), (5, 4), (4, 7), (7, 6), (6, 3), (3, 4), (4, 7), (7, 8)],
  [(8, 5), (5, 4), (4, 1), (1, 2), (2, 5), (5, 4), (4, 7), (7, 8)],
  [(8, 5), (5, 2), (2, 1), (1, 0), (0, 3), (3, 4), (4, 1), (1, 0), (0, 3), (3, 6), (6, 7), (7, 8)],
  [(8, 5), (5, 2), (2, 1), (1, 4), (4, 7), (7, 8), (8, 5), (5, 2), (2, 1), (1, 4), (4, 5), (5, 8)],
  [],
  [(8, 5), (5, 2), (2, 1), (1, 4), (4, 3), (3, 6), (6, 7), (7, 8)],
  [(8, 5), (5, 2), (2, 1), (1, 0), (0, 3), (3, 6), (6, 7), (7, 8)],
  [],
  [(8, 5), (5, 2), (2, 1), (1, 4), (4, 7), (7, 6), (6, 3), (3, 4), (4, 7), (7, 8)],
  [(8, 5), (5, 2), (2, 1), (1, 4), (4, 7), (7, 8)],
  [(8, 5), (5, 4), (4, 3), (3, 0), (0, 1), (1, 2), (2, 5), (5, 4), (4, 3), (3, 6), (6, 7), (7, 8)],
  [(8, 7), (7, 4), (4, 3), (3, 6), (6, 7), (7, 8), (8, 5), (5, 4), (4, 1), (1, 0), (0, 3), (3, 6), (6, 7), (7, 8)],
  [(8, 5), (5, 4), (4, 3), (3, 0), (0, 1), (1, 2), (2, 5), (5, 4), (4, 1), (1, 0), (0, 3), (3, 6), (6, 7), (7, 8)],
  [],
  [(8, 7), (7, 4), (4, 3), (3, 6), (6, 7), (7, 8), (8, 5), (5, 4), (4, 7), (7, 6), (6, 3), (3, 4), (4, 7), (7, 8)],
  [],
  [(8, 7), (7, 4), (4, 3), (3, 6), (6, 7), (7, 8), (8, 5), (5, 4), (4, 3), (3, 6), (6, 7), (7, 8)],
  [(8, 7), (7, 4), (4, 3), (3, 6), (6, 7), (7, 8), (8, 5), (5, 4), (4, 7), (7, 8)]]

def certChunk11 : List (List (Nat × Nat)) := [
  [(8, 5), (5, 4), (4, 3), (3, 0), (0, 1), (1, 4), (4, 3), (3, 6), (6, 7), (7, 8)],
  [(8, 5), (5, 4), (4, 1), (1, 0), (0, 3), (3, 6), (6, 7), (7, 8)],
  [(8, 5), (5, 4), (4, 7), (7, 8), (8, 5), (5, 2), (2, 1), (1, 4), (4, 5), (5, 8)],
  [(8, 5), (5, 4), (4, 3), (3, 6), (6, 7), (7, 8)],
  [],
  [],
  [(8, 5), (5, 4), (4, 7), (7, 6), (6, 3), (3, 4), (4, 7), (7, 8)],
  [(8, 5), (5, 4), (4, 7), (7, 8)],
  [],
  [],
  [],
  [],
  [],
  [],
  [],
  [],
  [(8, 7), (7, 6), (6, 3), (3, 0), (0, 1), (1, 4), (4, 7), (7, 8), (8, 5), (5, 4), (4, 3), (3, 6), (6, 7), (7, 8)],
  [(8, 7), (7, 6), (6, 3), (3, 4), (4, 5), (5, 8), (8, 7), (7, 4), (4, 1), (1, 2), (2, 5), (5, 8)],
  [(8, 7), (7, 6), (6, 3), (3, 4), (4, 5), (5, 8), (8, 7), (7, 4), (4, 5), (5, 2), (2, 1), (1, 4), (4, 5), (5, 8)],
  [(8, 7), (7, 6), (6, 3), (3, 4), (4, 7), (7, 8), (8, 5), (5, 4), (4, 7), (7, 6), (6, 3), (3, 4), (4, 7), (7, 8)],
  [(8, 7), (7, 6), (6, 3), (3, 4), (4, 7), (7, 8), (8, 5), (5, 4), (4, 3), (3, 6), (6, 7), (7, 8)],
  [],
  [],
  [(8, 7), (7, 6), (6, 3), (3, 4), (4, 5), (5, 8), (8, 7), (7, 4), (4, 5), (5, 8)],
  [(8, 7), (7, 4), (4, 5), (5, 2), (2, 1), (1, 0), (0, 3), (3, 6), (6, 7), (7, 4), (4, 1), (1, 2), (2, 5), (5, 8)],
  [(8, 7), (7, 4), (4, 5), (5, 2), (2, 1), (1, 0), (0, 3), (3, 6), (6, 7), (7, 4), (4, 5), (5, 2), (2, 1), (1, 4), (4, 5), (5, 8)],
  [(8, 7), (7, 4), (4, 5), (5, 2), (2, 1), (1, 0), (0, 3), (3, 6), (6, 7), (7, 4), (4, 5), (5, 8)],
  [(8, 5), (5, 4), (4, 7), (7, 6), (6, 3), (3, 0), (0, 1), (1, 2), (2, 5), (5, 4), (4, 7), (7, 6), (6, 3), (3, 4), (4, 7), (7, 8)],
  [(8, 7), (7, 4), (4, 3), (3, 6), (6, 7), (7, 8), (8, 5), (5, 4), (4, 7), (7, 6), (6, 3), (3, 0), (0, 1), (1, 2), (2, 5), (5, 4), (4, 7), (7, 8)],
  [],
  [(8, 5), (5, 4), (4, 7), (7, 6), (6, 3), (3, 0), (0, 1), (1, 2), (2, 5), (5, 4), (4, 7), (7, 8)],
  []]

def certChunk12 : List (List (Nat × Nat)) := [
  [],
  [(8, 7), (7, 6), (6, 3), (3, 4), (4, 5), (5, 8), (8, 7), (7, 4), (4, 1), (1, 0), (0, 3), (3, 4), (4, 1), (1, 2), (2, 5), (5, 4), (4, 3), (3, 6), (6, 7), (7, 8)],
  [(8, 7), (7, 6), (6, 3), (3, 4), (4, 5), (5, 2), (2, 1), (1, 0), (0, 3), (3, 4), (4, 5), (5, 8), (8, 7), (7, 4), (4, 1), (1, 2), (2, 5), (5, 4), (4, 7), (7, 8)],
  [(8, 7), (7, 6), (6, 3), (3, 4), (4, 5), (5, 8), (8, 7), (7, 6), (6, 3), (3, 4), (4, 1), (1, 0), (0, 3), (3, 4), (4, 1), (1, 2), (2, 5), (5, 4), (4, 7), (7, 8)],
  [(8, 7), (7, 6), (6, 3), (3, 0), (0, 1), (1, 2), (2, 5), (5, 8), (8, 7), (7, 4), (4, 3), (3, 0), (0, 1), (1, 2), (2, 5), (5, 4), (4, 7), (7, 8)],
  [(8, 7), (7, 6), (6, 3), (3, 4), (4, 5), (5, 8), (8, 7), (7, 4), (4, 1), (1, 0), (0, 3), (3, 4), (4, 1), (1, 2), (2, 5), (5, 4), (4, 7), (7, 8)],
  [],
  [(8, 7), (7, 6), (6, 3), (3, 0), (0, 1), (1, 4), (4, 3), (3, 6), (6, 7), (7, 4), (4, 5), (5, 8), (8, 7), (7, 6), (6, 3), (3, 4), (4, 5), (5, 8)],
  [(8, 7), (7, 6), (6, 3), (3, 4), (4, 5), (5, 8), (8, 7), (7, 4), (4, 1), (1, 2), (2, 5), (5, 4), (4, 3), (3, 0), (0, 1), (1, 4), (4, 3), (3, 6), (6, 7), (7, 8)],
  [],
  [(8, 7), (7, 6), (6, 3), (3, 4), (4, 5), (5, 2), (2, 1), (1, 4), (4, 5), (5, 8), (8, 7), (7, 4), (4, 5), (5, 2), (2, 1), (1, 4), (4, 7), (7, 8)],
  [(8, 7), (7, 6), (6, 3), (3, 4), (4, 5), (5, 8), (8, 7), (7, 6), (6, 3), (3, 4), (4, 1), (1, 2), (2, 5), (5, 4), (4, 7), (7, 8)],
  [(8, 7), (7, 6), (6, 3), (3, 4), (4, 5), (5, 8), (8, 7), (7, 4), (4, 1), (1, 2), (2, 5), (5, 4), (4, 3), (3, 6), (6, 7), (7, 8)],
  [(8, 7), (7, 6), (6, 3), (3, 4), (4, 5), (5, 8), (8, 7), (7, 4), (4, 1), (1, 2), (2, 5), (5, 4), (4, 7), (7, 8)],
  [],
  [(8, 5), (5, 4), (4, 1), (1, 2), (2, 5), (5, 4), (4, 7), (7, 8), (8, 5), (5, 4), (4, 7), (7, 6), (6, 3), (3, 4), (4, 5), (5, 8)],
  [(8, 7), (7, 6), (6, 3), (3, 0), (0, 1), (1, 2), (2, 5), (5, 8), (8, 7), (7, 4), (4, 1), (1, 2), (2, 5), (5, 4), (4, 3), (3, 6), (6, 7), (7, 8)],
  [(8, 7), (7, 6), (6, 3), (3, 4), (4, 1), (1, 2), (2, 5), (5, 8), (8, 7), (7, 4), (4, 1), (1, 2), (2, 5), (5, 4), (4, 7), (7, 8)],
  [],
  [(8, 7), (7, 6), (6, 3), (3, 4), (4, 5), (5, 8), (8, 7), (7, 6), (6, 3), (3, 4), (4, 5), (5, 2), (2, 1), (1, 4), (4, 7), (7, 8)],
  [(8, 7), (7, 6), (6, 3), (3, 4), (4, 5), (5, 8), (8, 7), (7, 4), (4, 5), (5, 2), (2, 1), (1, 4), (4, 3), (3, 6), (6, 7), (7, 8)],
  [(8, 7), (7, 6), (6, 3), (3, 4), (4, 5), (5, 8), (8, 7), (7, 4), (4, 5), (5, 2), (2, 1), (1, 4), (4, 7), (7, 8)],
  [],
  [(8, 5), (5, 2), (2, 1), (1, 4), (4, 7), (7, 8), (8, 5), (5, 4), (4, 7), (7, 6), (6, 3), (3, 4), (4, 5), (5, 8)],
  [(8, 7), (7, 6), (6, 3), (3, 4), (4, 7), (7, 6), (6, 3), (3, 0), (0, 1), (1, 2), (2, 5), (5, 4), (4, 7), (7, 8), (8, 5), (5, 4), (4, 3), (3, 6), (6, 7), (7, 8)],
  [(8, 7), (7, 4), (4, 3), (3, 6), (6, 7), (7, 4), (4, 5), (5, 8), (8, 7), (7, 4), (4, 3), (3, 6), (6, 7), (7, 4), (4, 1), (1, 2), (2, 5), (5, 8)],
  [(8, 7), (7, 6), (6, 3), (3, 4), (4, 7), (7, 6), (6, 3), (3, 0), (0, 1), (1, 2), (2, 5), (5, 8), (8, 7), (7, 4), (4, 1), (1, 2), (2, 5), (5, 8)],
  [],
  [(8, 7), (7, 4), (4, 3), (3, 0), (0, 1), (1, 2), (2, 5), (5, 4), (4, 7), (7, 8), (8, 5), (5, 4), (4, 7), (7, 6), (6, 3), (3, 4), (4, 5), (5, 8)],
  [(8, 5), (5, 4), (4, 3), (3, 6), (6, 7), (7, 4), (4, 3), (3, 0), (0, 1), (1, 2), (2, 5), (5, 8), (8, 7), (7, 4), (4, 5), (5, 8)],
  [],
  [(8, 7), (7, 6), (6, 3), (3, 4), (4, 7), (7, 6), (6, 3), (3, 0), (0, 1), (1, 2), (2, 5), (5, 8), (8, 7), (7, 4), (4, 5), (5, 8)]]

def certChunk13 : List (List (Nat × Nat)) := [
  [(8, 7), (7, 4), (4, 5), (5, 8), (8, 7), (7, 6), (6, 3), (3, 4), (4, 1), (1, 0), (0, 3), (3, 4), (4, 1), (1, 2), (2, 5), (5, 8)],
  [(8, 7), (7, 4), (4, 5), (5, 8), (8, 7), (7, 6), (6, 3), (3, 4), (4, 1), (1, 2), (2, 5), (5, 8)],
  [(8, 7), (7, 4), (4, 5), (5, 8), (8, 7), (7, 6), (6, 3), (3, 4), (4, 5), (5, 2), (2, 1), (1, 4), (4, 5), (5, 8)],
  [(8, 5), (5, 4), (4, 3), (3, 6), (6, 7), (7, 8), (8, 5), (5, 4), (4, 3), (3, 6), (6, 7), (7, 4), (4, 5), (5, 8)],
  [],
  [(8, 7), (7, 4), (4, 5), (5, 8), (8, 7), (7, 6), (6, 3), (3, 0), (0, 1), (1, 2), (2, 5), (5, 8)],
  [],
  [(8, 7), (7, 4), (4, 5), (5, 8), (8, 7), (7, 6), (6, 3), (3, 4), (4, 5), (5, 8)],
  [(8, 5), (5, 4), (4, 1), (1, 0), (0, 3), (3, 4), (4, 7), (7, 6), (6, 3), (3, 4), (4, 1), (1, 2), (2, 5), (5, 8)],
  [(8, 5), (5, 4), (4, 7), (7, 6), (6, 3), (3, 4), (4, 1), (1, 2), (2, 5), (5, 8)],
  [(8, 5), (5, 2), (2, 1), (1, 4), (4, 7), (7, 6), (6, 3), (3, 4), (4, 5), (5, 8)],
  [(8, 7), (7, 4), (4, 3), (3, 6), (6, 7), (7, 8), (8, 5), (5, 4), (4, 3), (3, 6), (6, 7), (7, 4), (4, 5), (5, 8)],
  [(8, 5), (5, 4), (4, 7), (7, 6), (6, 3), (3, 4), (4, 5), (5, 8)],
  [],
  [],
  [(8, 5), (5, 4), (4, 7), (7, 6), (6, 3), (3, 0), (0, 1), (1, 2), (2, 5), (5, 8)],
  [],
  [],
  [],
  [],
  [],
  [],
  [],
  [],
  [(8, 7), (7, 6), (6, 3), (3, 4), (4, 1), (1, 0), (0, 3), (3, 4), (4, 1), (1, 2), (2, 5), (5, 8)],
  [(8, 7), (7, 6), (6, 3), (3, 4), (4, 1), (1, 2), (2, 5), (5, 8)],
  [(8, 7), (7, 6), (6, 3), (3, 4), (4, 5), (5, 2), (2, 1), (1, 4), (4, 5), (5, 8)],
  [(8, 7), (7, 6), (6, 3), (3, 4), (4, 5), (5, 8), (8, 7), (7, 6), (6, 3), (3, 4), (4, 7), (7, 8)],
  [(8, 7), (7, 6), (6, 3), (3, 0), (0, 1), (1, 2), (2, 5), (5, 8)],
  [(8, 7), (7, 6), (6, 3), (3, 4), (4, 5), (5, 8)],
  [],
  []]

def certChunk14 : List (List (Nat × Nat)) := [
  [],
  [(8, 7), (7, 4), (4, 1), (1, 0), (0, 3), (3, 4), (4, 1), (1, 2), (2, 5), (5, 4), (4, 3), (3, 6), (6, 7), (7, 8)],
  [(8, 7), (7, 4), (4, 1), (1, 0), (0, 3), (3, 4), (4, 1), (1, 2), (2, 5), (5, 4), (4, 1), (1, 0), (0, 3), (3, 6), (6, 7), (7, 8)],
  [(8, 7), (7, 4), (4, 3), (3, 6), (6, 7), (7, 4), (4, 1), (1, 0), (0, 3), (3, 4), (4, 1), (1, 2), (2, 5), (5, 4), (4, 7), (7, 8)],
  [(8, 7), (7, 4), (4, 1), (1, 0), (0, 3), (3, 4), (4, 1), (1, 2), (2, 5), (5, 4), (4, 7), (7, 8)],
  [(8, 7), (7, 4), (4, 5), (5, 2), (2, 1), (1, 0), (0, 3), (3, 4), (4, 1), (1, 2), (2, 5), (5, 4), (4, 3), (3, 6), (6, 7), (7, 8)],
  [(8, 7), (7, 6), (6, 3), (3, 4), (4, 1), (1, 0), (0, 3), (3, 4), (4, 1), (1, 2), (2, 5), (5, 4), (4, 7), (7, 8)],
  [],
  [(8, 7), (7, 4), (4, 1), (1, 2), (2, 5), (5, 4), (4, 3), (3, 0), (0, 1), (1, 4), (4, 3), (3, 6), (6, 7), (7, 8)],
  [],
  [(8, 7), (7, 4), (4, 1), (1, 2), (2, 5), (5, 4), (4, 1), (1, 0), (0, 3), (3, 6), (6, 7), (7, 8)],
  [(8, 7), (7, 4), (4, 1), (1, 2), (2, 5), (5, 4), (4, 3), (3, 6), (6, 7), (7, 8)],
  [(8, 7), (7, 4), (4, 1), (1, 2), (2, 5), (5, 4), (4, 7), (7, 8)],
  [(8, 7), (7, 4), (4, 1), (1, 2), (2, 5), (5, 4), (4, 7), (7, 8), (8, 5), (5, 2), (2, 1), (1, 4), (4, 5), (5, 8)],
  [(8, 7), (7, 6), (6, 3), (3, 4), (4, 1), (1, 2), (2, 5), (5, 4), (4, 7), (7, 8)],
  [],
  [(8, 7), (7, 6), (6, 3), (3, 0), (0, 1), (1, 4), (4, 5), (5, 2), (2, 1), (1, 4), (4, 3), (3, 6), (6, 7), (7, 8)],
  [(8, 7), (7, 4), (4, 5), (5, 2), (2, 1), (1, 4), (4, 7), (7, 8), (8, 5), (5, 2), (2, 1), (1, 4), (4, 5), (5, 8)],
  [],
  [(8, 7), (7, 4), (4, 5), (5, 2), (2, 1), (1, 4), (4, 3), (3, 6), (6, 7), (7, 8)],
  [(8, 7), (7, 4), (4, 5), (5, 2), (2, 1), (1, 4), (4, 7), (7, 8)],
  [(8, 7), (7, 4), (4, 5), (5, 2), (2, 1), (1, 0), (0, 3), (3, 6), (6, 7), (7, 8)],
  [(8, 7), (7, 6), (6, 3), (3, 4), (4, 5), (5, 2), (2, 1), (1, 4), (4, 7), (7, 8)],
  [],
  [(8, 7), (7, 4), (4, 3), (3, 0), (0, 1), (1, 2), (2, 5), (5, 4), (4, 3), (3, 6), (6, 7), (7, 8)],
  [(8, 7), (7, 4), (4, 3), (3, 0), (0, 1), (1, 2), (2, 5), (5, 4), (4, 3), (3, 0), (0, 1), (1, 4), (4, 3), (3, 6), (6, 7), (7, 8)],
  [(8, 7), (7, 4), (4, 3), (3, 0), (0, 1), (1, 2), (2, 5), (5, 4), (4, 1), (1, 0), (0, 3), (3, 6), (6, 7), (7, 8)],
  [],
  [(8, 7), (7, 4), (4, 3), (3, 0), (0, 1), (1, 2), (2, 5), (5, 4), (4, 7), (7, 8)],
  [(8, 5), (5, 4), (4, 3), (3, 6), (6, 7), (7, 4), (4, 5), (5, 8), (8, 7), (7, 6), (6, 3), (3, 4), (4, 5), (5, 8)],
  [(8, 7), (7, 4), (4, 3), (3, 0), (0, 1), (1, 2), (2, 5), (5, 4), (4, 7), (7, 6), (6, 3), (3, 4), (4, 7), (7, 8)],
  []]

def certChunk15 : List (List (Nat × Nat)) := [
  [(8, 7), (7, 6), (6, 3), (3, 0), (0, 1), (1, 2), (2, 5), (5, 4), (4, 3), (3, 6), (6, 7), (7, 8)],
  [(8, 5), (5, 4), (4, 1), (1, 2), (2, 5), (5, 8), (8, 7), (7, 4), (4, 5), (5, 2), (2, 1), (1, 4), (4, 7), (7, 8)],
  [(8, 7), (7, 6), (6, 3), (3, 0), (0, 1), (1, 2), (2, 5), (5, 4), (4, 1), (1, 0), (0, 3), (3, 6), (6, 7), (7, 8)],
  [(8, 7), (7, 6), (6, 3), (3, 0), (0, 1), (1, 2), (2, 5), (5, 4), (4, 7), (7, 6), (6, 3), (3, 4), (4, 7), (7, 8)],
  [],
  [(8, 7), (7, 6), (6, 3), (3, 0), (0, 1), (1, 2), (2, 5), (5, 4), (4, 7), (7, 8), (8, 5), (5, 2), (2, 1), (1, 4), (4, 5), (5, 8)],
  [(8, 7), (7, 6), (6, 3), (3, 0), (0, 1), (1, 2), (2, 5), (5, 4), (4, 7), (7, 8)],
  [],
  [(8, 7), (7, 6), (6, 3), (3, 0), (0, 1), (1, 4), (4, 3), (3, 6), (6, 7), (7, 8)],
  [(8, 5), (5, 4), (4, 1), (1, 2), (2, 5), (5, 8)],
  [(8, 5), (5, 2), (2, 1), (1, 4), (4, 5), (5, 8)],
  [(8, 7), (7, 4), (4, 3), (3, 6), (6, 7), (7, 8)],
  [],
  [],
  [(8, 7), (7, 6), (6, 3), (3, 4), (4, 7), (7, 8)],
  [],
  [(8, 7), (7, 6), (6, 3), (3, 4), (4, 7), (7, 6), (6, 3), (3, 0), (0, 1), (1, 2), (2, 5), (5, 4), (4, 3), (3, 6), (6, 7), (7, 8)],
  [(8, 7), (7, 4), (4, 5), (5, 8), (8, 7), (7, 6), (6, 3), (3, 4), (4, 5), (5, 8), (8, 7), (7, 4), (4, 1), (1, 2), (2, 5), (5, 8)],
  [(8, 5), (5, 4), (4, 7), (7, 6), (6, 3), (3, 0), (0, 1), (1, 2), (2, 5), (5, 8), (8, 7), (7, 4), (4, 1), (1, 2), (2, 5), (5, 8)],
  [(8, 7), (7, 6), (6, 3), (3, 4), (4, 7), (7, 6), (6, 3), (3, 0), (0, 1), (1, 2), (2, 5), (5, 4), (4, 7), (7, 8)],
  [(8, 7), (7, 4), (4, 5), (5, 8), (8, 7), (7, 6), (6, 3), (3, 4), (4, 5), (5, 8), (8, 7), (7, 4), (4, 5), (5, 8)],
  [(8, 5), (5, 4), (4, 7), (7, 6), (6, 3), (3, 0), (0, 1), (1, 2), (2, 5), (5, 8), (8, 7), (7, 4), (4, 5), (5, 8)],
  [],
  [],
  [],
  [],
  [],
  [],
  [],
  [],
  [],
  []]

def certTable : List (List (Nat × Nat)) :=
  certChunk0 ++ certChunk1 ++ certChunk2 ++ certChunk3 ++ certChunk4 ++ certChunk5 ++ certChunk6 ++ certChunk7 ++ certChunk8 ++ certChunk9 ++ certChunk10 ++ certChunk11 ++ certChunk12 ++ certChunk13 ++ certChunk14 ++ certChunk15

def certWord (x y z : Nat) : List (Nat × Nat) := certTable.getD (x * 64 + y * 8 + z) []

/-- The word for the ordered triple is a closed blank walk whose permutation
sends cell 7 to `x`, cell 5 to `y` and cell 4 to `z`. -/
def certOK (x y z : Nat) : Bool :=
  swapWordOK 8 (certWord x y z) 8 &&
  ((applySwaps GOAL_STATE (certWord x y z)).getD 7 0 == x + 1) &&
  ((applySwaps GOAL_STATE (certWord x y z)).getD 5 0 == y + 1) &&
  ((applySwaps GOAL_STATE (certWord x y z)).getD 4 0 == z + 1)

/-- The base swap word: a 4-cycle of the blank through cells 8, 5, 4, 7. -/
def baseWord : List (Nat × Nat) := [(8, 5), (5, 4), (4, 7), (7, 8)]

def smallPred (x : Fin 9) : Prop := x.val < 8

instance decSmallPred : DecidablePred smallPred := fun x => Nat.decLt x.val 8

def e8 : Fin 8 ≃ {x : Fin 9 // smallPred x} :=
  ⟨fun a => ⟨⟨a.val, by omega⟩, a.isLt⟩, fun x => ⟨x.val.val, x.2⟩,
    fun _ => rfl, fun _ => rfl⟩

def restrictPerm (σ : Equiv.Perm (Fin 9)) (h : ∀ x, smallPred x ↔ smallPred (σ x)) :
    Equiv.Perm (Fin 8) :=
  Equiv.permCongr e8.symm (σ.subtypePerm h)

/-! ### Basic list and board infrastructure -/

theorem length_listSwap (l : List Nat) (i j : Nat) : (listSwap l i j).length = l.length := by
  simp [listSwap]

theorem getD_listSwap (l : List Nat) (i j k : Nat) (hi : i < l.length) (hj : j < l.length) :
    (listSwap l i j).getD k 0 =
      if k = j then l.getD i 0 else if k = i then l.getD j 0 else l.getD k 0 := by
  rcases Nat.lt_or_ge k l.length with hk | hk
  · unfold listSwap
    rw [List.getD_eq_getElem _ _ (by simpa [listSwap] using hk)]
    rw [List.getElem_set, List.getElem_set]
    split
    · rw [if_pos (by omega), List.getD_eq_getElem _ _ hi]
    · split
      · rw [if_neg (by omega), if_pos (by omega), List.getD_eq_getElem _ _ hj]
      · rw [if_neg (by omega), if_neg (by omega), List.getD_eq_getElem _ _ hk]
  · rw [List.getD_eq_default _ _ (by simpa [listSwap] using hk)]
    rw [if_neg (by omega), if_neg (by omega), List.getD_eq_default _ _ hk]

theorem set_getElem_self (l : List Nat) (i : Nat) (hi : i < l.length) : l.set i l[i] = l := by
  apply List.ext_getElem (by simp)
  intro k h1 h2
  rw [List.getElem_set]
  split
  · rename_i h; subst h; rfl
  · rfl

theorem perm_listSwap (l : List Nat) (i j : Nat) (hi : i < l.length) (hj : j < l.length) :
    (listSwap l i j).Perm l := by
  rcases eq_or_ne i j with rfl | hij
  · unfold listSwap
    rw [List.getD_eq_getElem _ _ hi, List.set_set, set_getElem_self _ _ hi]
  · wlog hlt : i < j generalizing i j
    · have h := this j i hj hi hij.symm (by omega)
      have hswap : listSwap l i j = listSwap l j i := by
        unfold listSwap
        rw [List.set_comm _ _ _ hij]
      rw [hswap]; exact h
    · unfold listSwap
      rw [List.getD_eq_getElem _ _ hi, List.getD_eq_getElem _ _ hj,
        List.set_eq_take_cons_drop _ hi]
      have hset : (l.take i ++ l[j] :: l.drop (i + 1)).set j l[i]
            = l.take i ++ l[j] :: (l.drop (i + 1)).set (j - (i + 1)) l[i] := by
        rw [List.set_append_right _ _ (by rw [List.length_take]; omega)]
        congr 1
        rw [List.length_take, Nat.min_eq_left (by omega)]
        have h2 : j - i = (j - (i+1)) + 1 := by omega
        rw [h2, List.set_cons_succ]
      rw [hset]
      have hjlen : j - (i + 1) < (l.drop (i + 1)).length := by
        rw [List.length_drop]; omega
      rw [List.set_eq_take_cons_drop _ hjlen]
      have hdropj : (l.drop (i + 1)).drop (j - (i + 1) + 1) = l.drop (j + 1) := by
        rw [List.drop_drop]; congr 1; omega
      rw [hdropj]
      have hperm1 : List.Perm
          (l[j] :: ((l.drop (i+1)).take (j - (i+1)) ++ l[i] :: l.drop (j+1)))
          (l[i] :: ((l.drop (i+1)).take (j - (i+1)) ++ l[j] :: l.drop (j+1))) := by
        refine List.Perm.trans (List.Perm.cons _ List.perm_middle) ?_
        refine List.Perm.trans (List.Perm.swap _ _ _) ?_
        exact List.Perm.cons _ List.perm_middle.symm
      have hl : l = l.take i ++ l[i] :: ((l.drop (i+1)).take (j - (i+1)) ++ l[j] :: l.drop (j+1)) := by
        conv_lhs => rw [← List.take_append_drop i l]
        congr 1
        rw [List.drop_eq_getElem_cons hi]
        congr 1
        conv_lhs => rw [← List.take_append_drop (j - (i+1)) (l.drop (i+1))]
        congr 1
        rw [List.drop_drop]
        have h3 : i + 1 + (j - (i + 1)) = j := by omega
        rw [h3, List.drop_eq_getElem_cons hj]
      refine List.Perm.trans (List.Perm.append_left _ hperm1) ?_
      exact hl ▸ List.Perm.refl l

theorem ValidBoard.length {b : List Nat} (hb : ValidBoard b) : b.length = 9 := by
  simpa using hb.length_eq

theorem ValidBoard.mem_iff {b : List Nat} (hb : ValidBoard b) {x : Nat} : x ∈ b ↔ x < 9 := by
  rw [List.Perm.mem_iff hb, List.mem_range]

theorem ValidBoard.nodup {b : List Nat} (hb : ValidBoard b) : b.Nodup :=
  hb.nodup_iff.2 (List.nodup_range 9)

theorem ValidBoard.idxOf_lt {b : List Nat} (hb : ValidBoard b) {v : Nat} (hv : v < 9) :
    b.indexOf v < 9 := by
  rw [← hb.length]
  exact List.indexOf_lt_length.2 (hb.mem_iff.2 hv)

theorem ValidBoard.getD_idxOf {b : List Nat} (hb : ValidBoard b) {v : Nat} (hv : v < 9) :
    b.getD (b.indexOf v) 0 = v := by
  have h := hb.idxOf_lt hv
  rw [List.getD_eq_getElem _ _ (by rw [hb.length]; exact h)]
  exact List.getElem_indexOf (by rw [hb.length]; exact h)

theorem ValidBoard.getD_lt {b : List Nat} (hb : ValidBoard b) {k : Nat} (hk : k < 9) :
    b.getD k 0 < 9 := by
  have h : b.getD k 0 ∈ b := by
    rw [List.getD_eq_getElem _ _ (by rw [hb.length]; exact hk)]
    exact List.getElem_mem _
  exact hb.mem_iff.1 h

theorem ValidBoard.getD_inj {b : List Nat} (hb : ValidBoard b) {k m : Nat} (hk : k < 9)
    (hm : m < 9) (h : b.getD k 0 = b.getD m 0) : k = m := by
  have hlen : b.length = 9 := hb.length
  rw [List.getD_eq_getElem b 0 (show k < b.length by omega),
    List.getD_eq_getElem b 0 (show m < b.length by omega)] at h
  exact (List.Nodup.getElem_inj_iff hb.nodup).1 h

theorem ValidBoard.idx_of_getD {b : List Nat} (hb : ValidBoard b) {k : Nat} (hk : k < 9) :
    b.indexOf (b.getD k 0) = k := by
  apply (hb.getD_inj (hb.idxOf_lt (hb.getD_lt hk)) hk _).symm.symm
  rw [hb.getD_idxOf (hb.getD_lt hk)]

theorem ValidBoard.of_listSwap {b : List Nat} (hb : ValidBoard b) {i j : Nat}
    (hi : i < 9) (hj : j < 9) : ValidBoard (listSwap b i j) :=
  (perm_listSwap b i j (by rw [hb.length]; exact hi) (by rw [hb.length]; exact hj)).trans hb

theorem blank_listSwap {b : List Nat} (hb : ValidBoard b) {ni : Nat} (hni : ni < 9) :
    (listSwap b (b.indexOf 0) ni).indexOf 0 = ni := by
  have hidx : b.indexOf 0 < 9 := hb.idxOf_lt (by omega)
  have hs : ValidBoard (listSwap b (b.indexOf 0) ni) := hb.of_listSwap hidx hni
  have h0 : (listSwap b (b.indexOf 0) ni).getD ni 0 = 0 := by
    rw [getD_listSwap b _ ni ni (by rw [hb.length]; exact hidx) (by rw [hb.length]; exact hni)]
    rw [if_pos rfl]
    exact hb.getD_idxOf (by omega)
  have h1 : (listSwap b (b.indexOf 0) ni).getD ((listSwap b (b.indexOf 0) ni).indexOf 0) 0 = 0 :=
    hs.getD_idxOf (by omega)
  exact (hs.getD_inj hni (hs.idxOf_lt (by omega)) (h0.trans h1.symm)).symm

theorem expand_succ_spec {b : List Nat} (hb : ValidBoard b) {p : List Nat × String}
    (hp : p ∈ _expand b) :
    ∃ ni : Nat, p.1 = listSwap b (b.indexOf 0) ni ∧ ni < 9 ∧
      cellDist (b.indexOf 0) ni = 1 := by
  have hidx : b.indexOf 0 < 9 := hb.idxOf_lt (by omega)
  rcases List.mem_filterMap.1 hp with ⟨m, hm, hfm⟩
  have hm4 : m = (-1, 0, "up") ∨ m = (1, 0, "down") ∨ m = (0, -1, "left") ∨
      m = (0, 1, "right") := by
    simpa [_MOVES] using hm
  rcases hm4 with rfl | rfl | rfl | rfl <;>
  · dsimp only at hfm
    split at hfm
    case isTrue hcond =>
      obtain rfl : _ = p := Option.some.inj hfm
      refine ⟨_, rfl, by omega, by unfold cellDist; omega⟩
    case isFalse hcond => exact absurd hfm (by simp)

theorem expand_spec {b : List Nat} (hb : ValidBoard b) {p : List Nat × String}
    (hp : p ∈ _expand b) :
    ValidBoard p.1 ∧ p.1.indexOf 0 < 9 ∧
      cellDist (b.indexOf 0) (p.1.indexOf 0) = 1 ∧
      p.1 = listSwap b (b.indexOf 0) (p.1.indexOf 0) := by
  obtain ⟨ni, hpe, hni, hdist⟩ := expand_succ_spec hb hp
  have hv : ValidBoard p.1 := hpe ▸ hb.of_listSwap (hb.idxOf_lt (by omega)) hni
  have hblank : p.1.indexOf 0 = ni := by rw [hpe]; exact blank_listSwap hb hni
  exact ⟨hv, by omega, by rw [hblank]; exact hdist, by rw [hblank]; exact hpe⟩

theorem expand_length_spec {b : List Nat} (hb : ValidBoard b) :
    2 ≤ (_expand b).length ∧ (_expand b).length ≤ 4 := by
  have hidx : b.indexOf 0 < 9 := hb.idxOf_lt (by omega)
  unfold _expand
  set k := b.indexOf 0 with hk
  interval_cases k <;> simp [_MOVES]

/-! ### Manhattan distance as a positional sum -/

theorem sum_map_enumFrom (l : List Nat) (n : Nat) (f : Nat × Nat → Nat) :
    ((l.enumFrom n).map f).sum = ∑ i ∈ Finset.range l.length, f (n + i, l.getD i 0) := by
  induction l generalizing n with
  | nil => simp
  | cons a t ih =>
    have h1 : ((List.enumFrom n (a :: t)).map f).sum
        = f (n, a) + ((t.enumFrom (n + 1)).map f).sum := by
      simp [List.enumFrom]
    rw [h1, ih (n + 1)]
    rw [List.length_cons, Finset.sum_range_succ']
    have h2 : ∀ i, f (n + 1 + i, t.getD i 0) = f (n + (i + 1), (a :: t).getD (i + 1) 0) := by
      intro i
      rw [List.getD_cons_succ]
      congr 2
      omega
    simp only [List.getD_cons_zero, Nat.add_zero]
    rw [Finset.sum_congr rfl (fun i _ => h2 i)]
    omega

theorem manhattan_eq_sum (b : List Nat) :
    manhattan_distance b = ∑ i ∈ Finset.range b.length, mterm b i := by
  unfold manhattan_distance List.enum
  rw [sum_map_enumFrom b 0 (fun p => if p.2 = 0 then 0 else cellDist p.1 (GOAL_INDEX_MAP p.2))]
  apply Finset.sum_congr rfl
  intro i hi
  rw [Finset.mem_range] at hi
  unfold mterm
  rw [List.getD_eq_getElem b 0 hi]
  simp

theorem manhattan_swap_decomp {b : List Nat} (hb : ValidBoard b) {ni : Nat} (hni : ni < 9)
    (hne : ni ≠ b.indexOf 0) :
    manhattan_distance (listSwap b (b.indexOf 0) ni) + mterm b ni
      = manhattan_distance b + mterm (listSwap b (b.indexOf 0) ni) (b.indexOf 0) := by
  set idx := b.indexOf 0 with hidxdef
  have hidx : idx < 9 := hb.idxOf_lt (by omega)
  have hlen : b.length = 9 := hb.length
  have hslen : (listSwap b idx ni).length = 9 := by rw [length_listSwap]; exact hlen
  set s := listSwap b idx ni with hsdef
  have hgetD : ∀ k, s.getD k 0 =
      if k = ni then b.getD idx 0 else if k = idx then b.getD ni 0 else b.getD k 0 := by
    intro k
    exact getD_listSwap b idx ni k (by omega) (by omega)
  have hidx_mem : idx ∈ Finset.range 9 := Finset.mem_range.2 hidx
  have hni_mem : ni ∈ (Finset.range 9).erase idx :=
    Finset.mem_erase.2 ⟨hne, Finset.mem_range.2 hni⟩
  have hsplit : ∀ g : Nat → Nat, ∑ i ∈ Finset.range 9, g i
      = g idx + (g ni + ∑ i ∈ ((Finset.range 9).erase idx).erase ni, g i) := by
    intro g
    rw [Finset.add_sum_erase _ g hni_mem, Finset.add_sum_erase _ g hidx_mem]
  have hcongr : ∑ i ∈ ((Finset.range 9).erase idx).erase ni, mterm s i
      = ∑ i ∈ ((Finset.range 9).erase idx).erase ni, mterm b i := by
    apply Finset.sum_congr rfl
    intro k hk
    have hk1 : k ≠ ni := (Finset.mem_erase.1 hk).1
    have hk2 : k ≠ idx := (Finset.mem_erase.1 (Finset.mem_erase.1 hk).2).1
    unfold mterm
    rw [hgetD k, if_neg hk1, if_neg hk2]
  have hterm_s_ni : mterm s ni = 0 := by
    unfold mterm
    rw [hgetD ni, if_pos rfl, hb.getD_idxOf (by omega)]
    simp
  have hterm_b_idx : mterm b idx = 0 := by
    unfold mterm
    rw [hb.getD_idxOf (by omega)]
    simp
  rw [manhattan_eq_sum s, manhattan_eq_sum b, hslen, hlen, hsplit (mterm s), hsplit (mterm b),
    hcongr, hterm_s_ni, hterm_b_idx]
  omega

theorem manhattan_step {b : List Nat} (hb : ValidBoard b) {p : List Nat × String}
    (hp : p ∈ _expand b) :
    manhattan_distance b ≤ manhattan_distance p.1 + 1 ∧
      manhattan_distance p.1 ≤ manhattan_distance b + 1 := by
  obtain ⟨ni, hpe, hni, hdist⟩ := expand_succ_spec hb hp
  have hidx : b.indexOf 0 < 9 := hb.idxOf_lt (by omega)
  have hne : ni ≠ b.indexOf 0 := by
    intro h
    rw [h] at hdist
    unfold cellDist at hdist
    omega
  have hdec := manhattan_swap_decomp hb hni hne
  have hv : b.getD ni 0 ≠ 0 := by
    intro h0
    apply hne
    apply hb.getD_inj hni hidx
    rw [h0, hb.getD_idxOf (by omega)]
  have hsidx : (listSwap b (b.indexOf 0) ni).getD (b.indexOf 0) 0 = b.getD ni 0 := by
    rw [getD_listSwap b _ ni _ (by rw [hb.length]; exact hidx) (by rw [hb.length]; exact hni)]
    rw [if_neg (by omega), if_pos rfl]
  have ht1 : mterm b ni = cellDist ni (GOAL_INDEX_MAP (b.getD ni 0)) := by
    unfold mterm
    rw [if_neg hv]
  have ht2 : mterm (listSwap b (b.indexOf 0) ni) (b.indexOf 0)
      = cellDist (b.indexOf 0) (GOAL_INDEX_MAP (b.getD ni 0)) := by
    unfold mterm
    rw [hsidx, if_neg hv]
  rw [ht1, ht2] at hdec
  have htri : cellDist (b.indexOf 0) (GOAL_INDEX_MAP (b.getD ni 0))
      ≤ cellDist ni (GOAL_INDEX_MAP (b.getD ni 0)) + cellDist (b.indexOf 0) ni ∧
      cellDist ni (GOAL_INDEX_MAP (b.getD ni 0))
      ≤ cellDist (b.indexOf 0) (GOAL_INDEX_MAP (b.getD ni 0)) + cellDist (b.indexOf 0) ni := by
    unfold cellDist
    omega
  rw [hpe]
  omega

theorem manhattan_goal : manhattan_distance GOAL_STATE = 0 := by decide

theorem cellDist_eq_zero {i j : Nat} (h : cellDist i j = 0) : i = j := by
  unfold cellDist at h
  omega

/-! ### Reachability infrastructure -/

theorem reachIn_zero {a b : List Nat} : reachIn 0 a b = true ↔ a = b := by
  simp [reachIn]

theorem reachIn_succ {a b : List Nat} {n : Nat} :
    reachIn (n + 1) a b = true ↔ ∃ p ∈ _expand a, reachIn n p.1 b = true := by
  simp [reachIn]

theorem reachIn_trans {a b c : List Nat} {m n : Nat} (h1 : reachIn m a b = true)
    (h2 : reachIn n b c = true) : reachIn (m + n) a c = true := by
  induction m generalizing a with
  | zero =>
    rw [reachIn_zero] at h1
    subst h1
    simpa using h2
  | succ k ih =>
    rw [reachIn_succ] at h1
    obtain ⟨p, hp, hr⟩ := h1
    rw [show k + 1 + n = (k + n) + 1 by omega, reachIn_succ]
    exact ⟨p, hp, ih hr⟩

theorem valid_of_reachIn {a b : List Nat} {n : Nat} (ha : ValidBoard a)
    (h : reachIn n a b = true) : ValidBoard b := by
  induction n generalizing a with
  | zero =>
    rw [reachIn_zero] at h
    subst h
    exact ha
  | succ k ih =>
    rw [reachIn_succ] at h
    obtain ⟨p, hp, hr⟩ := h
    exact ih ((expand_spec ha hp).1) hr

theorem manhattan_le_reachIn {b : List Nat} (hb : ValidBoard b) {n : Nat}
    (h : reachIn n b GOAL_STATE = true) : manhattan_distance b ≤ n := by
  induction n generalizing b with
  | zero =>
    rw [reachIn_zero] at h
    subst h
    rw [manhattan_goal]
  | succ k ih =>
    rw [reachIn_succ] at h
    obtain ⟨p, hp, hr⟩ := h
    have h1 := (manhattan_step hb hp).1
    have h2 := ih ((expand_spec hb hp).1) hr
    omega

/-! ### Claims C5, C6, C9, C10 -/

/-- C5: the Manhattan-distance heuristic is consistent: for every valid board B
and every successor (B', m) produced by `_expand B`,
`manhattan_distance B - manhattan_distance B' ≤ 1`. -/
theorem claim_C5_heuristic_consistent {b : List Nat} (hb : ValidBoard b)
    {p : List Nat × String} (hp : p ∈ _expand b) :
    (manhattan_distance b : Int) - manhattan_distance p.1 ≤ 1 := by
  have h := (manhattan_step hb hp).1
  omega

/-- Witness for C5 at the goal board and its "up" successor. -/
theorem claim_C5_witness :
    ValidBoard GOAL_STATE ∧ ([1,2,3,4,5,0,7,8,6], "up") ∈ _expand GOAL_STATE ∧
      (manhattan_distance GOAL_STATE : Int)
        - manhattan_distance ([1,2,3,4,5,0,7,8,6] : List Nat) ≤ 1 :=
  ⟨by decide, by decide,
    @claim_C5_heuristic_consistent GOAL_STATE (by decide) ([1,2,3,4,5,0,7,8,6], "up")
      (by decide)⟩

/-- C6: the Manhattan-distance heuristic is admissible: for every valid solvable
board B, `manhattan_distance B ≤ d*(B)`, the least element of the set of move
counts that take B to the goal board. -/
theorem claim_C6_heuristic_admissible {b : List Nat} (hb : ValidBoard b)
    (hs : Solvable b) : manhattan_distance b ≤ sInf (stepsSet b GOAL_STATE) := by
  obtain ⟨n, hn⟩ := hs
  have hmem : sInf (stepsSet b GOAL_STATE) ∈ stepsSet b GOAL_STATE :=
    Nat.sInf_mem ⟨n, hn⟩
  exact manhattan_le_reachIn hb hmem

/-- Witness for C6 at a board one move from the goal. -/
theorem claim_C6_witness :
    ValidBoard [1,2,3,4,5,6,7,0,8] ∧ Solvable [1,2,3,4,5,6,7,0,8] ∧
      manhattan_distance [1,2,3,4,5,6,7,0,8]
        ≤ sInf (stepsSet [1,2,3,4,5,6,7,0,8] GOAL_STATE) :=
  ⟨by decide, ⟨1, by decide⟩,
    claim_C6_heuristic_admissible (by decide) ⟨1, by decide⟩⟩

/-- C9: for every valid board, `_expand` returns between 2 and 4 successors,
each successor is a length-9 permutation of 0-8, and the successor's blank cell
is grid-adjacent to the original blank cell. -/
theorem claim_C9_expand_invariants {b : List Nat} (hb : ValidBoard b) :
    (2 ≤ (_expand b).length ∧ (_expand b).length ≤ 4) ∧
      ∀ p ∈ _expand b, p.1.length = 9 ∧ ValidBoard p.1 ∧
        cellDist (b.indexOf 0) (p.1.indexOf 0) = 1 := by
  refine ⟨expand_length_spec hb, ?_⟩
  intro p hp
  obtain ⟨hv, _, hdist, _⟩ := expand_spec hb hp
  exact ⟨hv.length, hv, hdist⟩

/-- Witness for C9 at the goal board. -/
theorem claim_C9_witness :
    ValidBoard GOAL_STATE ∧
      ((2 ≤ (_expand GOAL_STATE).length ∧ (_expand GOAL_STATE).length ≤ 4) ∧
        ∀ p ∈ _expand GOAL_STATE, p.1.length = 9 ∧ ValidBoard p.1 ∧
          cellDist (GOAL_STATE.indexOf 0) (p.1.indexOf 0) = 1) :=
  ⟨by decide, claim_C9_expand_invariants (by decide)⟩

/-- C10: for every valid board, the Manhattan heuristic vanishes exactly on the
goal board. -/
theorem claim_C10_manhattan_zero_iff {b : List Nat} (hb : ValidBoard b) :
    manhattan_distance b = 0 ↔ b = GOAL_STATE := by
  constructor
  · intro h0
    have hlen : b.length = 9 := hb.length
    rw [manhattan_eq_sum b, hlen] at h0
    have hterm : ∀ k ∈ Finset.range 9, mterm b k = 0 := by
      intro k hk
      exact (Finset.sum_eq_zero_iff.1 h0) k hk
    have hplace : ∀ k, k < 9 → b.getD k 0 ≠ 0 → k = GOAL_INDEX_MAP (b.getD k 0) := by
      intro k hk hnz
      have h := hterm k (Finset.mem_range.2 hk)
      unfold mterm at h
      rw [if_neg hnz] at h
      exact cellDist_eq_zero h
    have hgim : ∀ v, v < 9 → 1 ≤ v → GOAL_INDEX_MAP v = v - 1 := by decide
    have hgoal : ∀ k, k < 9 → GOAL_STATE.getD k 0 = if k = 8 then 0 else k + 1 := by decide
    have hval : ∀ k, k < 9 → b.getD k 0 = if k = 8 then 0 else k + 1 := by
      intro k hk
      rcases eq_or_ne (b.getD k 0) 0 with hz | hnz
      · -- the blank must be at cell 8: otherwise tile k+1 would also sit at cell k
        rw [hz]
        have hk8 : k = 8 := by
          by_contra hk8
          have hv : k + 1 < 9 := by omega
          have hidx : b.indexOf (k + 1) < 9 := hb.idxOf_lt hv
          have hgd : b.getD (b.indexOf (k + 1)) 0 = k + 1 := hb.getD_idxOf hv
          have h1 := hplace _ hidx (by rw [hgd]; omega)
          rw [hgd, hgim (k + 1) hv (by omega)] at h1
          have hik : b.indexOf (k + 1) = k := by omega
          rw [hik] at hgd
          rw [hgd] at hz
          omega
        rw [if_pos hk8]
      · have h1 := hplace k hk hnz
        have hv9 : b.getD k 0 < 9 := hb.getD_lt hk
        have h2 := hgim (b.getD k 0) hv9 (by omega)
        rw [h2] at h1
        have hk8 : k ≠ 8 := by omega
        rw [if_neg hk8]
        omega
    apply List.ext_getElem (by rw [hlen]; decide)
    intro k h1 h2
    have hk : k < 9 := by omega
    have hbk := hval k hk
    have hgk := hgoal k hk
    rw [List.getD_eq_getElem b 0 h1] at hbk
    rw [List.getD_eq_getElem GOAL_STATE 0 h2] at hgk
    rw [hbk, hgk]
  · intro h
    subst h
    decide

/-- Witness for C10 at a board one move from the goal. -/
theorem claim_C10_witness :
    ValidBoard [1,2,3,4,5,6,7,0,8] ∧
      (manhattan_distance [1,2,3,4,5,6,7,0,8] = 0 ↔ ([1,2,3,4,5,6,7,0,8] : List Nat) = GOAL_STATE) :=
  ⟨by decide, claim_C10_manhattan_zero_iff (by decide)⟩

/-- C8: for a valid board and an in-range tile index, the human move is rejected
(with the board unchanged in the error response) exactly when the chosen cell is
not grid-adjacent to the blank - in particular choosing the blank cell itself is
rejected - and when adjacent the blank and the chosen tile are swapped. -/
theorem claim_C8_human_move {board : List Nat} (hb : ValidBoard board) {tile_index : Int}
    (h0 : 0 ≤ tile_index) (h8 : tile_index ≤ 8) :
    ((∃ msg, human_move board tile_index = .moveError msg board)
        ↔ cellDist tile_index.toNat (board.indexOf 0) ≠ 1)
      ∧ (tile_index.toNat = board.indexOf 0 →
          ∃ msg, human_move board tile_index = .moveError msg board)
      ∧ (cellDist tile_index.toNat (board.indexOf 0) = 1 →
          human_move board tile_index =
            .moved (listSwap board (board.indexOf 0) tile_index.toNat)
              (listSwap board (board.indexOf 0) tile_index.toNat == GOAL_STATE)) := by
  have hcond : ¬¬(0 ≤ tile_index ∧ tile_index ≤ 8) := by omega
  by_cases hD : cellDist tile_index.toNat (board.indexOf 0) = 1
  · have hmove : human_move board tile_index =
        .moved (listSwap board (board.indexOf 0) tile_index.toNat)
          (listSwap board (board.indexOf 0) tile_index.toNat == GOAL_STATE) := by
      unfold human_move
      rw [if_neg hcond]
      dsimp only
      rw [if_neg (show ¬_ by unfold cellDist at hD; omega)]
    refine ⟨?_, ?_, fun _ => hmove⟩
    · constructor
      · intro ⟨msg, hmsg⟩
        rw [hmove] at hmsg
        exact absurd hmsg (by simp)
      · intro hne
        exact absurd hD hne
    · intro hself
      exfalso
      rw [hself] at hD
      unfold cellDist at hD
      omega
  · have hmove : human_move board tile_index =
        .moveError "Invalid move - tile must be directly adjacent to the escape route."
          board := by
      unfold human_move
      rw [if_neg hcond]
      dsimp only
      rw [if_pos (show _ by unfold cellDist at hD; omega)]
    refine ⟨?_, fun _ => ⟨_, hmove⟩, fun h1 => absurd h1 hD⟩
    constructor
    · intro _
      exact hD
    · intro _
      exact ⟨_, hmove⟩

/-- Witness for C8: on the goal board, tile index 8 is the blank itself and is
rejected; the theorem is applied at that concrete input. -/
theorem claim_C8_witness :
    ValidBoard GOAL_STATE ∧ (0 : Int) ≤ 8 ∧ (8 : Int) ≤ 8 ∧
      (((∃ msg, human_move GOAL_STATE 8 = .moveError msg GOAL_STATE)
        ↔ cellDist (Int.toNat 8) (GOAL_STATE.indexOf 0) ≠ 1)
      ∧ ((Int.toNat 8) = GOAL_STATE.indexOf 0 →
          ∃ msg, human_move GOAL_STATE 8 = .moveError msg GOAL_STATE)
      ∧ (cellDist (Int.toNat 8) (GOAL_STATE.indexOf 0) = 1 →
          human_move GOAL_STATE 8 =
            .moved (listSwap GOAL_STATE (GOAL_STATE.indexOf 0) (Int.toNat 8))
              (listSwap GOAL_STATE (GOAL_STATE.indexOf 0) (Int.toNat 8) == GOAL_STATE))) :=
  ⟨by decide, by omega, by omega, claim_C8_human_move (by decide) (by omega) (by omega)⟩

/-! ### C7: validator analysis -/

theorem pyInsert_int (x : Int) (m : List Int) :
    pyInsert (.vint x) (m.map .vint) = some ((intInsert x m).map .vint) := by
  induction m with
  | nil => rfl
  | cons y ys ih =>
    show pyInsert (.vint x) (.vint y :: ys.map .vint) = _
    unfold pyInsert pyLt PyVal.numVal
    by_cases h : y < x
    · simp only [decide_eq_true h]
      rw [show intInsert x (y :: ys) = y :: intInsert x ys from by simp [intInsert, h]]
      simp [ih]
    · simp only [decide_eq_false h]
      rw [show intInsert x (y :: ys) = x :: y :: ys from by simp [intInsert, h]]
      simp

theorem pySorted_int (l : List Int) :
    pySorted (l.map .vint) = some ((intSort l).map .vint) := by
  induction l with
  | nil => rfl
  | cons x xs ih =>
    show pySorted (.vint x :: xs.map .vint) = _
    unfold pySorted
    rw [ih]
    exact pyInsert_int x (intSort xs)

theorem intInsert_perm (x : Int) (m : List Int) : (intInsert x m).Perm (x :: m) := by
  induction m with
  | nil => exact List.Perm.refl _
  | cons y ys ih =>
    unfold intInsert
    split
    · exact (List.Perm.cons y ih).trans (List.Perm.swap x y ys)
    · exact List.Perm.refl _

theorem intSort_perm (l : List Int) : (intSort l).Perm l := by
  induction l with
  | nil => exact List.Perm.refl _
  | cons x xs ih =>
    exact (intInsert_perm x (intSort xs)).trans (List.Perm.cons x ih)

theorem intInsert_sorted (x : Int) {m : List Int} (hm : m.Sorted (· ≤ ·)) :
    (intInsert x m).Sorted (· ≤ ·) := by
  induction m with
  | nil => simp [intInsert]
  | cons y ys ih =>
    unfold intInsert
    rw [List.sorted_cons] at hm
    split
    · rename_i hyx
      rw [List.sorted_cons]
      refine ⟨?_, ih hm.2⟩
      intro b hb
      have hb2 := (intInsert_perm x ys).mem_iff.1 hb
      rcases List.mem_cons.1 hb2 with rfl | hb3
      · omega
      · exact hm.1 b hb3
    · rename_i hyx
      rw [List.sorted_cons]
      refine ⟨?_, List.sorted_cons.2 hm⟩
      intro b hb
      rcases List.mem_cons.1 hb with rfl | hb2
      · omega
      · have := hm.1 b hb2
        omega

theorem intSort_sorted (l : List Int) : (intSort l).Sorted (· ≤ ·) := by
  induction l with
  | nil => simp [intSort]
  | cons x xs ih => exact intInsert_sorted x ih

theorem pyListEq_int (a b : List Int) : pyListEq (a.map .vint) (b.map .vint) = true ↔ a = b := by
  constructor
  · intro h
    unfold pyListEq at h
    rw [Bool.and_eq_true] at h
    have hlen : a.length = b.length := by simpa using h.1
    have hall := h.2
    apply List.ext_getElem hlen
    intro k h1 h2
    have hmem : (PyVal.vint a[k], PyVal.vint b[k]) ∈ (a.map PyVal.vint).zip (b.map PyVal.vint) := by
      rw [List.zip_map]
      apply List.mem_map.2
      refine ⟨(a[k], b[k]), ?_, rfl⟩
      have hk3 : k < (a.zip b).length := by rw [List.length_zip]; omega
      have hz : (a.zip b)[k] = (a[k], b[k]) := List.getElem_zip
      rw [← hz]
      exact List.getElem_mem hk3
    have := List.all_eq_true.1 hall _ hmem
    unfold pyEq PyVal.numVal at this
    simpa using this
  · intro h
    subst h
    unfold pyListEq
    rw [Bool.and_eq_true]
    refine ⟨by simp, ?_⟩
    induction a with
    | nil => rfl
    | cons x xs ih =>
      show ((PyVal.vint x :: xs.map .vint).zip (PyVal.vint x :: xs.map .vint)).all _ = true
      rw [List.zip_cons_cons, List.all_cons, Bool.and_eq_true]
      refine ⟨by unfold pyEq PyVal.numVal; simp, ih⟩

/-- C7 (corrected): the validator accepts a candidate whose first element is the
Python float `1.0` (and one containing the bool `True`), both wrong-typed
elements: Python sorting and `==` compare them by numeric value, so the
"catches wrong types" part of the claim is false at this input. -/
theorem claim_C7_counterexample :
    validate_board_input (.vlist [.vfloat 1, .vint 2, .vint 3, .vint 4, .vint 5,
      .vint 6, .vint 7, .vint 8, .vint 0]) = .ok none
    ∧ ([PyVal.vfloat 1, .vint 2, .vint 3, .vint 4, .vint 5,
        .vint 6, .vint 7, .vint 8, .vint 0].all PyVal.isInt) = false
    ∧ validate_board_input (.vlist [.vbool true, .vint 2, .vint 3, .vint 4, .vint 5,
        .vint 6, .vint 7, .vint 8, .vint 0]) = .ok none
    ∧ ([PyVal.vbool true, .vint 2, .vint 3, .vint 4, .vint 5,
        .vint 6, .vint 7, .vint 8, .vint 0].all PyVal.isInt) = false :=
  ⟨rfl, rfl, rfl, rfl⟩

/-- C7 (amended): on genuine integer candidates the validator is sound and
complete for "multiset of values = 0..8": it accepts exactly the permutations
of 0-8 (so wrong length, duplicates and out-of-range values fail, and it is a
pure function, hence deterministic); wrong-typed elements are not always
rejected (see the counterexample), only their numeric values matter. -/
theorem claim_C7_amended (l : List Int) :
    validate_board_input (.vlist (l.map PyVal.vint)) = .ok none ↔
      l.Perm ((List.range 9).map (fun n => (n : Int))) := by
  have hrange_eq : (List.range 9).map (fun n => PyVal.vint n)
      = ((List.range 9).map (fun n => (n : Int))).map PyVal.vint := by
    rw [List.map_map]
    rfl
  have hrange_sorted : ((List.range 9).map (fun n => (n : Int))).Sorted (· ≤ ·) := by
    decide
  show (match PyVal.vlist (l.map PyVal.vint) with
    | PyVal.vlist m =>
      if m.length ≠ 9 then Except.ok (some "Board must contain exactly 9 elements.")
      else
        match pySorted m with
        | none => Except.error ()
        | some s =>
          if pyListEq s ((List.range 9).map (fun n => PyVal.vint n)) then Except.ok none
          else Except.ok (some "Board must contain each integer 0-8 exactly once.")
    | _ => Except.ok (some "Board must be a JSON array.")) = Except.ok none ↔ _
  dsimp only
  by_cases hlen : l.length = 9
  · rw [if_neg (show ¬(l.map PyVal.vint).length ≠ 9 by simp [hlen])]
    rw [pySorted_int l]
    show (if pyListEq ((intSort l).map PyVal.vint) ((List.range 9).map fun n => PyVal.vint ↑n)
        = true then Except.ok none else _) = Except.ok none ↔ _
    rw [hrange_eq]
    by_cases hs : intSort l = (List.range 9).map (fun n => (n : Int))
    · rw [if_pos ((pyListEq_int _ _).2 hs)]
      constructor
      · intro _
        exact (intSort_perm l).symm.trans (by rw [hs])
      · intro _
        rfl
    · rw [if_neg (show ¬pyListEq _ _ = true by intro hc; exact hs ((pyListEq_int _ _).1 hc))]
      constructor
      · intro hc
        exact absurd hc (by simp)
      · intro hperm
        exfalso
        apply hs
        exact List.eq_of_perm_of_sorted ((intSort_perm l).trans hperm)
          (intSort_sorted l) hrange_sorted
  · rw [if_pos (show (l.map PyVal.vint).length ≠ 9 by simp [hlen])]
    constructor
    · intro hc
      exact absurd hc (by simp)
    · intro hperm
      exfalso
      apply hlen
      simpa using hperm.length_eq

/-! ### Inversion counting -/

theorem invCount_cons (a : Nat) (l : List Nat) :
    invCount (a :: l) = countGT a l + invCount l := rfl

theorem countGT_append (a : Nat) (xs ys : List Nat) :
    countGT a (xs ++ ys) = countGT a xs + countGT a ys := by
  unfold countGT
  rw [List.filter_append, List.length_append]

theorem countGT_perm (a : Nat) {xs ys : List Nat} (h : xs.Perm ys) :
    countGT a xs = countGT a ys := by
  unfold countGT
  exact (h.filter _).length_eq

theorem invCount_append (xs ys : List Nat) :
    invCount (xs ++ ys) = invCount xs + invCount ys + crossGT xs ys := by
  induction xs with
  | nil => simp [invCount, crossGT]
  | cons a t ih =>
    show invCount (a :: (t ++ ys)) = _
    rw [invCount_cons, invCount_cons, countGT_append, ih]
    unfold crossGT
    rw [List.map_cons, List.sum_cons]
    omega

theorem crossGT_perm (xs : List Nat) {ys zs : List Nat} (h : ys.Perm zs) :
    crossGT xs ys = crossGT xs zs := by
  unfold crossGT
  congr 1
  exact List.map_congr_left (fun a _ => countGT_perm a h)

theorem countGT_crossGT_total (v : Nat) (m : List Nat) (hm : ∀ a ∈ m, a ≠ v) :
    countGT v m + crossGT m [v] = m.length := by
  induction m with
  | nil => simp [countGT, crossGT]
  | cons a t ih =>
    have ha : a ≠ v := hm a (List.mem_cons_self a t)
    have iht := ih (fun x hx => hm x (List.mem_cons_of_mem a hx))
    have hc1 : countGT v (a :: t) = (if a < v then 1 else 0) + countGT v t := by
      unfold countGT
      rw [List.filter_cons]
      split
      · rename_i hd
        rw [if_pos (by simpa using hd)]
        simp only [List.length_cons]
        omega
      · rename_i hd
        rw [if_neg (by simpa using hd)]
        omega
    have hc2 : crossGT (a :: t) [v] = (if v < a then 1 else 0) + crossGT t [v] := by
      unfold crossGT
      rw [List.map_cons, List.sum_cons]
      congr 1
      unfold countGT
      rw [show List.filter (fun x => decide (x < a)) [v]
          = if v < a then [v] else [] from by split <;> simp_all]
      split <;> simp
    rw [hc1, hc2, List.length_cons]
    rcases Nat.lt_trichotomy a v with hav | hav | hav
    · rw [if_pos hav, if_neg (by omega)]
      omega
    · exact absurd hav ha
    · rw [if_neg (by omega), if_pos hav]
      omega

/-- The parity engine: moving one element `v` across a block `m` that does not
contain `v` changes the inversion count by the length of `m` modulo 2. -/
theorem invCount_move_parity (u m w : List Nat) (v : Nat) (hm : ∀ a ∈ m, a ≠ v) :
    (invCount (u ++ v :: (m ++ w)) + m.length) % 2
      = invCount (u ++ (m ++ v :: w)) % 2 := by
  have h1 : invCount (u ++ v :: (m ++ w))
      = invCount u + (countGT v m + countGT v w + invCount (m ++ w))
        + crossGT u (v :: (m ++ w)) := by
    rw [invCount_append, invCount_cons, countGT_append]
  have h2 : invCount (u ++ (m ++ v :: w))
      = invCount u + (invCount m + (countGT v w + invCount w) + crossGT m (v :: w))
        + crossGT u (m ++ v :: w) := by
    rw [invCount_append, invCount_append, invCount_cons]
  have hcrossu : crossGT u (v :: (m ++ w)) = crossGT u (m ++ v :: w) := by
    apply crossGT_perm
    exact List.perm_middle.symm
  have hinvmw : invCount (m ++ w) = invCount m + invCount w + crossGT m w := invCount_append m w
  have hcrossm : crossGT m (v :: w) = crossGT m [v] + crossGT m w := by
    unfold crossGT
    rw [← List.sum_map_add]
    congr 1
    apply List.map_congr_left
    intro a _
    show countGT a (v :: w) = countGT a [v] + countGT a w
    rw [show v :: w = [v] ++ w from rfl, countGT_append]
  have hsplit := countGT_crossGT_total v m hm
  omega

theorem filter_range_getD (l : List Nat) (p : Nat → Bool) :
    ((List.range l.length).filter (fun j => p (l.getD j 0))).length = (l.filter p).length := by
  induction l with
  | nil => rfl
  | cons x xs ih =>
    rw [List.length_cons, List.range_succ_eq_map, List.filter_cons, List.filter_cons]
    have hmap : ((List.range xs.length).map Nat.succ).filter (fun j => p ((x :: xs).getD j 0))
        = ((List.range xs.length).filter (fun j => p (xs.getD j 0))).map Nat.succ := by
      rw [List.filter_map]
      congr 1
    by_cases hx : p ((x :: xs).getD 0 0) = true
    · rw [if_pos hx, if_pos (by simpa using hx)]
      simp only [List.length_cons, hmap, List.length_map]
      omega
    · rw [if_neg hx, if_neg (by simpa using hx)]
      simp only [hmap, List.length_map]
      exact ih
  termination_by l.length

theorem sum_countGT_eq_invCount (t : List Nat) :
    ((List.range t.length).map (fun i => countGT (t.getD i 0) (t.drop (i + 1)))).sum
      = invCount t := by
  induction t with
  | nil => rfl
  | cons a s ih =>
    rw [List.length_cons, List.range_succ_eq_map, List.map_cons, List.sum_cons, invCount_cons]
    have hmap : ((List.range s.length).map Nat.succ).map
          (fun i => countGT ((a :: s).getD i 0) ((a :: s).drop (i + 1)))
        = (List.range s.length).map (fun i => countGT (s.getD i 0) (s.drop (i + 1))) := by
      rw [List.map_map]
      apply List.map_congr_left
      intro i _
      rfl
    rw [hmap, ih]
    rfl

theorem is_solvable_eq_invCount (b : List Nat) :
    is_solvable b = (invCount (b.filter (· != 0)) % 2 == 0) := by
  unfold is_solvable
  dsimp only
  set t := b.filter (· != 0) with ht
  have hinner : ∀ i ∈ List.range t.length,
      ((List.range' (i + 1) (t.length - (i + 1))).filter
        (fun j => decide (t.getD j 0 < t.getD i 0))).length
      = countGT (t.getD i 0) (t.drop (i + 1)) := by
    intro i hi
    rw [List.mem_range] at hi
    have hr : List.range' (i + 1) (t.length - (i + 1))
        = (List.range (t.length - (i + 1))).map (fun j => i + 1 + j) := by
      rw [List.range'_eq_map_range]
    rw [hr, List.filter_map, List.length_map]
    have hlen : (t.drop (i + 1)).length = t.length - (i + 1) := List.length_drop _ _
    have hcongr : (List.range (t.length - (i + 1))).filter
          ((fun j => decide (t.getD j 0 < t.getD i 0)) ∘ (fun j => i + 1 + j))
        = (List.range (t.drop (i + 1)).length).filter
          (fun j => decide ((t.drop (i + 1)).getD j 0 < t.getD i 0)) := by
      rw [hlen]
      apply List.filter_congr
      intro j hj
      rw [List.mem_range] at hj
      have : (t.drop (i + 1)).getD j 0 = t.getD (i + 1 + j) 0 := by
        rw [List.getD_eq_getElem t 0 (show i + 1 + j < t.length by omega),
          List.getD_eq_getElem _ 0 (show j < (t.drop (i+1)).length by omega),
          List.getElem_drop]
      rw [Function.comp_apply, this]
    rw [hcongr, filter_range_getD (t.drop (i + 1)) (fun x => decide (x < t.getD i 0))]
    rfl
  have hsum : ((List.range t.length).map (fun i =>
      ((List.range' (i + 1) (t.length - (i + 1))).filter
        (fun j => decide (t.getD j 0 < t.getD i 0))).length)).sum = invCount t := by
    rw [List.map_congr_left hinner]
    exact sum_countGT_eq_invCount t
  rw [hsum]

theorem listSwap_comm (l : List Nat) {i j : Nat} (hij : i ≠ j) : listSwap l i j = listSwap l j i := by
  unfold listSwap
  rw [List.set_comm _ _ _ hij]

theorem list_decompose_two {l : List Nat} {i j : Nat} (hi : i < l.length) (hj : j < l.length)
    (hij : i < j) :
    l = l.take i ++ l[i] :: ((l.drop (i + 1)).take (j - (i + 1)) ++ l[j] :: l.drop (j + 1)) := by
  conv_lhs => rw [← List.take_append_drop i l]
  congr 1
  rw [List.drop_eq_getElem_cons hi]
  congr 1
  conv_lhs => rw [← List.take_append_drop (j - (i + 1)) (l.drop (i + 1))]
  congr 1
  rw [List.drop_drop]
  have h3 : i + 1 + (j - (i + 1)) = j := by omega
  rw [h3, List.drop_eq_getElem_cons hj]

theorem listSwap_decompose {l : List Nat} {i j : Nat} (hi : i < l.length) (hj : j < l.length)
    (hij : i < j) :
    listSwap l i j
      = l.take i ++ l[j] :: ((l.drop (i + 1)).take (j - (i + 1)) ++ l[i] :: l.drop (j + 1)) := by
  unfold listSwap
  rw [List.getD_eq_getElem _ _ hi, List.getD_eq_getElem _ _ hj,
    List.set_eq_take_cons_drop _ hi]
  have hset : (l.take i ++ l[j] :: l.drop (i + 1)).set j l[i]
        = l.take i ++ l[j] :: (l.drop (i + 1)).set (j - (i + 1)) l[i] := by
    rw [List.set_append_right _ _ (by rw [List.length_take]; omega)]
    congr 1
    rw [List.length_take, Nat.min_eq_left (by omega)]
    have h2 : j - i = (j - (i + 1)) + 1 := by omega
    rw [h2, List.set_cons_succ]
  rw [hset]
  have hjlen : j - (i + 1) < (l.drop (i + 1)).length := by
    rw [List.length_drop]
    omega
  rw [List.set_eq_take_cons_drop _ hjlen]
  have hdropj : (l.drop (i + 1)).drop (j - (i + 1) + 1) = l.drop (j + 1) := by
    rw [List.drop_drop]
    congr 1
    omega
  rw [hdropj]

theorem getD_ne_zero_of_ne_blank {b : List Nat} (hb : ValidBoard b) {k : Nat} (hk : k < 9)
    (hne : k ≠ b.indexOf 0) : b.getD k 0 ≠ 0 := by
  intro h0
  apply hne
  apply hb.getD_inj hk (hb.idxOf_lt (by omega))
  rw [h0, hb.getD_idxOf (by omega)]

theorem mem_mid_getD {b : List Nat} {i j : Nat} (hj : j ≤ b.length) {x : Nat}
    (hx : x ∈ (b.drop (i + 1)).take (j - (i + 1))) :
    ∃ k, i + 1 ≤ k ∧ k < j ∧ x = b.getD k 0 := by
  rcases List.mem_iff_getElem.1 hx with ⟨t, ht, hxt⟩
  have ht2 : t < j - (i + 1) := by
    have := ht
    rw [List.length_take, List.length_drop] at this
    omega
  have ht3 : i + 1 + t < b.length := by
    have := ht
    rw [List.length_take, List.length_drop] at this
    omega
  refine ⟨i + 1 + t, by omega, by omega, ?_⟩
  rw [List.getD_eq_getElem b 0 ht3, ← hxt, List.getElem_take, List.getElem_drop]

theorem filter_ne_zero_all {u : List Nat} (hu : ∀ x ∈ u, x ≠ 0) : u.filter (· != 0) = u :=
  List.filter_eq_self.2 (fun x hx => by simpa using hu x hx)

theorem tiles_swap_parity {b : List Nat} (hb : ValidBoard b) {i j : Nat} (hij : i < j)
    (hj9 : j < 9) (hgap : (j - i) % 2 = 1) (hblank : i = b.indexOf 0 ∨ j = b.indexOf 0) :
    invCount ((listSwap b i j).filter (· != 0)) % 2 = invCount (b.filter (· != 0)) % 2 := by
  have hlen : b.length = 9 := hb.length
  have hil : i < b.length := by omega
  have hjl : j < b.length := by omega
  have hdec := list_decompose_two hil hjl hij
  have hsw := listSwap_decompose hil hjl hij
  rw [← List.getD_eq_getElem b 0 hil, ← List.getD_eq_getElem b 0 hjl] at hdec hsw
  set u := b.take i with hu
  set mid := (b.drop (i + 1)).take (j - (i + 1)) with hmid
  set w := b.drop (j + 1) with hw
  have hmidlen : mid.length = j - (i + 1) := by
    rw [hmid, List.length_take, List.length_drop]
    omega
  have hmid_ne : ∀ x ∈ mid, ∀ k2, k2 < 9 → (k2 ≤ i ∨ j ≤ k2) → x ≠ b.getD k2 0 := by
    intro x hx k2 hk2 hk2r hcontra
    obtain ⟨k, hk1, hk2', hkx⟩ := mem_mid_getD (show j ≤ b.length by omega) hx
    rw [hkx] at hcontra
    have : k = k2 := hb.getD_inj (by omega) hk2 hcontra
    omega
  have h0mid : ∀ x ∈ mid, x ≠ 0 := by
    intro x hx
    obtain ⟨k, hk1, hk2, hkx⟩ := mem_mid_getD (show j ≤ b.length by omega) hx
    rw [hkx]
    apply getD_ne_zero_of_ne_blank hb (by omega)
    rcases hblank with hbl | hbl <;> omega
  have hmf : mid.filter (· != 0) = mid := filter_ne_zero_all h0mid
  rcases hblank with hbl | hbl
  · -- the blank is at position i; the moved tile value is at position j
    have hb0 : b.getD i 0 = 0 := by rw [hbl]; exact hb.getD_idxOf (by omega)
    have hv : b.getD j 0 ≠ 0 := getD_ne_zero_of_ne_blank hb (by omega) (by omega)
    have hfb : b.filter (· != 0)
        = u.filter (· != 0) ++ (mid.filter (· != 0) ++ b.getD j 0 :: w.filter (· != 0)) := by
      conv_lhs => rw [hdec]
      rw [List.filter_append, hb0, List.filter_cons_of_neg (by simp), List.filter_append,
        List.filter_cons_of_pos (by simpa using hv)]
    have hfs : (listSwap b i j).filter (· != 0)
        = u.filter (· != 0) ++ b.getD j 0 :: (mid.filter (· != 0) ++ w.filter (· != 0)) := by
      conv_lhs => rw [hsw]
      rw [List.filter_append, List.filter_cons_of_pos (by simpa using hv), List.filter_append,
        hb0, List.filter_cons_of_neg (by simp)]
    have heng := invCount_move_parity (u.filter (· != 0)) (mid.filter (· != 0))
      (w.filter (· != 0)) (b.getD j 0)
      (fun a ha => hmid_ne a (by rw [← hmf]; exact ha) j (by omega) (by omega))
    rw [hmf] at hfb hfs heng
    rw [hmidlen] at heng
    rw [hfb, hfs]
    omega
  · -- the blank is at position j; the moved tile value is at position i
    have hb0 : b.getD j 0 = 0 := by rw [hbl]; exact hb.getD_idxOf (by omega)
    have hv : b.getD i 0 ≠ 0 := getD_ne_zero_of_ne_blank hb (by omega) (by omega)
    have hfb : b.filter (· != 0)
        = u.filter (· != 0) ++ b.getD i 0 :: (mid.filter (· != 0) ++ w.filter (· != 0)) := by
      conv_lhs => rw [hdec]
      rw [List.filter_append, List.filter_cons_of_pos (by simpa using hv), List.filter_append,
        hb0, List.filter_cons_of_neg (by simp)]
    have hfs : (listSwap b i j).filter (· != 0)
        = u.filter (· != 0) ++ (mid.filter (· != 0) ++ b.getD i 0 :: w.filter (· != 0)) := by
      conv_lhs => rw [hsw]
      rw [List.filter_append, hb0, List.filter_cons_of_neg (by simp), List.filter_append,
        List.filter_cons_of_pos (by simpa using hv)]
    have heng := invCount_move_parity (u.filter (· != 0)) (mid.filter (· != 0))
      (w.filter (· != 0)) (b.getD i 0)
      (fun a ha => hmid_ne a (by rw [← hmf]; exact ha) i (by omega) (by omega))
    rw [hmf] at hfb hfs heng
    rw [hmidlen] at heng
    rw [hfb, hfs]
    omega

theorem is_solvable_step {b : List Nat} (hb : ValidBoard b) {p : List Nat × String}
    (hp : p ∈ _expand b) : is_solvable p.1 = is_solvable b := by
  obtain ⟨ni, hpe, hni, hdist⟩ := expand_succ_spec hb hp
  have hidx : b.indexOf 0 < 9 := hb.idxOf_lt (by omega)
  have hne : ni ≠ b.indexOf 0 := by
    intro h
    rw [h] at hdist
    unfold cellDist at hdist
    omega
  have hd : (b.indexOf 0 < ni ∧ (ni - b.indexOf 0) % 2 = 1) ∨
      (ni < b.indexOf 0 ∧ (b.indexOf 0 - ni) % 2 = 1) := by
    unfold cellDist at hdist
    omega
  rw [is_solvable_eq_invCount, is_solvable_eq_invCount, hpe]
  rcases hd with ⟨hlt, hodd⟩ | ⟨hlt, hodd⟩
  · rw [tiles_swap_parity hb hlt hni hodd (Or.inl rfl)]
  · rw [listSwap_comm b hne.symm, tiles_swap_parity hb hlt hidx hodd (Or.inr rfl)]

theorem is_solvable_reachIn {a c : List Nat} (ha : ValidBoard a) {n : Nat}
    (h : reachIn n a c = true) : is_solvable a = is_solvable c := by
  induction n generalizing a with
  | zero =>
    rw [reachIn_zero] at h
    rw [h]
  | succ k ih =>
    rw [reachIn_succ] at h
    obtain ⟨p, hp, hr⟩ := h
    rw [← is_solvable_step ha hp]
    exact ih ((expand_spec ha hp).1) hr

theorem is_solvable_of_solvable {b : List Nat} (hb : ValidBoard b) (hs : Solvable b) :
    is_solvable b = true := by
  obtain ⟨n, hn⟩ := hs
  rw [is_solvable_reachIn hb hn]
  decide

/-! ### Heap order: correctness of the entry comparator -/

theorem natCmp_lt_iff (a b : Nat) : natCmp a b = .lt ↔ a < b := by
  unfold natCmp
  split_ifs with h1 h2 <;> simp <;> omega

theorem natCmp_eq_iff (a b : Nat) : natCmp a b = .eq ↔ a = b := by
  unfold natCmp
  split_ifs with h1 h2 <;> simp <;> omega

theorem natCmp_gt_iff (a b : Nat) : natCmp a b = .gt ↔ b < a := by
  unfold natCmp
  split_ifs with h1 h2 <;> simp <;> omega

theorem natCmpOK : CmpOK natCmp := by
  refine ⟨natCmp_eq_iff, ?_, ?_⟩
  · intro a b d h1 h2
    rw [natCmp_lt_iff] at *
    omega
  · intro a b
    rw [natCmp_gt_iff, natCmp_lt_iff]

theorem charCmpOK : CmpOK charCmp := by
  obtain ⟨he, ht, hg⟩ := natCmpOK
  refine ⟨?_, ?_, ?_⟩
  · intro a b
    unfold charCmp
    rw [he]
    constructor
    · intro h
      exact Char.ext (UInt32.ext h)
    · intro h
      rw [h]
  · intro a b d h1 h2
    exact ht _ _ _ h1 h2
  · intro a b
    exact hg _ _

theorem CmpOK.swap_eq {α : Type} {c : α → α → Ordering} (hc : CmpOK c) (a b : α) :
    c a b = (c b a).swap := by
  obtain ⟨he, ht, hg⟩ := hc
  rcases h : c b a with _ | _ | _
  · show c a b = .gt
    exact (hg a b).2 h
  · rw [(he b a).1 h]
    show c a a = .eq
    exact (he a a).2 rfl
  · show c a b = .lt
    exact (hg b a).1 h

theorem listCmp_eq_iff {α : Type} {c : α → α → Ordering} (hc : CmpOK c) :
    ∀ a b : List α, listCmp c a b = .eq ↔ a = b := by
  intro a
  induction a with
  | nil =>
    intro b
    cases b <;> simp [listCmp]
  | cons x xs ih =>
    intro b
    cases b with
    | nil => simp [listCmp]
    | cons y ys =>
      show (match c x y with | .eq => listCmp c xs ys | o => o) = .eq ↔ _
      rcases hxy : c x y with _ | _ | _ <;> simp only []
      · constructor
        · intro h
          cases h
        · intro h
          rw [List.cons.injEq] at h
          rw [(hc.1 x y).2 h.1] at hxy
          cases hxy
      · rw [ih ys, (hc.1 x y).1 hxy]
        simp
      · constructor
        · intro h
          cases h
        · intro h
          rw [List.cons.injEq] at h
          rw [(hc.1 x y).2 h.1] at hxy
          cases hxy

theorem listCmp_lt_trans {α : Type} {c : α → α → Ordering} (hc : CmpOK c) :
    ∀ a b d : List α, listCmp c a b = .lt → listCmp c b d = .lt → listCmp c a d = .lt := by
  intro a
  induction a with
  | nil =>
    intro b d h1 h2
    cases d with
    | nil =>
      cases b with
      | nil => cases h1
      | cons y ys => cases h2
    | cons z zs => simp [listCmp]
  | cons x xs ih =>
    intro b d h1 h2
    cases b with
    | nil => cases h1
    | cons y ys =>
      cases d with
      | nil => cases h2
      | cons z zs =>
        revert h1 h2
        show (match c x y with | .eq => listCmp c xs ys | o => o) = .lt →
          (match c y z with | .eq => listCmp c ys zs | o => o) = .lt →
          (match c x z with | .eq => listCmp c xs zs | o => o) = .lt
        rcases hxy : c x y with _ | _ | _ <;> rcases hyz : c y z with _ | _ | _ <;>
          simp only [] <;> intro h1 h2
        · rw [show c x z = .lt from hc.2.1 x y z hxy hyz]
        · rw [show c x z = .lt from by rw [(hc.1 y z).1 hyz] at hxy; exact hxy]
        · cases h2
        · rw [show c x z = .lt from by rw [(hc.1 x y).1 hxy]; exact hyz]
        · rw [show c x z = .eq from by
            rw [(hc.1 x y).1 hxy, (hc.1 y z).1 hyz]
            exact (hc.1 z z).2 rfl]
          exact ih ys zs h1 h2
        · cases h2
        · cases h1
        · cases h1
        · cases h1

theorem listCmpOK {α : Type} {c : α → α → Ordering} (hc : CmpOK c) : CmpOK (listCmp c) := by
  refine ⟨listCmp_eq_iff hc, listCmp_lt_trans hc, ?_⟩
  have hswap : ∀ a b : List α, listCmp c a b = (listCmp c b a).swap := by
    intro a
    induction a with
    | nil =>
      intro b
      cases b <;> simp [listCmp, Ordering.swap]
    | cons x xs ih =>
      intro b
      cases b with
      | nil => simp [listCmp, Ordering.swap]
      | cons y ys =>
        show (match c x y with | .eq => listCmp c xs ys | o => o)
          = (match c y x with | .eq => listCmp c ys xs | o => o).swap
        rw [hc.swap_eq x y]
        rcases hyx : c y x with _ | _ | _
        · rfl
        · exact ih ys
        · rfl
  intro a b
  rw [hswap a b]
  rcases listCmp c b a with _ | _ | _ <;> simp [Ordering.swap]

theorem pairCmpOK {α β : Type} {ca : α → α → Ordering} {cb : β → β → Ordering}
    (ha : CmpOK ca) (hb : CmpOK cb) : CmpOK (pairCmp ca cb) := by
  refine ⟨?_, ?_, ?_⟩
  · intro p q
    show (match ca p.1 q.1 with | .eq => cb p.2 q.2 | o => o) = .eq ↔ _
    rcases h1 : ca p.1 q.1 with _ | _ | _
    · constructor
      · intro h
        cases h
      · intro h
        rw [(ha.1 _ _).2 (congrArg Prod.fst h)] at h1
        cases h1
    · constructor
      · intro h
        have he1 := (ha.1 _ _).1 h1
        have he2 := (hb.1 _ _).1 h
        exact Prod.ext he1 he2
      · intro h
        exact (hb.1 _ _).2 (congrArg Prod.snd h)
    · constructor
      · intro h
        cases h
      · intro h
        rw [(ha.1 _ _).2 (congrArg Prod.fst h)] at h1
        cases h1
  · intro p q r
    show (match ca p.1 q.1 with | .eq => cb p.2 q.2 | o => o) = .lt →
      (match ca q.1 r.1 with | .eq => cb q.2 r.2 | o => o) = .lt →
      (match ca p.1 r.1 with | .eq => cb p.2 r.2 | o => o) = .lt
    rcases h1 : ca p.1 q.1 with _ | _ | _ <;> rcases h2 : ca q.1 r.1 with _ | _ | _ <;>
      intro hh1 hh2
    · rw [show ca p.1 r.1 = .lt from ha.2.1 _ _ _ h1 h2]
    · rw [show ca p.1 r.1 = .lt from by rw [(ha.1 _ _).1 h2] at h1; exact h1]
    · cases hh2
    · rw [show ca p.1 r.1 = .lt from by rw [(ha.1 _ _).1 h1]; exact h2]
    · rw [show ca p.1 r.1 = .eq from by
        rw [(ha.1 _ _).1 h1, (ha.1 _ _).1 h2]
        exact (ha.1 _ _).2 rfl]
      exact hb.2.1 _ _ _ hh1 hh2
    · cases hh2
    · cases hh1
    · cases hh1
    · cases hh1
  · intro p q
    show (match ca p.1 q.1 with | .eq => cb p.2 q.2 | o => o) = .gt ↔
      (match ca q.1 p.1 with | .eq => cb q.2 p.2 | o => o) = .lt
    rw [ha.swap_eq p.1 q.1]
    rcases h1 : ca q.1 p.1 with _ | _ | _
    · simp [Ordering.swap]
    · show cb p.2 q.2 = .gt ↔ cb q.2 p.2 = .lt
      exact hb.2.2 _ _
    · simp [Ordering.swap]

theorem strCmpOK : CmpOK strCmp := by
  have hl := listCmpOK charCmpOK
  refine ⟨?_, ?_, ?_⟩
  · intro a b
    unfold strCmp
    rw [hl.1]
    constructor
    · intro h
      cases a
      cases b
      congr 1
    · intro h
      rw [h]
  · intro a b d h1 h2
    exact hl.2.1 _ _ _ h1 h2
  · intro a b
    exact hl.2.2 _ _

theorem entryCmpOK : CmpOK entryCmp := by
  have hpath := listCmpOK (pairCmpOK (listCmpOK natCmpOK) strCmpOK)
  have hcomp := pairCmpOK natCmpOK (pairCmpOK natCmpOK (pairCmpOK natCmpOK
    (pairCmpOK (listCmpOK natCmpOK) hpath)))
  have hkey : ∀ a b : Entry, entryCmp a b
      = pairCmp natCmp (pairCmp natCmp (pairCmp natCmp
          (pairCmp (listCmp natCmp) (listCmp (pairCmp (listCmp natCmp) strCmp)))))
        (a.f, a.h, a.g, a.board, a.path) (b.f, b.h, b.g, b.board, b.path) := by
    intro a b
    rfl
  refine ⟨?_, ?_, ?_⟩
  · intro a b
    rw [hkey, hcomp.1]
    constructor
    · intro h
      cases a
      cases b
      simpa using h
    · intro h
      rw [h]
  · intro a b d h1 h2
    rw [hkey] at *
    exact hcomp.2.1 _ _ _ h1 h2
  · intro a b
    rw [hkey, hkey]
    exact hcomp.2.2 _ _

theorem entryLe_refl (a : Entry) : entryLe a a = true := by
  unfold entryLe
  rw [(entryCmpOK.1 a a).2 rfl]
  rfl

theorem entryLe_total (a b : Entry) : entryLe a b = true ∨ entryLe b a = true := by
  unfold entryLe
  rcases h : entryCmp a b with _ | _ | _
  · left
    rfl
  · left
    rfl
  · right
    have hba : entryCmp b a = .lt := (entryCmpOK.2.2 a b).1 h
    rw [hba]
    rfl

theorem entryLe_trans {a b d : Entry} (h1 : entryLe a b = true) (h2 : entryLe b d = true) :
    entryLe a d = true := by
  unfold entryLe at *
  rcases hab : entryCmp a b with _ | _ | _
  · rcases hbd : entryCmp b d with _ | _ | _
    · rw [entryCmpOK.2.1 a b d hab hbd]
      rfl
    · rw [(entryCmpOK.1 b d).1 hbd] at hab
      rw [hab]
      rfl
    · rw [hbd] at h2
      cases h2
  · rw [(entryCmpOK.1 a b).1 hab]
    exact h2
  · rw [hab] at h1
    cases h1

theorem entryCmp_gt_of_f {a b : Entry} (h : b.f < a.f) : entryCmp a b = .gt := by
  unfold entryCmp
  rw [(natCmp_gt_iff a.f b.f).2 h]

theorem entryLe_f {a b : Entry} (h : entryLe a b = true) : a.f ≤ b.f := by
  by_contra hc
  unfold entryLe at h
  rw [entryCmp_gt_of_f (by omega)] at h
  cases h

theorem popMin_eq_none_iff {l : List Entry} : popMin l = none ↔ l = [] := by
  cases l with
  | nil => simp [popMin]
  | cons x xs =>
    show (match popMin xs with
      | none => some (x, [])
      | some (m, rest) => if entryLe x m then some (x, xs) else some (m, x :: rest)) = none ↔ _
    cases hp : popMin xs with
    | none => simp
    | some p =>
      obtain ⟨m, rest⟩ := p
      simp only []
      split <;> simp

theorem popMin_perm {l : List Entry} {e : Entry} {rest : List Entry}
    (h : popMin l = some (e, rest)) : l.Perm (e :: rest) := by
  induction l generalizing e rest with
  | nil => cases h
  | cons x xs ih =>
    cases hp : popMin xs with
    | none =>
      have hxs : xs = [] := popMin_eq_none_iff.1 hp
      subst hxs
      rw [show popMin [x] = some (x, []) from rfl, Option.some.injEq, Prod.mk.injEq] at h
      obtain ⟨rfl, rfl⟩ := h
      exact List.Perm.refl _
    | some p =>
      obtain ⟨m, r⟩ := p
      rw [show popMin (x :: xs) = if entryLe x m then some (x, xs) else some (m, x :: r) from by
        rw [show popMin (x :: xs) = (match popMin xs with
          | none => some (x, [])
          | some (m, r) => if entryLe x m then some (x, xs) else some (m, x :: r)) from rfl, hp]] at h
      split at h
      · rw [Option.some.injEq, Prod.mk.injEq] at h
        obtain ⟨rfl, rfl⟩ := h
        exact List.Perm.refl _
      · rw [Option.some.injEq, Prod.mk.injEq] at h
        obtain ⟨rfl, rfl⟩ := h
        exact (List.Perm.cons x (ih hp)).trans (List.Perm.swap m x r)

theorem popMin_le {l : List Entry} {e : Entry} {rest : List Entry}
    (h : popMin l = some (e, rest)) : ∀ x ∈ l, entryLe e x = true := by
  induction l generalizing e rest with
  | nil => cases h
  | cons x xs ih =>
    cases hp : popMin xs with
    | none =>
      have hxs : xs = [] := popMin_eq_none_iff.1 hp
      subst hxs
      rw [show popMin [x] = some (x, []) from rfl, Option.some.injEq, Prod.mk.injEq] at h
      obtain ⟨rfl, rfl⟩ := h
      intro y hy
      rcases List.mem_singleton.1 hy with rfl
      exact entryLe_refl _
    | some p =>
      obtain ⟨m, r⟩ := p
      rw [show popMin (x :: xs) = if entryLe x m then some (x, xs) else some (m, x :: r) from by
        rw [show popMin (x :: xs) = (match popMin xs with
          | none => some (x, [])
          | some (m, r) => if entryLe x m then some (x, xs) else some (m, x :: r)) from rfl, hp]] at h
      split at h
      · rename_i hle
        rw [Option.some.injEq, Prod.mk.injEq] at h
        obtain ⟨rfl, rfl⟩ := h
        intro y hy
        rcases List.mem_cons.1 hy with rfl | hy2
        · exact entryLe_refl _
        · exact entryLe_trans hle (ih hp y hy2)
      · rename_i hle
        rw [Option.some.injEq, Prod.mk.injEq] at h
        obtain ⟨rfl, rfl⟩ := h
        intro y hy
        rcases List.mem_cons.1 hy with rfl | hy2
        · rcases entryLe_total y m with hh | hh
          · exact absurd hh hle
          · exact hh
        · exact ih hp y hy2

/-! ### A* invariants and optimality -/

theorem traceOK_reachIn {a c : List Nat} {p : List (List Nat × String)} (h : TraceOK a p c) :
    reachIn p.length a c = true := by
  induction p generalizing a with
  | nil =>
    rw [show TraceOK a [] c = (a = c) from rfl] at h
    rw [List.length_nil, reachIn_zero]
    exact h
  | cons q rest ih =>
    obtain ⟨hq, hrest⟩ := h
    rw [List.length_cons, reachIn_succ]
    exact ⟨q, hq, ih hrest⟩

theorem traceOK_append {a b c : List Nat} {p q : List (List Nat × String)}
    (hp : TraceOK a p b) (hq : TraceOK b q c) : TraceOK a (p ++ q) c := by
  induction p generalizing a with
  | nil =>
    rw [show TraceOK a [] b = (a = b) from rfl] at hp
    rw [hp]
    exact hq
  | cons x rest ih =>
    obtain ⟨hx, hrest⟩ := hp
    exact ⟨hx, ih hrest⟩

theorem reachIn_one {a c : List Nat} (h : ∃ lbl, (c, lbl) ∈ _expand a) :
    reachIn 1 a c = true := by
  rw [show (1 : Nat) = 0 + 1 from rfl, reachIn_succ]
  obtain ⟨lbl, hl⟩ := h
  exact ⟨(c, lbl), hl, by rw [reachIn_zero]⟩

theorem reachIn_chain {a c : List Nat} {n : Nat} (h : reachIn n a c = true) :
    ∃ l : List (List Nat), l.length = n + 1 ∧ l.getD 0 [] = a ∧ l.getD n [] = c ∧
      ∀ k, k < n → ∃ lbl, (l.getD (k + 1) [], lbl) ∈ _expand (l.getD k []) := by
  induction n generalizing a with
  | zero =>
    rw [reachIn_zero] at h
    exact ⟨[a], rfl, rfl, by rw [show ([a] : List (List Nat)).getD 0 [] = a from rfl, h],
      fun k hk => absurd hk (by omega)⟩
  | succ m ih =>
    rw [reachIn_succ] at h
    obtain ⟨p, hp, hr⟩ := h
    obtain ⟨l, hlen, h0, hn, hstep⟩ := ih hr
    refine ⟨a :: l, by rw [List.length_cons, hlen], rfl, ?_, ?_⟩
    · rw [List.getD_cons_succ]
      exact hn
    · intro k hk
      cases k with
      | zero =>
        refine ⟨p.2, ?_⟩
        rw [List.getD_cons_succ, h0]
        rw [show (a :: l).getD 0 [] = a from rfl]
        exact hp
      | succ j =>
        rw [List.getD_cons_succ, List.getD_cons_succ]
        exact hstep j (by omega)

theorem chain_facts {l : List (List Nat)} {n : Nat} {a c : List Nat} (hlen : l.length = n + 1)
    (h0 : l.getD 0 [] = a) (hn : l.getD n [] = c) (ha : ValidBoard a)
    (hstep : ∀ k, k < n → ∃ lbl, (l.getD (k + 1) [], lbl) ∈ _expand (l.getD k [])) :
    (∀ k, k ≤ n → reachIn k a (l.getD k []) = true) ∧
    (∀ k, k ≤ n → ValidBoard (l.getD k [])) ∧
    (∀ k, k ≤ n → reachIn (n - k) (l.getD k []) c = true) ∧
    (∀ k, k ≤ n → manhattan_distance (l.getD k []) ≤ manhattan_distance c + (n - k)) := by
  have hpre : ∀ k, k ≤ n → reachIn k a (l.getD k []) = true := by
    intro k
    induction k with
    | zero =>
      intro _
      rw [h0, reachIn_zero]
    | succ j ihj =>
      intro hj
      have h1 := ihj (by omega)
      have h2 : reachIn 1 (l.getD j []) (l.getD (j + 1) []) = true :=
        reachIn_one (hstep j (by omega))
      exact reachIn_trans h1 h2
  have hval : ∀ k, k ≤ n → ValidBoard (l.getD k []) := by
    intro k hk
    exact valid_of_reachIn ha (hpre k hk)
  have hsuf : ∀ d k, k + d = n → reachIn d (l.getD k []) c = true := by
    intro d
    induction d with
    | zero =>
      intro k hk
      have : k = n := by omega
      rw [this, hn, reachIn_zero]
    | succ j ihj =>
      intro k hk
      rw [reachIn_succ]
      obtain ⟨lbl, hl⟩ := hstep k (by omega)
      exact ⟨(l.getD (k + 1) [], lbl), hl, ihj (k + 1) (by omega)⟩
  have hh : ∀ d k, k + d = n → manhattan_distance (l.getD k []) ≤ manhattan_distance c + d := by
    intro d
    induction d with
    | zero =>
      intro k hk
      have : k = n := by omega
      rw [this, hn]
      omega
    | succ j ihj =>
      intro k hk
      obtain ⟨lbl, hl⟩ := hstep k (by omega)
      have hcons := (manhattan_step (hval k (by omega)) hl).1
      have := ihj (k + 1) (by omega)
      simp only at hcons this
      omega
  refine ⟨hpre, hval, ?_, ?_⟩
  · intro k hk
    exact hsuf (n - k) k (by omega)
  · intro k hk
    exact hh (n - k) k (by omega)

theorem dist_le {a b : List Nat} {n : Nat} (h : reachIn n a b = true) :
    sInf (stepsSet a b) ≤ n := Nat.sInf_le h

theorem dist_reach {a b : List Nat} (h : Reachable a b) :
    reachIn (sInf (stepsSet a b)) a b = true := Nat.sInf_mem h

theorem entry_reach {start : List Nat} {e : Entry}
    (h : TraceOK start e.path e.board ∧ e.g = e.path.length ∧
      e.h = manhattan_distance e.board ∧ e.f = e.g + e.h) :
    reachIn e.g start e.board = true := by
  rw [h.2.1]
  exact traceOK_reachIn h.1

/-- Closure optimality: the entry chosen by `popMin` whose board is not yet
closed carries `g` equal to the true distance from the start. -/
theorem popped_g_optimal {start : List Nat} {heap : List Entry} {closed : List (List Nat)}
    (hstart : ValidBoard start) (hinv : AInv start heap closed) {e : Entry}
    {rest : List Entry} (hpop : popMin heap = some (e, rest)) (hnc : e.board ∉ closed) :
    e.g = sInf (stepsSet start e.board) := by
  have hmem : e ∈ heap := (popMin_perm hpop).symm.subset (List.mem_cons_self e rest)
  have heok := hinv.entry_ok e hmem
  have hreach : reachIn e.g start e.board = true := entry_reach heok
  set nstar := sInf (stepsSet start e.board) with hnstar
  have hglb : nstar ≤ e.g := dist_le hreach
  have hrs : reachIn nstar start e.board = true := dist_reach ⟨e.g, hreach⟩
  obtain ⟨l, hlen, h0, hn, hstep⟩ := reachIn_chain hrs
  obtain ⟨hpre, hval, hsuf, hh⟩ := chain_facts hlen h0 hn hstart hstep
  have hKex : ∃ k, k ≤ nstar ∧ l.getD k [] ∉ closed := ⟨nstar, le_refl _, by rw [hn]; exact hnc⟩
  set K := Nat.find hKex with hKdef
  obtain ⟨hKle, hKnc⟩ := Nat.find_spec hKex
  rw [← hKdef] at hKle hKnc
  have hKmin : ∀ j, j < K → l.getD j [] ∈ closed := by
    intro j hj
    by_contra hjc
    have h1 : Nat.find hKex ≤ j := Nat.find_min' hKex ⟨by omega, hjc⟩
    omega
  -- the distance from start to the K-th chain node is exactly K
  have hdistK : sInf (stepsSet start (l.getD K [])) = K := by
    have hle : sInf (stepsSet start (l.getD K [])) ≤ K := dist_le (hpre K hKle)
    have hge : K ≤ sInf (stepsSet start (l.getD K [])) := by
      by_contra hc
      set m := sInf (stepsSet start (l.getD K [])) with hm
      have hmr : reachIn m start (l.getD K []) = true := dist_reach ⟨K, hpre K hKle⟩
      have hsufK : reachIn (nstar - K) (l.getD K []) e.board = true := hsuf K hKle
      have : reachIn (m + (nstar - K)) start e.board = true := reachIn_trans hmr hsufK
      have := dist_le this
      omega
    omega
  -- there is a heap entry for the K-th chain node with exact g
  have hwitness : ∃ w ∈ heap, w.board = l.getD K [] ∧ w.g = K := by
    rcases Nat.eq_zero_or_pos K with hK0 | hKpos
    · rw [hK0, h0]
      rw [hK0, h0] at hKnc
      rcases hinv.start_cov with hsc | ⟨w, hw, hwb, hwg⟩
      · exact absurd hsc hKnc
      · exact ⟨w, hw, hwb, hwg⟩
    · have hprev : l.getD (K - 1) [] ∈ closed := hKmin (K - 1) (by omega)
      obtain ⟨lbl, hl⟩ := hstep (K - 1) (by omega)
      rw [show K - 1 + 1 = K from by omega] at hl
      rcases hinv.succ_cov _ hprev _ hl with hc | ⟨w, hw, hwb, hwg⟩
      · exact absurd hc hKnc
      · have hwb2 : w.board = l.getD K [] := hwb
        refine ⟨w, hw, hwb2, ?_⟩
        have hdprev : sInf (stepsSet start (l.getD (K - 1) [])) ≤ K - 1 :=
          dist_le (hpre (K - 1) (by omega))
        have hwge : K ≤ w.g := by
          have hwreach := entry_reach (hinv.entry_ok w hw)
          rw [hwb2] at hwreach
          have hd2 := dist_le hwreach
          omega
        omega
  obtain ⟨w, hw, hwb, hwg⟩ := hwitness
  have hle_ew : entryLe e w = true := popMin_le hpop w hw
  have hf_le : e.f ≤ w.f := entryLe_f hle_ew
  have hwok := hinv.entry_ok w hw
  have hHbound : manhattan_distance (l.getD K [])
      ≤ manhattan_distance e.board + (nstar - K) := hh K hKle
  have he_f : e.f = e.g + manhattan_distance e.board := by
    rw [heok.2.2.2, heok.2.2.1]
  have hw_f : w.f = K + manhattan_distance (l.getD K []) := by
    rw [hwok.2.2.2, hwg, hwok.2.2.1, hwb]
  omega

theorem pathOK_of_traceOK {a : List Nat} {p : List (List Nat × String)} (k : Nat)
    (h : TraceOK a p GOAL_STATE) :
    PathOK a ((p.enumFrom k).map (fun q => (q.2.1, q.2.2, q.1 + 1))) := by
  induction p generalizing a k with
  | nil =>
    rw [show TraceOK a [] GOAL_STATE = (a = GOAL_STATE) from rfl] at h
    exact h
  | cons q rest ih =>
    obtain ⟨hq, hrest⟩ := h
    exact ⟨hq, ih (k + 1) hrest⟩

theorem AInv_init {start : List Nat} :
    AInv start [⟨manhattan_distance start, manhattan_distance start, 0, start, []⟩] [] := by
  refine ⟨?_, ?_, ?_, ?_, ?_, ?_⟩
  · intro e he
    rcases List.mem_singleton.1 he with rfl
    exact ⟨rfl, rfl, rfl, (Nat.zero_add _).symm⟩
  · simp
  · intro s hs
    cases hs
  · right
    exact ⟨_, List.mem_singleton_self _, rfl, rfl⟩
  · intro s hs
    cases hs
  · exact List.nodup_nil

theorem AInv_skip {start : List Nat} {heap : List Entry} {closed : List (List Nat)} {e : Entry}
    {rest : List Entry} (hinv : AInv start heap closed) (hpop : popMin heap = some (e, rest))
    (hc : e.board ∈ closed) : AInv start rest closed := by
  have hperm := popMin_perm hpop
  have hsub : ∀ x : Entry, x ∈ rest → x ∈ heap :=
    fun x hx => hperm.symm.subset (List.mem_cons_of_mem e hx)
  refine ⟨?_, hinv.goal_not_closed, hinv.closed_ok, ?_, ?_, hinv.closed_nodup⟩
  · intro x hx
    exact hinv.entry_ok x (hsub x hx)
  · rcases hinv.start_cov with h | ⟨w, hw, hwb, hwg⟩
    · exact Or.inl h
    · rcases List.mem_cons.1 (hperm.subset hw) with rfl | hwrest
      · exact Or.inl (hwb ▸ hc)
      · exact Or.inr ⟨w, hwrest, hwb, hwg⟩
  · intro s hs p hp
    rcases hinv.succ_cov s hs p hp with h | ⟨w, hw, hwb, hwg⟩
    · exact Or.inl h
    · rcases List.mem_cons.1 (hperm.subset hw) with rfl | hwrest
      · exact Or.inl (hwb ▸ hc)
      · exact Or.inr ⟨w, hwrest, hwb, hwg⟩

theorem AInv_expand {start : List Nat} {heap : List Entry} {closed : List (List Nat)}
    {e : Entry} {rest : List Entry} (hstart : ValidBoard start)
    (hinv : AInv start heap closed) (hpop : popMin heap = some (e, rest))
    (hnc : e.board ∉ closed) (hng : e.board ≠ GOAL_STATE) :
    AInv start (rest ++ (_expand e.board).filterMap (fun s =>
      if s.1 ∈ e.board :: closed then none
      else some ⟨e.g + 1 + manhattan_distance s.1, manhattan_distance s.1, e.g + 1, s.1,
        e.path ++ [(s.1, s.2)]⟩)) (e.board :: closed) := by
  have hperm := popMin_perm hpop
  have hsub : ∀ x : Entry, x ∈ rest → x ∈ heap :=
    fun x hx => hperm.symm.subset (List.mem_cons_of_mem e hx)
  have hmem : e ∈ heap := hperm.symm.subset (List.mem_cons_self e rest)
  have heok := hinv.entry_ok e hmem
  have hereach : reachIn e.g start e.board = true := entry_reach heok
  have hgopt : e.g = sInf (stepsSet start e.board) := popped_g_optimal hstart hinv hpop hnc
  have hpush_ok : ∀ x ∈ (_expand e.board).filterMap (fun s =>
      if s.1 ∈ e.board :: closed then none
      else some (⟨e.g + 1 + manhattan_distance s.1, manhattan_distance s.1, e.g + 1, s.1,
        e.path ++ [(s.1, s.2)]⟩ : Entry)),
      (∃ s ∈ _expand e.board, s.1 ∉ e.board :: closed ∧
        x = ⟨e.g + 1 + manhattan_distance s.1, manhattan_distance s.1, e.g + 1, s.1,
          e.path ++ [(s.1, s.2)]⟩) := by
    intro x hx
    rcases List.mem_filterMap.1 hx with ⟨s, hs, hsx⟩
    by_cases hmem2 : s.1 ∈ e.board :: closed
    · rw [if_pos hmem2] at hsx
      cases hsx
    · rw [if_neg hmem2] at hsx
      exact ⟨s, hs, hmem2, (Option.some.inj hsx).symm⟩
  refine ⟨?_, ?_, ?_, ?_, ?_, ?_⟩
  · intro x hx
    rcases List.mem_append.1 hx with hxr | hxp
    · exact hinv.entry_ok x (hsub x hxr)
    · obtain ⟨s, hs, _, rfl⟩ := hpush_ok x hxp
      refine ⟨traceOK_append heok.1 ⟨hs, rfl⟩, ?_, rfl, rfl⟩
      rw [List.length_append, List.length_cons, List.length_nil, ← heok.2.1]
  · intro hgc
    rcases List.mem_cons.1 hgc with h | h
    · exact hng h.symm
    · exact hinv.goal_not_closed h
  · intro s hs
    rcases List.mem_cons.1 hs with rfl | h
    · exact ⟨valid_of_reachIn hstart hereach, ⟨e.g, hereach⟩⟩
    · exact hinv.closed_ok s h
  · rcases hinv.start_cov with h | ⟨w, hw, hwb, hwg⟩
    · exact Or.inl (List.mem_cons_of_mem _ h)
    · rcases List.mem_cons.1 (hperm.subset hw) with rfl | hwrest
      · exact Or.inl (hwb ▸ List.mem_cons_self _ _)
      · exact Or.inr ⟨w, List.mem_append_left _ hwrest, hwb, hwg⟩
  · intro s hs p hp
    rcases List.mem_cons.1 hs with rfl | hsold
    · by_cases hpc : p.1 ∈ e.board :: closed
      · exact Or.inl hpc
      · right
        refine ⟨⟨e.g + 1 + manhattan_distance p.1, manhattan_distance p.1, e.g + 1, p.1,
          e.path ++ [(p.1, p.2)]⟩, ?_, rfl, ?_⟩
        · apply List.mem_append_right
          apply List.mem_filterMap.2
          exact ⟨p, hp, by rw [if_neg hpc]⟩
        · rw [hgopt]
    · rcases hinv.succ_cov s hsold p hp with h | ⟨w, hw, hwb, hwg⟩
      · exact Or.inl (List.mem_cons_of_mem _ h)
      · rcases List.mem_cons.1 (hperm.subset hw) with rfl | hwrest
        · exact Or.inl (hwb ▸ List.mem_cons_self _ _)
        · exact Or.inr ⟨w, List.mem_append_left _ hwrest, hwb, hwg⟩
  · exact List.Nodup.cons hnc hinv.closed_nodup

theorem astar_loop_ok_spec {start : List Nat} (hstart : ValidBoard start) :
    ∀ (fuel h0 nodes : Nat) (heap : List Entry) (closed : List (List Nat)) (r : SolveOk),
      AInv start heap closed →
      astar_loop h0 fuel heap closed nodes = some (.ok r) →
      r.solution_depth = sInf (stepsSet start GOAL_STATE) ∧ PathOK start r.path := by
  intro fuel
  induction fuel with
  | zero =>
    intro h0 nodes heap closed r _ h
    cases h
  | succ f ih =>
    intro h0 nodes heap closed r hinv hrun
    rw [astar_loop] at hrun
    cases hpop : popMin heap with
    | none =>
      rw [hpop] at hrun
      cases hrun
    | some pr =>
      obtain ⟨e, rest⟩ := pr
      rw [hpop] at hrun
      dsimp only at hrun
      by_cases hc : e.board ∈ closed
      · rw [if_pos hc] at hrun
        exact ih h0 nodes rest closed r (AInv_skip hinv hpop hc) hrun
      · rw [if_neg hc] at hrun
        by_cases hg : e.board = GOAL_STATE
        · rw [if_pos hg] at hrun
          simp only [Option.some.injEq, Except.ok.injEq] at hrun
          have hmem : e ∈ heap := (popMin_perm hpop).symm.subset (List.mem_cons_self e rest)
          have heok := hinv.entry_ok e hmem
          have hgopt : e.g = sInf (stepsSet start e.board) :=
            popped_g_optimal hstart hinv hpop hc
          constructor
          · rw [← hrun]
            show e.path.length = _
            rw [← heok.2.1, hgopt, hg]
          · rw [← hrun]
            show PathOK start (e.path.enum.map (fun p => (p.2.1, p.2.2, p.1 + 1)))
            exact pathOK_of_traceOK 0 (hg ▸ heok.1)
        · rw [if_neg hg] at hrun
          exact ih h0 (nodes + 1) _ _ r (AInv_expand hstart hinv hpop hc hg) hrun

theorem closed_under_succ {start : List Nat} {closed : List (List Nat)}
    (hinv : AInv start [] closed) :
    ∀ n a, a ∈ closed → ∀ b, reachIn n a b = true → b ∈ closed := by
  intro n
  induction n with
  | zero =>
    intro a ha b hb
    rw [reachIn_zero] at hb
    exact hb ▸ ha
  | succ m ih =>
    intro a ha b hb
    rw [reachIn_succ] at hb
    obtain ⟨p, hp, hr⟩ := hb
    rcases hinv.succ_cov a ha p hp with h | ⟨w, hw, _, _⟩
    · exact ih p.1 h b hr
    · cases hw

theorem astar_loop_err_spec {start : List Nat} (hstart : ValidBoard start) :
    ∀ (fuel h0 nodes : Nat) (heap : List Entry) (closed : List (List Nat)) (msg : String),
      AInv start heap closed →
      astar_loop h0 fuel heap closed nodes = some (.error msg) →
      ¬ Solvable start := by
  intro fuel
  induction fuel with
  | zero =>
    intro h0 nodes heap closed msg _ h
    cases h
  | succ f ih =>
    intro h0 nodes heap closed msg hinv hrun
    rw [astar_loop] at hrun
    cases hpop : popMin heap with
    | none =>
      have hheap : heap = [] := popMin_eq_none_iff.1 hpop
      subst hheap
      intro hs
      obtain ⟨n, hn⟩ := hs
      rcases hinv.start_cov with h | ⟨w, hw, _, _⟩
      · exact hinv.goal_not_closed (closed_under_succ hinv n start h GOAL_STATE hn)
      · cases hw
    | some pr =>
      obtain ⟨e, rest⟩ := pr
      rw [hpop] at hrun
      dsimp only at hrun
      by_cases hc : e.board ∈ closed
      · rw [if_pos hc] at hrun
        exact ih h0 nodes rest closed msg (AInv_skip hinv hpop hc) hrun
      · rw [if_neg hc] at hrun
        by_cases hg : e.board = GOAL_STATE
        · rw [if_pos hg] at hrun
          cases hrun
        · rw [if_neg hg] at hrun
          exact ih h0 (nodes + 1) _ _ msg (AInv_expand hstart hinv hpop hc hg) hrun

theorem closed_card_bound {start : List Nat} {heap : List Entry} {closed : List (List Nat)}
    (hinv : AInv start heap closed) : closed.length ≤ 362880 := by
  have hsub : closed ⊆ (List.range 9).permutations := by
    intro x hx
    rw [List.mem_permutations]
    exact (hinv.closed_ok x hx).1
  have hsp := (hinv.closed_nodup.subperm hsub).length_le
  rw [List.length_permutations] at hsp
  have h9 : (List.range 9).length.factorial = 362880 := by
    rw [List.length_range]
    norm_num [Nat.factorial]
  omega

theorem astar_loop_terminates {start : List Nat} (hstart : ValidBoard start) :
    ∀ (fuel h0 nodes : Nat) (heap : List Entry) (closed : List (List Nat)),
      AInv start heap closed →
      heap.length + 5 * (362880 - closed.length) < fuel →
      (astar_loop h0 fuel heap closed nodes).isSome := by
  intro fuel
  induction fuel with
  | zero =>
    intro h0 nodes heap closed _ hm
    exact absurd hm (by omega)
  | succ f ih =>
    intro h0 nodes heap closed hinv hm
    rw [astar_loop]
    cases hpop : popMin heap with
    | none => rfl
    | some pr =>
      obtain ⟨e, rest⟩ := pr
      dsimp only
      have hlen_rest : rest.length + 1 = heap.length := by
        have hpe := (popMin_perm hpop).length_eq
        rw [List.length_cons] at hpe
        omega
      by_cases hc : e.board ∈ closed
      · rw [if_pos hc]
        apply ih h0 nodes rest closed (AInv_skip hinv hpop hc)
        omega
      · rw [if_neg hc]
        by_cases hg : e.board = GOAL_STATE
        · rw [if_pos hg]
          rfl
        · rw [if_neg hg]
          have hinv2 := AInv_expand hstart hinv hpop hc hg
          apply ih h0 (nodes + 1) _ _ hinv2
          have hmem : e ∈ heap := (popMin_perm hpop).symm.subset (List.mem_cons_self e rest)
          have hvb : ValidBoard e.board :=
            valid_of_reachIn hstart (entry_reach (hinv.entry_ok e hmem))
          have hpushlen : ((_expand e.board).filterMap (fun s =>
              if s.1 ∈ e.board :: closed then none
              else some (⟨e.g + 1 + manhattan_distance s.1, manhattan_distance s.1, e.g + 1,
                s.1, e.path ++ [(s.1, s.2)]⟩ : Entry))).length ≤ 4 := by
            have h1 := List.length_filterMap_le (fun s =>
              if s.1 ∈ e.board :: closed then none
              else some (⟨e.g + 1 + manhattan_distance s.1, manhattan_distance s.1, e.g + 1,
                s.1, e.path ++ [(s.1, s.2)]⟩ : Entry)) (_expand e.board)
            have h2 := (expand_length_spec hvb).2
            omega
          have hcb := closed_card_bound hinv2
          rw [List.length_append, List.length_cons] at *
          omega

theorem astar_solve_spec {start : List Nat} (hstart : ValidBoard start) (hs : Solvable start) :
    ∃ r : SolveOk, astar_solve start = some (.ok r) ∧
      r.solution_depth = sInf (stepsSet start GOAL_STATE) ∧ PathOK start r.path := by
  unfold astar_solve
  by_cases hgoal : start = GOAL_STATE
  · rw [if_pos hgoal]
    refine ⟨_, rfl, ?_, ?_⟩
    · show 0 = sInf (stepsSet start GOAL_STATE)
      have h0 : (0 : Nat) ∈ stepsSet start GOAL_STATE := by
        show reachIn 0 start GOAL_STATE = true
        rw [reachIn_zero]
        exact hgoal
      exact (Nat.eq_zero_of_le_zero (Nat.sInf_le h0)).symm
    · exact hgoal
  · rw [if_neg hgoal]
    have hterm := astar_loop_terminates hstart FUEL (manhattan_distance start) 0
      [⟨manhattan_distance start, manhattan_distance start, 0, start, []⟩] []
      AInv_init (by norm_num [FUEL])
    obtain ⟨res, hres⟩ := Option.isSome_iff_exists.1 hterm
    cases res with
    | error msg =>
      exact absurd hs (astar_loop_err_spec hstart FUEL (manhattan_distance start) 0 _ _ msg
        AInv_init hres)
    | ok r =>
      refine ⟨r, ?_, astar_loop_ok_spec hstart FUEL (manhattan_distance start) 0 _ _ r
        AInv_init hres⟩
      show astar_loop (manhattan_distance start) FUEL
        [⟨manhattan_distance start, manhattan_distance start, 0, start, []⟩] [] 0
        = some (Except.ok r)
      exact hres

/-- C1: for every valid solvable board, `astar_solve` succeeds and its
`solution_depth` is the least number of blank-slide moves from the board to
`GOAL_STATE` (i.e. `d*`). -/
theorem claim_C1_astar_optimal {b : List Nat} (hb : ValidBoard b) (hs : Solvable b) :
    ∃ r : SolveOk, astar_solve b = some (.ok r) ∧ IsMinMoves b r.solution_depth := by
  obtain ⟨r, h1, h2, _⟩ := astar_solve_spec hb hs
  refine ⟨r, h1, ?_, ?_⟩
  · show reachIn r.solution_depth b GOAL_STATE = true
    rw [h2]
    exact dist_reach hs
  · intro n hn
    rw [h2]
    exact Nat.sInf_le hn

/-- Witness for C1 at a board one move from the goal. -/
theorem claim_C1_witness :
    ValidBoard [1,2,3,4,5,6,7,0,8] ∧ Solvable [1,2,3,4,5,6,7,0,8] ∧
      ∃ r : SolveOk, astar_solve [1,2,3,4,5,6,7,0,8] = some (.ok r) ∧
        IsMinMoves [1,2,3,4,5,6,7,0,8] r.solution_depth :=
  ⟨by decide, ⟨1, by decide⟩, claim_C1_astar_optimal (by decide) ⟨1, by decide⟩⟩

/-- C2: for every valid solvable board, the path returned by `astar_solve` is
valid: each consecutive pair of boards differs by one blank-slide consistent
with the step's move label (an `_expand` step), and it ends at the goal board. -/
theorem claim_C2_astar_path_valid {b : List Nat} (hb : ValidBoard b) (hs : Solvable b) :
    ∃ r : SolveOk, astar_solve b = some (.ok r) ∧ PathOK b r.path := by
  obtain ⟨r, h1, _, h3⟩ := astar_solve_spec hb hs
  exact ⟨r, h1, h3⟩

/-- Witness for C2 at a board one move from the goal. -/
theorem claim_C2_witness :
    ValidBoard [1,2,3,4,5,6,0,7,8] ∧ Solvable [1,2,3,4,5,6,0,7,8] ∧
      ∃ r : SolveOk, astar_solve [1,2,3,4,5,6,0,7,8] = some (.ok r) ∧
        PathOK [1,2,3,4,5,6,0,7,8] r.path :=
  ⟨by decide, ⟨2, by decide⟩, claim_C2_astar_path_valid (by decide) ⟨2, by decide⟩⟩

/-! ### Swap words: sequences of blank slides as position swaps -/

theorem applySwaps_nil (b : List Nat) : applySwaps b [] = b := rfl

theorem applySwaps_cons (b : List Nat) (q : Nat × Nat) (w : List (Nat × Nat)) :
    applySwaps b (q :: w) = applySwaps (listSwap b q.1 q.2) w := rfl

theorem applySwaps_append (b : List Nat) (w1 w2 : List (Nat × Nat)) :
    applySwaps b (w1 ++ w2) = applySwaps (applySwaps b w1) w2 := by
  induction w1 generalizing b with
  | nil => rfl
  | cons q rest ih =>
    rw [List.cons_append, applySwaps_cons, applySwaps_cons, ih]

/-- The converse direction of `_expand` membership: every adjacent swap of the
blank is generated by `_expand`. -/
theorem expand_complete {b : List Nat} (hb : ValidBoard b) {ni : Nat} (hni : ni < 9)
    (hdist : cellDist (b.indexOf 0) ni = 1) :
    ∃ lbl, (listSwap b (b.indexOf 0) ni, lbl) ∈ _expand b := by
  have hidx : b.indexOf 0 < 9 := hb.idxOf_lt (by omega)
  set idx := b.indexOf 0 with hidxdef
  have hd : (ni + 3 = idx) ∨ (idx + 3 = ni) ∨ (ni + 1 = idx ∧ 1 ≤ idx % 3) ∨
      (idx + 1 = ni ∧ 1 ≤ ni % 3) := by
    unfold cellDist at hdist
    omega
  unfold _expand
  rcases hd with hc | hc | ⟨hc, hm⟩ | ⟨hc, hm⟩
  · refine ⟨"up", List.mem_filterMap.2 ⟨(-1, 0, "up"), by simp [_MOVES], ?_⟩⟩
    dsimp only
    rw [if_pos (by constructor <;> [omega; constructor <;> [omega; constructor <;> omega]])]
    rw [show ((((idx / 3 : Nat) : Int) + -1) * 3 + (((idx % 3 : Nat) : Int) + 0)).toNat = ni
      from by omega]
  · refine ⟨"down", List.mem_filterMap.2 ⟨(1, 0, "down"), by simp [_MOVES], ?_⟩⟩
    dsimp only
    rw [if_pos (by constructor <;> [omega; constructor <;> [omega; constructor <;> omega]])]
    rw [show ((((idx / 3 : Nat) : Int) + 1) * 3 + (((idx % 3 : Nat) : Int) + 0)).toNat = ni
      from by omega]
  · refine ⟨"left", List.mem_filterMap.2 ⟨(0, -1, "left"), by simp [_MOVES], ?_⟩⟩
    dsimp only
    rw [if_pos (by constructor <;> [omega; constructor <;> [omega; constructor <;> omega]])]
    rw [show ((((idx / 3 : Nat) : Int) + 0) * 3 + (((idx % 3 : Nat) : Int) + -1)).toNat = ni
      from by omega]
  · refine ⟨"right", List.mem_filterMap.2 ⟨(0, 1, "right"), by simp [_MOVES], ?_⟩⟩
    dsimp only
    rw [if_pos (by constructor <;> [omega; constructor <;> [omega; constructor <;> omega]])]
    rw [show ((((idx / 3 : Nat) : Int) + 0) * 3 + (((idx % 3 : Nat) : Int) + 1)).toNat = ni
      from by omega]

/-- A valid swap word behaves like a sequence of moves: the result is valid,
its blank ends at `f`, and it is reachable in `w.length` moves. -/
theorem swapWord_reach {b : List Nat} (hb : ValidBoard b) {w : List (Nat × Nat)} {f : Nat}
    (hw : swapWordOK (b.indexOf 0) w f = true) :
    ValidBoard (applySwaps b w) ∧ (applySwaps b w).indexOf 0 = f ∧
      reachIn w.length b (applySwaps b w) = true := by
  induction w generalizing b with
  | nil =>
    have hf : b.indexOf 0 = f := by simpa [swapWordOK] using hw
    refine ⟨hb, hf, ?_⟩
    rw [List.length_nil, reachIn_zero]
    rfl

  | cons q rest ih =>
    rw [show swapWordOK (b.indexOf 0) (q :: rest) f
        = ((b.indexOf 0 == q.1) && decide (q.2 < 9) && (cellDist q.1 q.2 == 1)
          && swapWordOK q.2 rest f) from rfl] at hw
    simp only [Bool.and_eq_true, beq_iff_eq, decide_eq_true_eq] at hw
    obtain ⟨⟨⟨h1, h2⟩, h3⟩, h4⟩ := hw
    rw [applySwaps_cons]
    have hq1 : q.1 = b.indexOf 0 := h1.symm
    have hsw_valid : ValidBoard (listSwap b q.1 q.2) := by
      rw [hq1]
      exact hb.of_listSwap (hb.idxOf_lt (by omega)) h2
    have hsw_blank : (listSwap b q.1 q.2).indexOf 0 = q.2 := by
      rw [hq1]
      exact blank_listSwap hb h2
    have hrest := ih hsw_valid (by rw [hsw_blank]; exact h4)
    refine ⟨hrest.1, hrest.2.1, ?_⟩
    rw [List.length_cons]
    have hstep : reachIn 1 b (listSwap b q.1 q.2) = true := by
      apply reachIn_one
      rw [hq1]
      apply expand_complete hb h2
      rw [← hq1]
      exact h3
    have := reachIn_trans hstep hrest.2.2
    rw [show 1 + rest.length = rest.length + 1 from by omega] at this
    exact this

theorem blank_to_8 : ∀ i, i < 9 → ∃ w, swapWordOK i w 8 = true := by
  have main : ∀ d i, i < 9 → 8 - i ≤ d → ∃ w, swapWordOK i w 8 = true := by
    intro d
    induction d with
    | zero =>
      intro i hi hd
      have h8 : i = 8 := by omega
      exact ⟨[], by simp [swapWordOK, h8]⟩
    | succ m ih =>
      intro i hi hd
      by_cases h8 : i = 8
      · exact ⟨[], by simp [swapWordOK, h8]⟩
      · set j := if i % 3 < 2 then i + 1 else i + 3 with hj
        have hj9 : j < 9 := by
          rw [hj]
          split <;> omega
        have hjd : cellDist i j = 1 := by
          rw [hj]
          split <;> (unfold cellDist; omega)
        obtain ⟨w, hw⟩ := ih j hj9 (by rw [hj]; split <;> omega)
        refine ⟨(i, j) :: w, ?_⟩
        rw [show swapWordOK i ((i, j) :: w) 8
          = ((i == i) && decide (j < 9) && (cellDist i j == 1) && swapWordOK j w 8) from rfl]
        simp [hj9, hjd, hw]
  intro i hi
  exact main (8 - i) i hi (le_refl _)

/-! ### Swap words as permutations of the nine cells -/

theorem length_permuteBoard (π : Equiv.Perm (Fin 9)) (b : List Nat) :
    (permuteBoard π b).length = 9 := by
  unfold permuteBoard
  rw [List.length_ofFn]

theorem getD_permuteBoard (π : Equiv.Perm (Fin 9)) (b : List Nat) (k : Fin 9) :
    (permuteBoard π b).getD k.val 0 = b.getD (π k) 0 := by
  unfold permuteBoard
  rw [List.getD_eq_getElem _ _ (by rw [List.length_ofFn]; exact k.isLt)]
  rw [List.getElem_ofFn]

theorem permuteBoard_one {b : List Nat} (hlen : b.length = 9) : permuteBoard 1 b = b := by
  apply List.ext_getElem (by rw [length_permuteBoard, hlen])
  intro k h1 h2
  have hk : k < 9 := by rw [length_permuteBoard] at h1; exact h1
  have := getD_permuteBoard 1 b ⟨k, hk⟩
  rw [List.getD_eq_getElem _ _ h1] at this
  rw [this]
  show b.getD k 0 = _
  rw [List.getD_eq_getElem _ _ h2]

theorem permuteBoard_mul (σ τ : Equiv.Perm (Fin 9)) {b : List Nat} (hlen : b.length = 9) :
    permuteBoard (σ * τ) b = permuteBoard τ (permuteBoard σ b) := by
  apply List.ext_getElem (by rw [length_permuteBoard, length_permuteBoard])
  intro k h1 h2
  have hk : k < 9 := by rw [length_permuteBoard] at h1; exact h1
  have ha := getD_permuteBoard (σ * τ) b ⟨k, hk⟩
  have hb2 := getD_permuteBoard τ (permuteBoard σ b) ⟨k, hk⟩
  have hc := getD_permuteBoard σ b (τ ⟨k, hk⟩)
  rw [List.getD_eq_getElem _ _ h1] at ha
  rw [List.getD_eq_getElem _ _ h2] at hb2
  rw [ha, hb2, hc]
  rfl

theorem listSwap_eq_permuteBoard {b : List Nat} (hlen : b.length = 9) {i j : Nat}
    (hi : i < 9) (hj : j < 9) :
    listSwap b i j = permuteBoard (Equiv.swap (finOf i) (finOf j)) b := by
  have hfi : (finOf i).val = i := Nat.mod_eq_of_lt hi
  have hfj : (finOf j).val = j := Nat.mod_eq_of_lt hj
  apply List.ext_getElem (by rw [length_permuteBoard, length_listSwap, hlen])
  intro k h1 h2
  have hk : k < 9 := by rw [length_listSwap, hlen] at h1; exact h1
  have hperm := getD_permuteBoard (Equiv.swap (finOf i) (finOf j)) b ⟨k, hk⟩
  rw [List.getD_eq_getElem _ _ h2] at hperm
  rw [hperm]
  have hswap := getD_listSwap b i j k (by omega) (by omega)
  rw [List.getD_eq_getElem _ _ h1] at hswap
  rw [hswap]
  by_cases hkj : k = j
  · rw [if_pos hkj]
    have : Equiv.swap (finOf i) (finOf j) ⟨k, hk⟩ = finOf i := by
      rw [show (⟨k, hk⟩ : Fin 9) = finOf j from Fin.ext (by rw [hfj]; exact hkj)]
      exact Equiv.swap_apply_right _ _
    rw [this, hfi]
  · rw [if_neg hkj]
    by_cases hki : k = i
    · rw [if_pos hki]
      have : Equiv.swap (finOf i) (finOf j) ⟨k, hk⟩ = finOf j := by
        rw [show (⟨k, hk⟩ : Fin 9) = finOf i from Fin.ext (by rw [hfi]; exact hki)]
        exact Equiv.swap_apply_left _ _
      rw [this, hfj]
    · rw [if_neg hki]
      have : Equiv.swap (finOf i) (finOf j) ⟨k, hk⟩ = ⟨k, hk⟩ := by
        apply Equiv.swap_apply_of_ne_of_ne
        · intro hc
          exact hki (by rw [← hfi, ← hc])
        · intro hc
          exact hkj (by rw [← hfj, ← hc])
      rw [this]

theorem cellDist_symm (a b : Nat) : cellDist a b = cellDist b a := by
  unfold cellDist
  omega

theorem swapWordOK_append {i m f : Nat} {w1 w2 : List (Nat × Nat)}
    (h1 : swapWordOK i w1 m = true) (h2 : swapWordOK m w2 f = true) :
    swapWordOK i (w1 ++ w2) f = true := by
  induction w1 generalizing i with
  | nil =>
    simp only [swapWordOK] at h1
    rw [eq_of_beq h1]
    exact h2
  | cons q rest ih =>
    simp only [swapWordOK, Bool.and_eq_true] at h1 ⊢
    exact ⟨⟨⟨h1.1.1.1, h1.1.1.2⟩, h1.1.2⟩, ih h1.2⟩

theorem reverseWord_nil : reverseWord [] = [] := rfl

theorem reverseWord_cons (q : Nat × Nat) (w : List (Nat × Nat)) :
    reverseWord (q :: w) = reverseWord w ++ [(q.2, q.1)] := by
  unfold reverseWord
  rw [List.map_cons, List.reverse_cons]

theorem swapWordOK_reverse {i f : Nat} {w : List (Nat × Nat)}
    (h : swapWordOK i w f = true) (hi : i < 9) :
    swapWordOK f (reverseWord w) i = true := by
  induction w generalizing i with
  | nil =>
    simp only [swapWordOK] at h
    rw [reverseWord_nil, eq_of_beq h]
    simp [swapWordOK]
  | cons q rest ih =>
    simp only [swapWordOK, Bool.and_eq_true] at h
    obtain ⟨⟨⟨hq1, hq2⟩, hd⟩, hrest⟩ := h
    rw [reverseWord_cons]
    apply swapWordOK_append (ih hrest (by exact of_decide_eq_true hq2))
    simp only [swapWordOK, Bool.and_eq_true]
    refine ⟨⟨⟨beq_self_eq_true _, ?_⟩, ?_⟩, ?_⟩
    · exact decide_eq_true (by rw [← eq_of_beq hq1]; exact hi)
    · rw [cellDist_symm]
      exact hd
    · rw [← eq_of_beq hq1]
      simp [swapWordOK]

theorem applySwaps_eq_permuteBoard {b : List Nat} (hlen : b.length = 9)
    {i f : Nat} (hi : i < 9) {w : List (Nat × Nat)} (h : swapWordOK i w f = true) :
    applySwaps b w = permuteBoard (permOfSwaps w) b := by
  induction w generalizing b i with
  | nil =>
    rw [applySwaps_nil]
    exact (permuteBoard_one hlen).symm
  | cons q rest ih =>
    simp only [swapWordOK, Bool.and_eq_true] at h
    obtain ⟨⟨⟨hq1, hq2⟩, _⟩, hrest⟩ := h
    have hq1' : q.1 = i := (eq_of_beq hq1).symm
    have hq2' : q.2 < 9 := of_decide_eq_true hq2
    rw [applySwaps_cons]
    rw [ih (by rw [length_listSwap]; exact hlen) hq2' hrest]
    rw [listSwap_eq_permuteBoard hlen (by omega) hq2']
    rw [← permuteBoard_mul _ _ hlen]
    rfl

theorem permOfSwaps_append (w1 w2 : List (Nat × Nat)) :
    permOfSwaps (w1 ++ w2) = permOfSwaps w1 * permOfSwaps w2 := by
  induction w1 with
  | nil => rw [List.nil_append]; exact (one_mul _).symm
  | cons q rest ih =>
    show Equiv.swap (finOf q.1) (finOf q.2) * permOfSwaps (rest ++ w2) = _
    rw [ih]
    show _ = Equiv.swap (finOf q.1) (finOf q.2) * permOfSwaps rest * permOfSwaps w2
    rw [mul_assoc]

theorem permOfSwaps_reverseWord (w : List (Nat × Nat)) :
    permOfSwaps (reverseWord w) = (permOfSwaps w)⁻¹ := by
  induction w with
  | nil => rw [reverseWord_nil]; exact inv_one.symm
  | cons q rest ih =>
    rw [reverseWord_cons, permOfSwaps_append, ih]
    have h1 : permOfSwaps [(q.2, q.1)] = Equiv.swap (finOf q.2) (finOf q.1) := by
      show Equiv.swap (finOf q.2) (finOf q.1) * 1 = _
      rw [mul_one]
    have h2 : permOfSwaps (q :: rest) =
        Equiv.swap (finOf q.1) (finOf q.2) * permOfSwaps rest := rfl
    rw [h1, Equiv.swap_comm (finOf q.2) (finOf q.1), h2, mul_inv_rev, Equiv.swap_inv]

theorem realizable_one : RealizablePerm 1 := ⟨[], by simp [swapWordOK], rfl⟩

theorem realizable_mul {σ τ : Equiv.Perm (Fin 9)}
    (hσ : RealizablePerm σ) (hτ : RealizablePerm τ) : RealizablePerm (σ * τ) := by
  obtain ⟨w1, hw1, hp1⟩ := hσ
  obtain ⟨w2, hw2, hp2⟩ := hτ
  exact ⟨w1 ++ w2, swapWordOK_append hw1 hw2, by rw [permOfSwaps_append, hp1, hp2]⟩

theorem realizable_inv {σ : Equiv.Perm (Fin 9)}
    (hσ : RealizablePerm σ) : RealizablePerm σ⁻¹ := by
  obtain ⟨w, hw, hp⟩ := hσ
  exact ⟨reverseWord w, swapWordOK_reverse hw (by omega),
    by rw [permOfSwaps_reverseWord, hp]⟩

/-! ### Certificate words realizing all 3-cycles of the first eight cells

Each word keeps the blank cycling from cell 8 back to cell 8; the table is
indexed by the ordered triple of target cells. -/

set_option maxHeartbeats 16000000 in
set_option maxRecDepth 100000 in
theorem certTable_complete : (List.range 8).all (fun x => (List.range 8).all (fun y =>
    (List.range 8).all (fun z => (x == y || y == z || x == z) || certOK x y z))) = true := by
  decide

theorem sigma_from_board {u : List (Nat × Nat)} (hu : swapWordOK 8 u 8 = true)
    {k x : Nat} (hk : k < 9) (hx : x < 9)
    (h : (applySwaps GOAL_STATE u).getD k 0 = GOAL_STATE.getD x 0) :
    permOfSwaps u ⟨k, hk⟩ = ⟨x, hx⟩ := by
  have hlen : GOAL_STATE.length = 9 := rfl
  rw [applySwaps_eq_permuteBoard hlen (by omega) hu] at h
  have hg := getD_permuteBoard (permOfSwaps u) GOAL_STATE ⟨k, hk⟩
  rw [hg] at h
  have hv : ValidBoard GOAL_STATE := by decide
  exact Fin.ext (hv.getD_inj (permOfSwaps u ⟨k, hk⟩).isLt hx h)

theorem goal_getD_small {v : Nat} (hv : v < 8) : GOAL_STATE.getD v 0 = v + 1 := by
  interval_cases v <;> rfl

theorem certOK_extract {x y z : Nat} (hx : x < 8) (hy : y < 8) (hz : z < 8)
    (hxy : x ≠ y) (hyz : y ≠ z) (hxz : x ≠ z) : certOK x y z = true := by
  have hall := certTable_complete
  simp only [List.all_eq_true, List.mem_range] at hall
  have h := hall x hx y hy z hz
  simp only [Bool.or_eq_true, beq_iff_eq] at h
  rcases h with ((h | h) | h) | h
  · exact absurd h hxy
  · exact absurd h hyz
  · exact absurd h hxz
  · exact h

theorem permOfSwaps_baseWord : permOfSwaps baseWord =
    Equiv.swap (finOf 7) (finOf 4) * Equiv.swap (finOf 7) (finOf 5) := by
  decide

theorem conj_three_cycle (σ : Equiv.Perm (Fin 9)) (a b c : Fin 9) :
    σ * (Equiv.swap a c * Equiv.swap a b) * σ⁻¹ =
    Equiv.swap (σ a) (σ c) * Equiv.swap (σ a) (σ b) := by
  rw [Equiv.swap_apply_apply, Equiv.swap_apply_apply]
  group

theorem realizable_conj {σ π : Equiv.Perm (Fin 9)}
    (hσ : RealizablePerm σ) (hπ : RealizablePerm π) : RealizablePerm (σ * π * σ⁻¹) :=
  realizable_mul (realizable_mul hσ hπ) (realizable_inv hσ)

theorem cert_realizable {x y z : Fin 9} (hx : x.val < 8) (hy : y.val < 8) (hz : z.val < 8)
    (hxy : x ≠ y) (hyz : y ≠ z) (hxz : x ≠ z) :
    RealizablePerm (Equiv.swap x z * Equiv.swap x y) := by
  have hok := certOK_extract hx hy hz (fun h => hxy (Fin.ext h)) (fun h => hyz (Fin.ext h))
    (fun h => hxz (Fin.ext h))
  rw [certOK, Bool.and_eq_true, Bool.and_eq_true, Bool.and_eq_true] at hok
  obtain ⟨⟨⟨hu, h7⟩, h5⟩, h4⟩ := hok
  have hσ7 : permOfSwaps (certWord x.val y.val z.val) (finOf 7) = x := by
    have h := sigma_from_board hu (show (7 : Nat) < 9 by omega) x.isLt
      (by rw [goal_getD_small hx]; exact eq_of_beq h7)
    exact h
  have hσ5 : permOfSwaps (certWord x.val y.val z.val) (finOf 5) = y := by
    have h := sigma_from_board hu (show (5 : Nat) < 9 by omega) y.isLt
      (by rw [goal_getD_small hy]; exact eq_of_beq h5)
    exact h
  have hσ4 : permOfSwaps (certWord x.val y.val z.val) (finOf 4) = z := by
    have h := sigma_from_board hu (show (4 : Nat) < 9 by omega) z.isLt
      (by rw [goal_getD_small hz]; exact eq_of_beq h4)
    exact h
  have key : Equiv.swap x z * Equiv.swap x y =
      permOfSwaps (certWord x.val y.val z.val) *
        (Equiv.swap (finOf 7) (finOf 4) * Equiv.swap (finOf 7) (finOf 5)) *
        (permOfSwaps (certWord x.val y.val z.val))⁻¹ := by
    rw [conj_three_cycle (permOfSwaps (certWord x.val y.val z.val)) (finOf 7) (finOf 5)
      (finOf 4)]
    rw [hσ7, hσ5, hσ4]
  rw [key]
  exact realizable_conj ⟨certWord x.val y.val z.val, hu, rfl⟩
    ⟨baseWord, by decide, permOfSwaps_baseWord⟩

/-! ### Blank-fixing even permutations are realizable -/

theorem extendDomain_swap8 : ∀ a b : Fin 8,
    (Equiv.swap a b).extendDomain e8 = Equiv.swap ((e8 a).val) ((e8 b).val) := by
  decide

theorem fix8_pred {σ : Equiv.Perm (Fin 9)} (h8 : σ ⟨8, by omega⟩ = ⟨8, by omega⟩) :
    ∀ x, smallPred x ↔ smallPred (σ x) := by
  intro x
  unfold smallPred
  constructor
  · intro hx
    rcases Nat.lt_or_ge (σ x).val 8 with h | h
    · exact h
    · exfalso
      have hv : σ x = ⟨8, by omega⟩ := Fin.ext (by have := (σ x).isLt; simp; omega)
      have hinj := σ.injective (hv.trans h8.symm)
      rw [hinj] at hx
      have hval : (⟨8, by omega⟩ : Fin 9).val = 8 := rfl
      omega
  · intro hσx
    rcases Nat.lt_or_ge x.val 8 with h | h
    · exact h
    · exfalso
      have hx8 : x = ⟨8, by omega⟩ := Fin.ext (by have := x.isLt; simp; omega)
      rw [hx8, h8] at hσx
      have hval : (⟨8, by omega⟩ : Fin 9).val = 8 := rfl
      omega

theorem extendDomain_restrictPerm {σ : Equiv.Perm (Fin 9)}
    (h : ∀ x, smallPred x ↔ smallPred (σ x)) (h8 : σ ⟨8, by omega⟩ = ⟨8, by omega⟩) :
    (restrictPerm σ h).extendDomain e8 = σ := by
  apply Equiv.ext
  intro x
  by_cases hx : smallPred x
  · rw [Equiv.Perm.extendDomain_apply_subtype _ e8 hx]
    simp only [restrictPerm, Equiv.permCongr_apply, Equiv.symm_symm, Equiv.apply_symm_apply]
    rw [Equiv.Perm.subtypePerm_apply]
  · rw [Equiv.Perm.extendDomain_apply_not_subtype _ e8 hx]
    have hx8 : x = ⟨8, by omega⟩ := by
      apply Fin.ext
      have h1 := x.isLt
      have h2 : ¬ x.val < 8 := hx
      simp
      omega
    rw [hx8, h8]

theorem threeCycle_decomp {τ : Equiv.Perm (Fin 8)} (h : Equiv.Perm.IsThreeCycle τ) :
    ∃ x y z : Fin 8, x ≠ y ∧ y ≠ z ∧ x ≠ z ∧ τ = Equiv.swap x z * Equiv.swap x y := by
  have hcard := h.card_support
  obtain ⟨x, hxs⟩ : τ.support.Nonempty := Finset.card_pos.1 (by omega)
  have h3 : τ ^ 3 = 1 := by
    have ho := h.orderOf
    rw [← ho]
    exact pow_orderOf_eq_one τ
  have h3x : τ (τ (τ x)) = x := by
    have := Equiv.Perm.ext_iff.1 h3 x
    simpa [pow_succ, Equiv.Perm.mul_apply] using this
  have hx : τ x ≠ x := Equiv.Perm.mem_support.1 hxs
  have hys : τ x ∈ τ.support := (Equiv.Perm.apply_mem_support).2 hxs
  have hy : τ (τ x) ≠ τ x := Equiv.Perm.mem_support.1 hys
  have hzx : τ (τ x) ≠ x := by
    intro hc
    apply hx
    have := congrArg τ hc
    rw [h3x] at this
    exact this.symm
  refine ⟨x, τ x, τ (τ x), fun hc => hx hc.symm, fun hc => hy hc.symm, fun hc => hzx hc.symm, ?_⟩
  have hsub : ({x, τ x, τ (τ x)} : Finset (Fin 8)) ⊆ τ.support := by
    intro w hw
    simp only [Finset.mem_insert, Finset.mem_singleton] at hw
    rcases hw with rfl | rfl | rfl
    · exact hxs
    · exact hys
    · exact (Equiv.Perm.apply_mem_support).2 hys
  have hcard3 : ({x, τ x, τ (τ x)} : Finset (Fin 8)).card = 3 := by
    rw [Finset.card_insert_of_not_mem, Finset.card_insert_of_not_mem, Finset.card_singleton]
    · simp only [Finset.mem_singleton]
      exact hy.symm
    · simp only [Finset.mem_insert, Finset.mem_singleton]
      push_neg
      exact ⟨fun hc => hx hc.symm, fun hc => hzx hc.symm⟩
  have hsupp : ({x, τ x, τ (τ x)} : Finset (Fin 8)) = τ.support :=
    Finset.eq_of_subset_of_card_le hsub (by omega)
  apply Equiv.ext
  intro w
  rw [Equiv.Perm.mul_apply]
  by_cases hwx : w = x
  · rw [hwx, Equiv.swap_apply_left, Equiv.swap_apply_of_ne_of_ne hx hy.symm]
  · by_cases hwy : w = τ x
    · rw [hwy, Equiv.swap_apply_right, Equiv.swap_apply_left]
    · by_cases hwz : w = τ (τ x)
      · rw [hwz, Equiv.swap_apply_of_ne_of_ne hzx hy, Equiv.swap_apply_right, h3x]
      · rw [Equiv.swap_apply_of_ne_of_ne hwx hwy, Equiv.swap_apply_of_ne_of_ne hwx hwz]
        have hws : w ∉ τ.support := by
          rw [← hsupp]
          simp only [Finset.mem_insert, Finset.mem_singleton]
          push_neg
          exact ⟨hwx, hwy, hwz⟩
        exact Equiv.Perm.not_mem_support.1 hws

theorem realizable_of_sign_one {σ : Equiv.Perm (Fin 9)}
    (h8 : σ ⟨8, by omega⟩ = ⟨8, by omega⟩) (hs : Equiv.Perm.sign σ = 1) :
    RealizablePerm σ := by
  have hpred := fix8_pred h8
  have hext := extendDomain_restrictPerm hpred h8
  have hsign : Equiv.Perm.sign (restrictPerm σ hpred) = 1 := by
    have h := Equiv.Perm.sign_extendDomain (restrictPerm σ hpred) e8
    rw [hext, hs] at h
    exact h.symm
  have hmem : restrictPerm σ hpred ∈ alternatingGroup (Fin 8) :=
    Equiv.Perm.mem_alternatingGroup.2 hsign
  rw [← Equiv.Perm.closure_three_cycles_eq_alternating] at hmem
  have main : RealizablePerm ((restrictPerm σ hpred).extendDomain e8) := by
    refine Subgroup.closure_induction ?_ ?_ ?_ ?_ hmem
    · intro τ hτ
      obtain ⟨x, y, z, hxy, hyz, hxz, hdec⟩ := threeCycle_decomp hτ
      rw [hdec, ← Equiv.Perm.extendDomain_mul, extendDomain_swap8, extendDomain_swap8]
      have hvx : ((e8 x).val : Fin 9).val < 8 := (e8 x).2
      have hvy : ((e8 y).val : Fin 9).val < 8 := (e8 y).2
      have hvz : ((e8 z).val : Fin 9).val < 8 := (e8 z).2
      have hinj : ∀ a b : Fin 8, a ≠ b → (e8 a).val ≠ (e8 b).val := by
        intro a b hab hc
        exact hab (e8.injective (Subtype.ext hc))
      exact cert_realizable hvx hvy hvz (hinj x y hxy) (hinj y z hyz) (hinj x z hxz)
    · rw [Equiv.Perm.extendDomain_one]
      exact realizable_one
    · intro g1 g2 hm1 hm2 h1 h2
      rw [← Equiv.Perm.extendDomain_mul]
      exact realizable_mul h1 h2
    · intro g hm h
      rw [← Equiv.Perm.extendDomain_inv]
      exact realizable_inv h
  rw [hext] at main
  exact main

/-! ### From inversion parity to a realizable permutation -/

theorem countGT_singleton_pos {x y : Nat} (h : y < x) : countGT x [y] = 1 := by
  unfold countGT
  rw [List.filter_cons, if_pos (by simpa using h)]
  rfl

theorem countGT_singleton_zero {x y : Nat} (h : ¬ y < x) : countGT x [y] = 0 := by
  unfold countGT
  rw [List.filter_cons, if_neg (by simpa using h)]
  rfl

theorem invCount_adj_swap (u w : List Nat) {x y : Nat} (h : y < x) :
    invCount (u ++ x :: y :: w) = invCount (u ++ y :: x :: w) + 1 := by
  rw [invCount_append, invCount_append, invCount_cons, invCount_cons,
    invCount_cons, invCount_cons]
  have hcross : crossGT u (x :: y :: w) = crossGT u (y :: x :: w) :=
    crossGT_perm u (List.Perm.swap y x w)
  have hx : countGT x (y :: w) = 1 + countGT x w := by
    rw [show y :: w = [y] ++ w from rfl, countGT_append, countGT_singleton_pos h]
  have hy : countGT y (x :: w) = countGT y w := by
    rw [show x :: w = [x] ++ w from rfl, countGT_append,
      countGT_singleton_zero (by omega)]
    omega
  omega

theorem invCount_zero_sorted : ∀ {l : List Nat}, invCount l = 0 → l.Sorted (· ≤ ·) := by
  intro l
  induction l with
  | nil => intro _; exact List.sorted_nil
  | cons a t ih =>
    intro h
    rw [invCount_cons] at h
    have hc : countGT a t = 0 := by omega
    have ht : invCount t = 0 := by omega
    rw [List.sorted_cons]
    refine ⟨?_, ih ht⟩
    intro b hb
    by_contra hba
    have hmem : b ∈ t.filter (fun x => decide (x < a)) :=
      List.mem_filter.2 ⟨hb, by simpa using Nat.lt_of_not_le hba⟩
    have : t.filter (fun x => decide (x < a)) ≠ [] := fun hc2 => by
      rw [hc2] at hmem
      exact absurd hmem (List.not_mem_nil b)
    unfold countGT at hc
    exact this (List.length_eq_zero.1 hc)

theorem descent_of_invCount_pos : ∀ {l : List Nat}, invCount l ≠ 0 →
    ∃ u x y w, l = u ++ x :: y :: w ∧ y < x := by
  intro l
  induction l with
  | nil => intro h; exact absurd rfl h
  | cons a t ih =>
    intro h
    cases t with
    | nil =>
      exfalso
      apply h
      rfl
    | cons b t2 =>
      by_cases hab : b < a
      · exact ⟨[], a, b, t2, rfl, hab⟩
      · by_cases ht : invCount (b :: t2) = 0
        · exfalso
          rw [invCount_cons] at h
          have hc : countGT a (b :: t2) ≠ 0 := fun hz => h (by omega)
          have hex : ∃ e ∈ b :: t2, e < a := by
            by_contra hno
            push_neg at hno
            apply hc
            unfold countGT
            rw [List.length_eq_zero]
            rw [List.filter_eq_nil_iff]
            intro e he
            simpa using Nat.not_lt.2 (hno e he)
          obtain ⟨e, he, hea⟩ := hex
          rcases List.mem_cons.1 he with rfl | he2
          · exact hab hea
          · have heb : e < b := by omega
            have hmem : e ∈ t2.filter (fun x => decide (x < b)) :=
              List.mem_filter.2 ⟨he2, by simpa using heb⟩
            rw [invCount_cons] at ht
            have : t2.filter (fun x => decide (x < b)) = [] := by
              apply List.length_eq_zero.1
              have : countGT b t2 = 0 := by omega
              exact this
            rw [this] at hmem
            exact absurd hmem (List.not_mem_nil e)
        · obtain ⟨u, x, y, w, heq, hyx⟩ := ih ht
          exact ⟨a :: u, x, y, w, by rw [List.cons_append, ← heq], hyx⟩

theorem listSwap_cons_succ (a : Nat) (l : List Nat) (i j : Nat) :
    listSwap (a :: l) (i + 1) (j + 1) = a :: listSwap l i j := rfl

theorem listSwap_adj : ∀ (u : List Nat) (w : List Nat) (x y : Nat),
    listSwap (u ++ x :: y :: w) u.length (u.length + 1) = u ++ y :: x :: w := by
  intro u
  induction u with
  | nil => intro w x y; rfl
  | cons a t ih =>
    intro w x y
    show listSwap (a :: (t ++ x :: y :: w)) (t.length + 1) (t.length + 1 + 1) = _
    rw [listSwap_cons_succ, ih]
    rfl

theorem blank8_decomp {C : List Nat} (hb : ValidBoard C) (h8 : C.getD 8 0 = 0) :
    C = C.take 8 ++ [0] ∧ ∀ e ∈ C.take 8, e ≠ 0 := by
  have hlen : C.length = 9 := hb.length
  have hidx : C.indexOf 0 = 8 := by
    have h := hb.idx_of_getD (show (8 : Nat) < 9 by omega)
    rw [h8] at h
    exact h
  constructor
  · have h1 := (List.take_append_drop 8 C).symm
    have h2 : C.drop 8 = [0] := by
      rw [List.drop_eq_getElem_cons (by omega)]
      rw [List.drop_eq_nil_of_le (by omega)]
      have h3 : C[8] = 0 := by
        rw [← List.getD_eq_getElem C 0 (by omega)]
        exact h8
      rw [h3]
    rw [← h2]
    exact h1
  · intro e he
    rcases List.mem_iff_getElem.1 he with ⟨k, hk, hek⟩
    have hk8 : k < 8 := by
      have h := hk
      rw [List.length_take] at h
      omega
    have hkC : k < C.length := by omega
    have hCk : C[k] = e := by rw [← hek, List.getElem_take]
    have hnz := getD_ne_zero_of_ne_blank hb (show k < 9 by omega) (by omega)
    rw [List.getD_eq_getElem C 0 hkC, hCk] at hnz
    exact hnz

theorem filter_blank8 {C : List Nat} (hb : ValidBoard C) (h8 : C.getD 8 0 = 0) :
    C.filter (· != 0) = C.take 8 := by
  obtain ⟨hdec, hne⟩ := blank8_decomp hb h8
  conv_lhs => rw [hdec]
  rw [List.filter_append, filter_ne_zero_all hne]
  show C.take 8 ++ [] = C.take 8
  rw [List.append_nil]

theorem take8_perm {C : List Nat} (hb : ValidBoard C) (h8 : C.getD 8 0 = 0) :
    (C.take 8).Perm [1, 2, 3, 4, 5, 6, 7, 8] := by
  have hperm : (C.filter (· != 0)).Perm ((List.range 9).filter (· != 0)) :=
    (show C.Perm (List.range 9) from hb).filter _
  rw [filter_blank8 hb h8] at hperm
  rw [show (List.range 9).filter (· != 0) = [1, 2, 3, 4, 5, 6, 7, 8] from by decide] at hperm
  exact hperm

theorem exists_perm_of_blank8 : ∀ (n : Nat) (C : List Nat), ValidBoard C →
    C.getD 8 0 = 0 → invCount (C.filter (· != 0)) = n →
    ∃ σ : Equiv.Perm (Fin 9), permuteBoard σ GOAL_STATE = C ∧
      σ ⟨8, by omega⟩ = ⟨8, by omega⟩ ∧ Equiv.Perm.sign σ = (-1 : ℤˣ) ^ n := by
  intro n
  induction n with
  | zero =>
    intro C hb h8 hinv
    rw [filter_blank8 hb h8] at hinv
    have hsort : (C.take 8).Sorted (· ≤ ·) := invCount_zero_sorted hinv
    have heq : C.take 8 = [1, 2, 3, 4, 5, 6, 7, 8] :=
      List.eq_of_perm_of_sorted (take8_perm hb h8) hsort (by decide)
    have hC : C = GOAL_STATE := by
      rw [(blank8_decomp hb h8).1, heq]
      rfl
    subst hC
    exact ⟨1, permuteBoard_one (show GOAL_STATE.length = 9 from rfl), rfl,
      by rw [pow_zero, map_one]⟩
  | succ m ih =>
    intro C hb h8 hinv
    rw [filter_blank8 hb h8] at hinv
    have hpos : invCount (C.take 8) ≠ 0 := by omega
    obtain ⟨u, x, y, w, htk, hyx⟩ := descent_of_invCount_pos hpos
    have hlen8 : (C.take 8).length = 8 := by
      rw [List.length_take, hb.length]
      omega
    have hulen : u.length + 2 + w.length = 8 := by
      rw [htk] at hlen8
      simp only [List.length_append, List.length_cons] at hlen8
      omega
    have hd1 : u.length + 1 < 8 := by omega
    have hCd : C = u ++ x :: y :: (w ++ [0]) := by
      rw [(blank8_decomp hb h8).1, htk]
      simp [List.append_assoc]
    have hswap : listSwap C u.length (u.length + 1) = u ++ y :: x :: (w ++ [0]) := by
      conv_lhs => rw [hCd]
      exact listSwap_adj u (w ++ [0]) x y
    have hb2 : ValidBoard (listSwap C u.length (u.length + 1)) :=
      hb.of_listSwap (by omega) (by omega)
    have h82 : (listSwap C u.length (u.length + 1)).getD 8 0 = 0 := by
      rw [getD_listSwap C u.length (u.length + 1) 8 (by rw [hb.length]; omega)
        (by rw [hb.length]; omega)]
      rw [if_neg (by omega), if_neg (by omega)]
      exact h8
    have hfil2 : (listSwap C u.length (u.length + 1)).filter (· != 0)
        = u ++ y :: x :: w := by
      rw [filter_blank8 hb2 h82]
      rw [hswap]
      rw [show u ++ y :: x :: (w ++ [0]) = (u ++ y :: x :: w) ++ [0] from by
        simp [List.append_assoc]]
      rw [List.take_append_of_le_length (by simp [List.length_append]; omega)]
      apply List.take_of_length_le
      simp [List.length_append]
      omega
    have hinv2 : invCount ((listSwap C u.length (u.length + 1)).filter (· != 0)) = m := by
      rw [hfil2]
      have hswc := invCount_adj_swap u w hyx
      rw [htk] at hinv
      omega
    obtain ⟨σ2, hσ2C, hσ2fix, hσ2sign⟩ :=
      ih (listSwap C u.length (u.length + 1)) hb2 h82 hinv2
    have hback : listSwap (listSwap C u.length (u.length + 1))
        u.length (u.length + 1) = C := by
      conv_lhs => rw [hswap]
      rw [listSwap_adj u (w ++ [0]) y x]
      exact hCd.symm
    have hsignswap : Equiv.Perm.sign (Equiv.swap (finOf u.length) (finOf (u.length + 1)))
        = -1 := by
      apply Equiv.Perm.sign_swap
      intro hc
      have hv : u.length % 9 = (u.length + 1) % 9 := congrArg Fin.val hc
      omega
    have hswapfix : Equiv.swap (finOf u.length) (finOf (u.length + 1)) ⟨8, by omega⟩
        = ⟨8, by omega⟩ := by
      apply Equiv.swap_apply_of_ne_of_ne
      · intro hc
        have hv : (8 : Nat) = u.length % 9 := congrArg Fin.val hc
        omega
      · intro hc
        have hv : (8 : Nat) = (u.length + 1) % 9 := congrArg Fin.val hc
        omega
    refine ⟨σ2 * Equiv.swap (finOf u.length) (finOf (u.length + 1)), ?_, ?_, ?_⟩
    · rw [permuteBoard_mul _ _ (show GOAL_STATE.length = 9 from rfl), hσ2C]
      rw [← listSwap_eq_permuteBoard hb2.length (by omega) (by omega)]
      exact hback
    · rw [Equiv.Perm.mul_apply, hswapfix, hσ2fix]
    · rw [map_mul, hσ2sign, hsignswap, pow_succ]

/-! ### Even inversion parity implies solvability -/

theorem neg_one_pow_even {n : Nat} (h : n % 2 = 0) : ((-1 : ℤˣ)) ^ n = 1 := by
  obtain ⟨k, hk⟩ := Nat.even_iff.2 h
  subst hk
  rw [show k + k = 2 * k from by omega, pow_mul]
  rw [show ((-1 : ℤˣ)) ^ 2 = 1 from by decide, one_pow]

theorem solvable_of_is_solvable {b : List Nat} (hb : ValidBoard b)
    (hs : is_solvable b = true) : Solvable b := by
  obtain ⟨w1, hw1⟩ := blank_to_8 (b.indexOf 0) (hb.idxOf_lt (by omega))
  obtain ⟨hbC, hidxC, hreach1⟩ := swapWord_reach hb hw1
  have h8 : (applySwaps b w1).getD 8 0 = 0 := by
    have h := hbC.getD_idxOf (show (0 : Nat) < 9 by omega)
    rw [hidxC] at h
    exact h
  have hsC : is_solvable (applySwaps b w1) = true := by
    rw [← is_solvable_reachIn hb hreach1]
    exact hs
  have heven : invCount ((applySwaps b w1).filter (· != 0)) % 2 = 0 := by
    rw [is_solvable_eq_invCount] at hsC
    exact eq_of_beq hsC
  obtain ⟨σ, hσC, hσfix, hσsign⟩ := exists_perm_of_blank8
    (invCount ((applySwaps b w1).filter (· != 0))) (applySwaps b w1) hbC h8 rfl
  have hsign : Equiv.Perm.sign σ = 1 := by
    rw [hσsign]
    exact neg_one_pow_even heven
  have hfix : σ⁻¹ ⟨8, by omega⟩ = ⟨8, by omega⟩ := by
    calc σ⁻¹ ⟨8, by omega⟩ = σ⁻¹ (σ ⟨8, by omega⟩) := by rw [hσfix]
    _ = ⟨8, by omega⟩ := Equiv.Perm.inv_apply_self _ _
  have hsigninv : Equiv.Perm.sign σ⁻¹ = 1 := by
    rw [map_inv, hsign]
    rfl
  obtain ⟨w2, hw2, hperm2⟩ := realizable_of_sign_one hfix hsigninv
  have hcomp := permuteBoard_mul σ σ⁻¹ (show GOAL_STATE.length = 9 from rfl)
  rw [mul_inv_cancel, hσC, permuteBoard_one (show GOAL_STATE.length = 9 from rfl)] at hcomp
  have happ : applySwaps (applySwaps b w1) w2 = GOAL_STATE := by
    rw [applySwaps_eq_permuteBoard hbC.length (by omega) hw2, hperm2, ← hcomp]
  have hreach2 : reachIn w2.length (applySwaps b w1) GOAL_STATE = true := by
    have h := swapWord_reach hbC (by rw [hidxC]; exact hw2)
    rw [happ] at h
    exact h.2.2
  exact ⟨w1.length + w2.length, reachIn_trans hreach1 hreach2⟩

/-- Claim C3: for every valid board with even inversion parity (`is_solvable`
returns true), `astar_solve` never reaches the open-set-exhausted failure
branch: it returns a successful result, and the "No solution found" error
outcome is unreachable under the solvability precondition. -/
theorem claim_C3_search_failure_unreachable (b : List Nat) (hb : ValidBoard b)
    (hs : is_solvable b = true) :
    (∃ r : SolveOk, astar_solve b = some (Except.ok r)) ∧
      ∀ e : String, astar_solve b ≠ some (Except.error e) := by
  obtain ⟨r, hr, _, _⟩ := astar_solve_spec hb (solvable_of_is_solvable hb hs)
  refine ⟨⟨r, hr⟩, ?_⟩
  intro e hc
  rw [hr] at hc
  exact absurd (Option.some.inj hc) (fun h => Except.noConfusion h)

theorem claim_C3_witness :
    ValidBoard GOAL_STATE ∧ is_solvable GOAL_STATE = true ∧
      ((∃ r : SolveOk, astar_solve GOAL_STATE = some (Except.ok r)) ∧
        ∀ e : String, astar_solve GOAL_STATE ≠ some (Except.error e)) :=
  ⟨by decide, by decide,
    claim_C3_search_failure_unreachable GOAL_STATE (by decide) (by decide)⟩

/-- Claim C4: for every valid board, `is_solvable` returns true iff the number
of inversions among the non-blank tiles is even, and equivalently iff some
sequence of blank-slide moves from the board reaches the goal board. -/
theorem claim_C4_solvability_iff (b : List Nat) (hb : ValidBoard b) :
    (is_solvable b = true ↔ invCount (b.filter (· != 0)) % 2 = 0) ∧
      (is_solvable b = true ↔ Solvable b) := by
  constructor
  · rw [is_solvable_eq_invCount]
    constructor
    · exact fun h => eq_of_beq h
    · exact fun h => by rw [h]; rfl
  · constructor
    · exact fun h => solvable_of_is_solvable hb h
    · exact fun h => is_solvable_of_solvable hb h

theorem claim_C4_witness :
    (ValidBoard [2, 1, 3, 4, 5, 6, 7, 8, 0] ∧
      ((is_solvable [2, 1, 3, 4, 5, 6, 7, 8, 0] = true ↔
          invCount (([2, 1, 3, 4, 5, 6, 7, 8, 0] : List Nat).filter (· != 0)) % 2 = 0) ∧
        (is_solvable [2, 1, 3, 4, 5, 6, 7, 8, 0] = true ↔
          Solvable [2, 1, 3, 4, 5, 6, 7, 8, 0]))) :=
  ⟨by decide, claim_C4_solvability_iff [2, 1, 3, 4, 5, 6, 7, 8, 0] (by decide)⟩
